import Mathlib

/-!
# Enrollment decision of the Elastic Agent container command

A shallow embedding of `shouldFleetEnroll`, `ackFleet`, `runContainerCmd`,
`ensureServiceToken`, `findPolicy`, `findKey`, `performGET` and `buildEnrollArgs`
(`internal/pkg/agent/cmd/container.go`), of the transport decorators
(`internal/pkg/fleetapi/client/round_trippers.go`) and of `arrayContains`
(`internal/pkg/eql/methods_array.go`), together with the properties the
specification states about them.  The loop behind the interface `FleetGateway`
(`internal/pkg/agent/application/coordinator/gateway.go`) is not part of the source
and is modelled from the specification.

The Go function talks to the outside through replaceable capabilities (the
file-stat function, the encrypted disk store, the Fleet client) and through
library calls (base64, PBKDF2, YAML).  Each of them is a field of `Env`; the
content of the encrypted store is the only mutable state and lives in `World`.
Every call of a capability is recorded in a trace of `Event`s, so that
statements such as "without any network call" are statements about the trace.
-/

namespace ElasticAgent

/-! ## Errors -/

/-- Go error values: `errors.New(text)` and `fmt.Errorf(text + ": %w", wrapped)`. -/
inductive GoError where
  | new (text : String)
  | errorf (text : String) (wrapped : GoError)
deriving DecidableEq, Repr

/-- Go `errors.Is(err, target)` for a non-nil `err`: the chain of wrapped errors
is searched for `target`. -/
def errorsIs : GoError → GoError → Bool
  | .new text, target => decide (GoError.new text = target)
  | .errorf text wrapped, target =>
      decide (GoError.errorf text wrapped = target) || errorsIs wrapped target

/-- Sentinel `ErrInvalidAPIKey` of `fleetapi/client/round_trippers.go`. -/
def ErrInvalidAPIKey : GoError := .new "invalid api key to authenticate with fleet"

/-- Go function results of the form `(value, error)`. -/
inductive Result (α : Type) where
  | ok (value : α)
  | err (e : GoError)
deriving DecidableEq, Repr

/-! ## Data model -/

/-- Byte slices (`[]byte`). -/
abbrev Bytes := List Nat

/-- Go `len(s)` of a string: its length in bytes. -/
def len (s : String) : Nat := s.utf8ByteSize

/-- The `Fleet` section of `setupConfig`, with the fields `shouldFleetEnroll`,
`runContainerCmd`, `findPolicy` and `buildEnrollArgs` read.  A duration is its number of
nanoseconds; a map is the list of its entries in the order a `range` visits them. -/
structure fleetConfig where
  Enroll : Bool := false
  Force : Bool := false
  ID : String := ""
  URL : String := ""
  EnrollmentToken : String := ""
  ReplaceToken : String := ""
  TokenName : String := ""
  TokenPolicyName : String := ""
  CA : String := ""
  Cert : String := ""
  CertKey : String := ""
  Insecure : Bool := false
  DaemonTimeout : Int := 0
  EnrollTimeout : Int := 0
  Headers : List (String × String) := []
deriving DecidableEq, Repr

/-- The `Elasticsearch` section of `fleetServerConfig`, with the fields read by
`ensureServiceToken` and `buildEnrollArgs`. -/
structure elasticsearchConfig where
  ServiceToken : String := ""
  ServiceTokenPath : String := ""
  Host : String := ""
  CA : String := ""
  CATrustedFingerprint : String := ""
  Cert : String := ""
  CertKey : String := ""
  Insecure : Bool := false
deriving DecidableEq, Repr

/-- The `FleetServer` section of `setupConfig`, with the fields read by `runContainerCmd`,
`ensureServiceToken` and `buildEnrollArgs`. -/
structure fleetServerConfig where
  Enable : Bool := false
  PolicyID : String := ""
  Elasticsearch : elasticsearchConfig := {}
  Host : String := ""
  Port : String := ""
  Cert : String := ""
  CertKey : String := ""
  PassphrasePath : String := ""
  ClientAuth : String := ""
  InsecureHTTP : Bool := false
  Timeout : Int := 0
  Headers : List (String × String) := []
deriving DecidableEq, Repr

/-- The `Fleet` section of `kibanaConfig`, with the fields read by `ensureServiceToken`. -/
structure kibanaFleetConfig where
  ServiceToken : String := ""
  ServiceTokenPath : String := ""
  Username : String := ""
  Password : String := ""
deriving DecidableEq, Repr

/-- The `Kibana` section of `setupConfig`. -/
structure kibanaConfig where
  Fleet : kibanaFleetConfig := {}
  RetrySleepDuration : Int := 0
  RetryMaxCount : Int := 0
  Headers : List (String × String) := []
deriving DecidableEq, Repr

/-- The setup configuration of the container command. -/
structure setupConfig where
  Fleet : fleetConfig := {}
  FleetServer : fleetServerConfig := {}
  Kibana : kibanaConfig := {}
deriving DecidableEq, Repr

/-- Stored identity record `configuration.AgentInfo`. -/
structure AgentInfo where
  ID : String := ""
deriving DecidableEq, Repr

/-- Client settings `remote.Config` of the stored configuration. -/
structure remoteConfig where
  Host : String := ""
  Hosts : List String := []
deriving DecidableEq, Repr

/-- Stored `configuration.FleetAgentConfig`; `Info` is a pointer in Go and may be nil. -/
structure FleetAgentConfig where
  AccessAPIKey : String := ""
  EnrollmentTokenHash : String := ""
  ReplaceTokenHash : String := ""
  Client : remoteConfig := {}
  Info : Option AgentInfo := none
deriving DecidableEq, Repr

/-- Stored `configuration.Configuration`. -/
structure Configuration where
  Fleet : FleetAgentConfig := {}
deriving DecidableEq, Repr

/-- Parsed but not yet unpacked configuration (`*config.Config`). -/
structure RawConfig where
  text : String
deriving DecidableEq, Repr

/-- Mutable state: the content held by the encrypted disk store. -/
structure World where
  disk : String
deriving DecidableEq, Repr

/-- Calls of outside capabilities, in the order they are made. -/
inductive Event where
  | statAgentConfigFile (path : String)
  | newEncryptedDiskStore (path : String)
  | storeLoad
  | comparePBKDF2 (hash : Bytes) (password : String)
  | newFleetClient (apiKey : String) (cfg : remoteConfig)
  | ackExecute (agentID : String)
  | sleep
  | generatePBKDF2 (password : String)
  | storeSave (data : String)
deriving DecidableEq, Repr

/-- Network events: building the Fleet client and sending an acknowledge request. -/
def Event.isNetwork : Event → Bool
  | .newFleetClient _ _ => true
  | .ackExecute _ => true
  | _ => false

/-- Calls of the hash comparison. -/
def Event.isCompare : Event → Bool
  | .comparePBKDF2 _ _ => true
  | _ => false

/-- Calls that open, read or write the encrypted store. -/
def Event.isStore : Event → Bool
  | .newEncryptedDiskStore _ => true
  | .storeLoad => true
  | .storeSave _ => true
  | _ => false

/-- Acknowledge requests. -/
def Event.isAck : Event → Bool
  | .ackExecute _ => true
  | _ => false

/-- The capabilities and library functions `shouldFleetEnroll` calls.  An error
result of Go is `some e` (or `Result.err e`), success is `none` (or `Result.ok v`). -/
structure Env where
  /-- Value of `paths.AgentConfigFile()`. -/
  AgentConfigFile : String
  /-- Error of `statAgentConfigFile(path)`. -/
  statAgentConfigFile : String → Option GoError
  /-- Library `os.IsNotExist` on a non-nil error. -/
  osIsNotExist : GoError → Bool
  /-- Error of `newEncryptedDiskStore(ctx, path)`. -/
  newEncryptedDiskStore : String → Option GoError
  /-- Error of `store.Load()`; on success the reader yields the disk content. -/
  storeLoad : Option GoError
  /-- Function `config.NewConfigFrom`. -/
  NewConfigFrom : String → Result RawConfig
  /-- Function `configuration.NewFromConfig`. -/
  NewFromConfig : RawConfig → Result Configuration
  /-- Method `remote.Config.GetHosts`. -/
  GetHosts : remoteConfig → List String
  /-- Library `base64.StdEncoding.DecodeString`. -/
  base64Decode : String → Result Bytes
  /-- Library `base64.StdEncoding.EncodeToString`. -/
  base64Encode : Bytes → String
  /-- Sentinel `crypto.ErrMismatchedHashAndPassword`. -/
  ErrMismatchedHashAndPassword : GoError
  /-- Library `crypto.ComparePBKDF2HashAndPassword(hash, []byte(password))`. -/
  ComparePBKDF2HashAndPassword : Bytes → String → Option GoError
  /-- Library `crypto.GeneratePBKDF2FromPassword([]byte(password))`. -/
  GeneratePBKDF2FromPassword : String → Result Bytes
  /-- Error of `logger.New("fleet_client", false)`. -/
  loggerNew : Option GoError
  /-- Error of `newFleetClient(log, apiKey, cfg)`. -/
  newFleetClient : String → remoteConfig → Option GoError
  /-- Error of the `n`-th `ackCMD.Execute(ctx, ackRequest)` for the agent ID
  (`n` counts from 1 within one call of `ackFleet`). -/
  ackExecute : String → Nat → Option GoError
  /-- Library `yaml.Marshal(storedConfig)`. -/
  yamlMarshal : Configuration → Result String
  /-- Error of `enroll.SafelyStoreAgentInfo(store, reader)`. -/
  SafelyStoreAgentInfo : String → Option GoError

/-- Go `os.IsNotExist(err)`; a nil error is not a not-exist error. -/
def osIsNotExist (env : Env) : Option GoError → Bool
  | none => false
  | some e => env.osIsNotExist e

/-- What a call of `shouldFleetEnroll` can end in: a return of `(bool, error)`, or
the runtime panic of dereferencing a nil pointer. -/
inductive Outcome where
  | ret (shouldEnroll : Bool) (err : Option GoError)
  | nilPointerDereference
deriving DecidableEq, Repr

/-- A finished run: how it ended, the state left behind, the calls made. -/
structure Run where
  outcome : Outcome
  world : World
  trace : List Event
deriving DecidableEq, Repr

/-! ## Retry loop -/

/-- Error returned by the operation given to `backoff.Retry`: a plain error asks
for a retry, an error wrapped by `backoff.Permanent` stops the loop. -/
inductive OpError where
  | plain (e : GoError)
  | permanent (e : GoError)
deriving DecidableEq, Repr

/-- Library `backoff.Retry(operation, &backoff.ConstantBackOff...)`: the operation is run
until it succeeds or returns a permanent error; a constant back-off never stops
on its own, so between two attempts the loop only waits.  The Go loop is
unbounded; `fuel` bounds the iterations and `none` means it ran out. -/
def backoffRetry {σ : Type} (operation : σ → Option OpError × σ) (wait : σ → σ) :
    Nat → σ → Option (Option GoError × σ)
  | 0, _ => none
  | fuel + 1, s =>
    match operation s with
    | (none, s1) => some (none, s1)
    | (some (.permanent e), s1) => some (some e, s1)
    | (some (.plain _), s1) => backoffRetry operation wait fuel (wait s1)

/-- Constant `maxRetries` of `ackFleet`. -/
def maxRetries : Nat := 3

/-- The closure `ackFleet` hands to `backoff.Retry`; its state is the counter
`retries` and the trace. -/
def ackFleetOperation (env : Env) (agentID : String) :
    Nat × List Event → Option OpError × (Nat × List Event)
  | (retries, tr) =>
    let retries := retries + 1
    let tr := tr ++ [Event.ackExecute agentID]
    match env.ackExecute agentID retries with
    | none => (none, (retries, tr))
    | some err =>
      if errorsIs err ErrInvalidAPIKey || retries == maxRetries then
        (some (.permanent err), (retries, tr))
      else
        (some (.plain err), (retries, tr))

/-- Embedding of `ackFleet(ctx, client, agentID)`: returns the error and the trace extended by
the calls made. -/
def ackFleet (fuel : Nat) (env : Env) (agentID : String) (tr : List Event) :
    Option (Option GoError × List Event) :=
  match backoffRetry (ackFleetOperation env agentID)
      (fun s => (s.1, s.2 ++ [Event.sleep])) fuel (0, tr) with
  | none => none
  | some (err, (_, tr1)) => some (err, tr1)

/-! ## `shouldFleetEnroll`

The Go function is one straight-line body with early returns.  It is embedded as
a chain of steps, each the part of the body between two groups of lines and
ending in a call of the next step; `tr` is the trace of the calls made so far. -/

/-- Lines 1172-1183 of `shouldFleetEnroll`: write the record if a hash was added, then
return `(false, nil)`. -/
def stepSaveConfig (env : Env) (w : World) (storedConfig : Configuration)
    (saveConfig : Bool) (tr : List Event) : Run :=
  if saveConfig then
    match env.yamlMarshal storedConfig with
    | .err _ => ⟨.ret false (some (.new "could not marshal config")), w, tr⟩
    | .ok data =>
      let tr := tr ++ [Event.storeSave data]
      match env.SafelyStoreAgentInfo data with
      | some err => ⟨.ret false (some (.errorf "failed to store agent config" err)), w, tr⟩
      | none => ⟨.ret false none, { w with disk := data }, tr⟩
  else
    ⟨.ret false none, w, tr⟩

/-- Lines 1160-1170: add the replace token hash when the record has none and the setup
names a replace token. -/
def stepReplaceHashUpdate (env : Env) (w : World) (setupCfg : setupConfig)
    (storedConfig : Configuration) (saveConfig : Bool) (tr : List Event) : Run :=
  if len storedConfig.Fleet.ReplaceTokenHash == 0 && len setupCfg.Fleet.ReplaceToken > 0 then
    let tr := tr ++ [Event.generatePBKDF2 setupCfg.Fleet.ReplaceToken]
    match env.GeneratePBKDF2FromPassword setupCfg.Fleet.ReplaceToken with
    | .err _ => ⟨.ret false (some (.new "failed to generate replace token hash")), w, tr⟩
    | .ok replaceHashBytes =>
      let replaceTokenHash := env.base64Encode replaceHashBytes
      let storedConfig : Configuration :=
        { storedConfig with Fleet := { storedConfig.Fleet with ReplaceTokenHash := replaceTokenHash } }
      stepSaveConfig env w storedConfig true tr
  else
    stepSaveConfig env w storedConfig saveConfig tr

/-- Lines 1146-1158: add the enrollment token hash when the record has none and the
setup names an enrollment token. -/
def stepEnrollmentHashUpdate (env : Env) (w : World) (setupCfg : setupConfig)
    (storedConfig : Configuration) (tr : List Event) : Run :=
  if len storedConfig.Fleet.EnrollmentTokenHash == 0 && len setupCfg.Fleet.EnrollmentToken > 0 then
    let tr := tr ++ [Event.generatePBKDF2 setupCfg.Fleet.EnrollmentToken]
    match env.GeneratePBKDF2FromPassword setupCfg.Fleet.EnrollmentToken with
    | .err _ => ⟨.ret false (some (.new "failed to generate enrollment token hash")), w, tr⟩
    | .ok enrollmentHashBytes =>
      let enrollmentTokenHash := env.base64Encode enrollmentHashBytes
      let storedConfig : Configuration :=
        { storedConfig with Fleet := { storedConfig.Fleet with EnrollmentTokenHash := enrollmentTokenHash } }
      stepReplaceHashUpdate env w setupCfg storedConfig true tr
  else
    stepReplaceHashUpdate env w setupCfg storedConfig false tr

/-- Lines 1123-1144: build the Fleet client from the stored access key and probe it with
an empty acknowledge request. -/
def stepValidateAPIToken (fuel : Nat) (env : Env) (w : World) (setupCfg : setupConfig)
    (storedConfig : Configuration) (tr : List Event) : Option Run :=
  match env.loggerNew with
  | some err => some ⟨.ret false (some (.errorf "failed to create logger" err)), w, tr⟩
  | none =>
    let tr := tr ++ [Event.newFleetClient storedConfig.Fleet.AccessAPIKey storedConfig.Fleet.Client]
    match env.newFleetClient storedConfig.Fleet.AccessAPIKey storedConfig.Fleet.Client with
    | some err => some ⟨.ret false (some (.errorf "failed to create fleet client" err)), w, tr⟩
    | none =>
      match storedConfig.Fleet.Info with
      | none => some ⟨.nilPointerDereference, w, tr⟩
      | some info =>
        match ackFleet fuel env info.ID tr with
        | none => none
        | some (some err, tr) =>
          if errorsIs err ErrInvalidAPIKey then
            some ⟨.ret true none, w, tr⟩
          else
            some ⟨.ret false (some (.errorf "failed to validate api token" err)), w, tr⟩
        | some (none, tr) => some (stepEnrollmentHashUpdate env w setupCfg storedConfig tr)

/-- Lines 1104-1121: compare the stored replace token hash with the setup replace token
when both are present. -/
def stepReplaceTokenCheck (fuel : Nat) (env : Env) (w : World) (setupCfg : setupConfig)
    (storedConfig : Configuration) (tr : List Event) : Option Run :=
  if len storedConfig.Fleet.ReplaceTokenHash > 0 && len setupCfg.Fleet.ReplaceToken > 0 then
    match env.base64Decode storedConfig.Fleet.ReplaceTokenHash with
    | .err err => some ⟨.ret false (some (.errorf "failed to decode replace token hash" err)), w, tr⟩
    | .ok replaceHashBytes =>
      let tr := tr ++ [Event.comparePBKDF2 replaceHashBytes setupCfg.Fleet.ReplaceToken]
      match env.ComparePBKDF2HashAndPassword replaceHashBytes setupCfg.Fleet.ReplaceToken with
      | some err =>
        if errorsIs err env.ErrMismatchedHashAndPassword then
          some ⟨.ret true none, w, tr⟩
        else
          some ⟨.ret false (some (.errorf "failed to compare replace token hash" err)), w, tr⟩
      | none => stepValidateAPIToken fuel env w setupCfg storedConfig tr
  else
    stepValidateAPIToken fuel env w setupCfg storedConfig tr

/-- Lines 1085-1102: compare the stored enrollment token hash with the setup enrollment
token when both are present. -/
def stepEnrollmentTokenCheck (fuel : Nat) (env : Env) (w : World) (setupCfg : setupConfig)
    (storedConfig : Configuration) (tr : List Event) : Option Run :=
  if len storedConfig.Fleet.EnrollmentTokenHash > 0 && len setupCfg.Fleet.EnrollmentToken > 0 then
    match env.base64Decode storedConfig.Fleet.EnrollmentTokenHash with
    | .err err =>
      some ⟨.ret false (some (.errorf "failed to decode enrollment token hash" err)), w, tr⟩
    | .ok enrollmentHashBytes =>
      let tr := tr ++ [Event.comparePBKDF2 enrollmentHashBytes setupCfg.Fleet.EnrollmentToken]
      match env.ComparePBKDF2HashAndPassword enrollmentHashBytes setupCfg.Fleet.EnrollmentToken with
      | some err =>
        if errorsIs err env.ErrMismatchedHashAndPassword then
          some ⟨.ret true none, w, tr⟩
        else
          some ⟨.ret false (some (.errorf "failed to compare enrollment token hash" err)), w, tr⟩
      | none => stepReplaceTokenCheck fuel env w setupCfg storedConfig tr
  else
    stepReplaceTokenCheck fuel env w setupCfg storedConfig tr

/-- Lines 1079-1083: the Fleet URL of the setup must be one of the stored hosts. -/
def stepFleetHosts (fuel : Nat) (env : Env) (w : World) (setupCfg : setupConfig)
    (storedConfig : Configuration) (tr : List Event) : Option Run :=
  let storedFleetHosts := env.GetHosts storedConfig.Fleet.Client
  if storedFleetHosts.length == 0 || !storedFleetHosts.contains setupCfg.Fleet.URL then
    some ⟨.ret true none, w, tr⟩
  else
    stepEnrollmentTokenCheck fuel env w setupCfg storedConfig tr

/-- Embedding of `shouldFleetEnroll(setupCfg)`, lines 1031-1077, continued by the steps above.
`none` is returned only when the retry loop of the probe runs out of fuel. -/
def shouldFleetEnroll (fuel : Nat) (env : Env) (w : World) (setupCfg : setupConfig) :
    Option Run :=
  if !setupCfg.Fleet.Enroll then
    some ⟨.ret false none, w, []⟩
  else if setupCfg.Fleet.Force then
    some ⟨.ret true none, w, []⟩
  else
    let agentCfgFilePath := env.AgentConfigFile
    let tr := [Event.statAgentConfigFile agentCfgFilePath]
    if osIsNotExist env (env.statAgentConfigFile agentCfgFilePath) then
      some ⟨.ret true none, w, tr⟩
    else
      let tr := tr ++ [Event.newEncryptedDiskStore agentCfgFilePath]
      match env.newEncryptedDiskStore agentCfgFilePath with
      | some err =>
        some ⟨.ret false (some (.errorf "failed to instantiate encrypted disk store" err)), w, tr⟩
      | none =>
        let tr := tr ++ [Event.storeLoad]
        match env.storeLoad with
        | some err => some ⟨.ret false (some (.errorf "failed to load from disk store" err)), w, tr⟩
        | none =>
          match env.NewConfigFrom w.disk with
          | .err err => some ⟨.ret false (some (.errorf "failed to read from disk store" err)), w, tr⟩
          | .ok cfg =>
            match env.NewFromConfig cfg with
            | .err err =>
              some ⟨.ret false (some (.errorf "failed to read from disk store" err)), w, tr⟩
            | .ok storedConfig =>
              if setupCfg.Fleet.ID != "" &&
                  (match storedConfig.Fleet.Info with
                    | none => true
                    | some info => info.ID != setupCfg.Fleet.ID) then
                some ⟨.ret true none, w, tr⟩
              else
                stepFleetHosts fuel env w setupCfg storedConfig tr

/-! ## Vocabulary of the specification -/

/-- Outcome of the specification's `Verify(storedHash, plaintext)`. -/
inductive Verdict where
  | matched
  | mismatch
  | failure (e : GoError)
deriving DecidableEq, Repr

/-- The specification's `HashVerifier.Verify`: decode the stored hash, compare it with
the plaintext token; the mismatch error is an outcome of its own, every other
error is a failure of the mechanism. -/
def Verify (env : Env) (storedHash token : String) : Verdict :=
  match env.base64Decode storedHash with
  | .err e => .failure e
  | .ok hashBytes =>
    match env.ComparePBKDF2HashAndPassword hashBytes token with
    | none => .matched
    | some e => if errorsIs e env.ErrMismatchedHashAndPassword then .mismatch else .failure e

/-- Decoding of the loaded bytes into a stored configuration: `config.NewConfigFrom`
followed by `configuration.NewFromConfig`. -/
def decodeStored (env : Env) (w : World) : Result Configuration :=
  match env.NewConfigFrom w.disk with
  | .err e => .err e
  | .ok cfg => env.NewFromConfig cfg

/-- The configuration file is present and the stored record opens, loads and decodes
to `storedConfig`. -/
structure Loads (env : Env) (w : World) (storedConfig : Configuration) : Prop where
  present : osIsNotExist env (env.statAgentConfigFile env.AgentConfigFile) = false
  opened : env.newEncryptedDiskStore env.AgentConfigFile = none
  loaded : env.storeLoad = none
  decoded : decodeStored env w = .ok storedConfig

/-- The agent ID check does not decide: no explicit ID is requested, or the stored
identity has exactly that ID. -/
def IDCheckPasses (setupCfg : setupConfig) (storedConfig : Configuration) : Prop :=
  setupCfg.Fleet.ID = "" ∨ storedConfig.Fleet.Info = some ⟨setupCfg.Fleet.ID⟩

/-- The URL check does not decide: the requested URL is one of the stored hosts. -/
def URLCheckPasses (env : Env) (setupCfg : setupConfig) (storedConfig : Configuration) : Prop :=
  setupCfg.Fleet.URL ∈ env.GetHosts storedConfig.Fleet.Client

/-- Stored hash and requested token are both present. -/
def BothPresent (storedHash token : String) : Prop :=
  0 < len storedHash ∧ 0 < len token

/-- A token check does not decide: it is skipped, or the token matches the hash. -/
def TokenCheckPasses (env : Env) (storedHash token : String) : Prop :=
  ¬ BothPresent storedHash token ∨ Verify env storedHash token = .matched

/-- Calls made up to and including the load of the stored record. -/
def loadTrace (env : Env) : List Event :=
  [Event.statAgentConfigFile env.AgentConfigFile,
   Event.newEncryptedDiskStore env.AgentConfigFile,
   Event.storeLoad]

/-- The comparison call a token check makes, if it gets that far. -/
def compareTrace (env : Env) (storedHash token : String) : List Event :=
  if 0 < len storedHash ∧ 0 < len token then
    match env.base64Decode storedHash with
    | .ok hashBytes => [Event.comparePBKDF2 hashBytes token]
    | .err _ => []
  else []

/-- Calls made by the local checks when none of them decides. -/
def localTrace (env : Env) (setupCfg : setupConfig) (storedConfig : Configuration) : List Event :=
  loadTrace env
    ++ compareTrace env storedConfig.Fleet.EnrollmentTokenHash setupCfg.Fleet.EnrollmentToken
    ++ compareTrace env storedConfig.Fleet.ReplaceTokenHash setupCfg.Fleet.ReplaceToken

/-- Flags, presence and loadability of the record, ID and URL checks all let the
decision continue to the token checks. -/
structure ReachesTokenChecks (env : Env) (w : World) (setupCfg : setupConfig)
    (storedConfig : Configuration) : Prop where
  enroll : setupCfg.Fleet.Enroll = true
  force : setupCfg.Fleet.Force = false
  loads : Loads env w storedConfig
  id : IDCheckPasses setupCfg storedConfig
  url : URLCheckPasses env setupCfg storedConfig

/-- None of the local checks decides. -/
structure LocalChecksPass (env : Env) (w : World) (setupCfg : setupConfig)
    (storedConfig : Configuration) : Prop where
  reaches : ReachesTokenChecks env w setupCfg storedConfig
  enrollmentToken :
    TokenCheckPasses env storedConfig.Fleet.EnrollmentTokenHash setupCfg.Fleet.EnrollmentToken
  replaceToken :
    TokenCheckPasses env storedConfig.Fleet.ReplaceTokenHash setupCfg.Fleet.ReplaceToken

/-- The probe is reached with a client: logger and Fleet client are created and the
stored record has the identity `info`. -/
structure ClientBuilt (env : Env) (storedConfig : Configuration) (info : AgentInfo) : Prop where
  logger : env.loggerNew = none
  client : env.newFleetClient storedConfig.Fleet.AccessAPIKey storedConfig.Fleet.Client = none
  identity : storedConfig.Fleet.Info = some info

/-- The calls of a probe that makes `n` attempts: `n` acknowledge requests with a
wait between two of them. -/
def ackTrace (agentID : String) : Nat → List Event
  | 0 => []
  | 1 => [Event.ackExecute agentID]
  | n + 2 => Event.ackExecute agentID :: Event.sleep :: ackTrace agentID (n + 1)

/-- Number of network calls (client construction, acknowledge requests) in a trace. -/
def networkCalls (tr : List Event) : Nat := tr.countP Event.isNetwork

/-- Number of hash comparisons in a trace. -/
def compareCalls (tr : List Event) : Nat := tr.countP Event.isCompare

/-- Number of calls to the encrypted store in a trace. -/
def storeCalls (tr : List Event) : Nat := tr.countP Event.isStore

/-- Number of acknowledge requests in a trace. -/
def ackCalls (tr : List Event) : Nat := tr.countP Event.isAck

/-! ## Sample inputs

A small concrete environment on which the statements below are evaluated: an
enrolled agent `agent-1` with both token hashes stored, whose Fleet server accepts
the stored access key. -/

/-- Sample mismatch sentinel of the PBKDF2 comparison. -/
def sampleMismatch : GoError := .new "hashedPassword is not the hash of the given password"

/-- Sample stored record: agent `agent-1`, one Fleet host, both token hashes present. -/
def sampleStored : Configuration :=
  { Fleet :=
    { AccessAPIKey := "access-key"
      EnrollmentTokenHash := "aGFzaC0x"
      ReplaceTokenHash := "aGFzaC0y"
      Client := { Hosts := ["https://fleet:8220"] }
      Info := some { ID := "agent-1" } } }

/-- Sample decoding of a stored hash: two known hashes, anything else is not base64. -/
def sampleDecode (s : String) : Result Bytes :=
  if s = "aGFzaC0x" then .ok [1]
  else if s = "aGFzaC0y" then .ok [2]
  else if s = "" then .ok []
  else .err (.new "illegal base64 data")

/-- Sample comparison: hash `[1]` belongs to `enroll-token`, hash `[2]` to
`replace-token`; an empty hash is rejected as malformed. -/
def sampleCompare (hash : Bytes) (password : String) : Option GoError :=
  if hash = [] then some (.new "hashedSecret too short to be a PBKDF2 hashed password")
  else if (hash = [1] ∧ password = "enroll-token") ∨ (hash = [2] ∧ password = "replace-token")
  then none
  else some sampleMismatch

/-- Sample environment in which every capability succeeds. -/
def sampleEnv : Env :=
  { AgentConfigFile := "state/fleet.enc"
    statAgentConfigFile := fun _ => none
    osIsNotExist := fun e => e == .new "file does not exist"
    newEncryptedDiskStore := fun _ => none
    storeLoad := none
    NewConfigFrom := fun text => .ok ⟨text⟩
    NewFromConfig := fun raw =>
      if raw.text = "fleet: agent-1" then .ok sampleStored
      else .err (.new "missing field accessing fleet")
    GetHosts := fun c => c.Hosts
    base64Decode := sampleDecode
    base64Encode := fun _ => "aGFzaC0z"
    ErrMismatchedHashAndPassword := sampleMismatch
    ComparePBKDF2HashAndPassword := sampleCompare
    GeneratePBKDF2FromPassword := fun _ => .ok [3]
    loggerNew := none
    newFleetClient := fun _ _ => none
    ackExecute := fun _ _ => none
    yamlMarshal := fun _ => .ok "fleet: agent-1"
    SafelyStoreAgentInfo := fun _ => none }

/-- Sample store content, decoded by `sampleEnv` to `sampleStored`. -/
def sampleWorld : World := { disk := "fleet: agent-1" }

/-- Sample request: enroll at the stored URL with the tokens of the stored hashes. -/
def sampleSetup : setupConfig :=
  { Fleet :=
    { Enroll := true
      URL := "https://fleet:8220"
      EnrollmentToken := "enroll-token"
      ReplaceToken := "replace-token" } }

/-- Sample environment in which no configuration file exists yet. -/
def firstRunEnv : Env :=
  { sampleEnv with statAgentConfigFile := fun _ => some (.new "file does not exist") }

/-- Sample environment whose store content does not decode. -/
def corruptWorld : World := { disk := "garbage" }

/-- Sample environment whose Fleet server answers the first acknowledge with a
transport error and the second with the invalid API key error. -/
def revokedEnv : Env :=
  { sampleEnv with
    ackExecute := fun _ n =>
      if n = 1 then some (.new "connection refused")
      else some (.errorf "fail to ack to fleet" ErrInvalidAPIKey) }

/-- Sample stored record whose enrollment token hash is not valid base64. -/
def brokenHashStored : Configuration :=
  { Fleet := { sampleStored.Fleet with EnrollmentTokenHash := "not base64!" } }

/-- Sample environment that decodes the store content to `brokenHashStored`. -/
def brokenHashEnv : Env :=
  { sampleEnv with NewFromConfig := fun _ => .ok brokenHashStored }

/-- Sample request like `sampleSetup` but with an enrollment token that is not the one
the stored hash was made from. -/
def staleEnrollmentSetup : setupConfig :=
  { Fleet := { sampleSetup.Fleet with EnrollmentToken := "new-enroll-token" } }

/-- Sample request like `sampleSetup` but with a replace token that is not the one the
stored hash was made from. -/
def staleReplaceSetup : setupConfig :=
  { Fleet := { sampleSetup.Fleet with ReplaceToken := "new-replace-token" } }

/-- Sample request like `sampleSetup` but naming an agent ID other than the stored one. -/
def otherAgentSetup : setupConfig :=
  { Fleet := { sampleSetup.Fleet with ID := "agent-2" } }

/-- Sample request like `sampleSetup` but for a Fleet URL the record does not know. -/
def otherURLSetup : setupConfig :=
  { Fleet := { sampleSetup.Fleet with URL := "https://fleet-2:8220" } }

/-! ## Vocabulary of the probe and of the backfill -/

/-- The probe succeeds at attempt `n`: attempts `1 .. n-1` fail with errors other than the
invalid API key error, and attempt `n`, one of the three allowed, succeeds. -/
def ProbeSucceedsAt (env : Env) (agentID : String) (n : Nat) : Prop :=
  1 ≤ n ∧ n ≤ 3 ∧ env.ackExecute agentID n = none ∧
    ∀ j, 1 ≤ j → j < n →
      ∃ e, env.ackExecute agentID j = some e ∧ errorsIs e ErrInvalidAPIKey = false

/-- Calls made up to the end of a probe of `n` attempts, when no local check decides. -/
def probeTrace (env : Env) (setupCfg : setupConfig) (storedConfig : Configuration)
    (agentID : String) (n : Nat) : List Event :=
  localTrace env setupCfg storedConfig
    ++ [Event.newFleetClient storedConfig.Fleet.AccessAPIKey storedConfig.Fleet.Client]
    ++ ackTrace agentID n

/-- A token hash is to be backfilled: the record has none and the request names the token. -/
def needsBackfill (storedHash token : String) : Bool :=
  len storedHash == 0 && len token > 0

/-- The hash a record holds for a token after the backfill: a missing hash of a
requested token is replaced by the base64 encoding of a newly generated hash,
any other hash is kept. -/
def backfilledHash (env : Env) (storedHash token : String) : String :=
  if needsBackfill storedHash token then
    match env.GeneratePBKDF2FromPassword token with
    | .ok hashBytes => env.base64Encode hashBytes
    | .err _ => storedHash
  else storedHash

/-- The record after the backfill of both token hashes; nothing else changes. -/
def backfilledRecord (env : Env) (setupCfg : setupConfig) (storedConfig : Configuration) :
    Configuration :=
  { storedConfig with
    Fleet :=
      { storedConfig.Fleet with
        EnrollmentTokenHash :=
          backfilledHash env storedConfig.Fleet.EnrollmentTokenHash
            setupCfg.Fleet.EnrollmentToken
        ReplaceTokenHash :=
          backfilledHash env storedConfig.Fleet.ReplaceTokenHash setupCfg.Fleet.ReplaceToken } }

/-- The hash generation call made for a token that is to be backfilled. -/
def generateTrace (storedHash token : String) : List Event :=
  if needsBackfill storedHash token then [Event.generatePBKDF2 token] else []

/-- Hash generation does not fail for a token that is to be backfilled. -/
def GenerationSucceeds (env : Env) (storedHash token : String) : Prop :=
  needsBackfill storedHash token = true →
    ∃ hashBytes, env.GeneratePBKDF2FromPassword token = .ok hashBytes

/-- A record is to be written: one of the two token hashes is to be backfilled. -/
def savesConfig (setupCfg : setupConfig) (storedConfig : Configuration) : Bool :=
  needsBackfill storedConfig.Fleet.EnrollmentTokenHash setupCfg.Fleet.EnrollmentToken ||
    needsBackfill storedConfig.Fleet.ReplaceTokenHash setupCfg.Fleet.ReplaceToken

/-- Calls made up to the end of the backfill, after a probe that succeeded at attempt `n`. -/
def backfillTrace (env : Env) (setupCfg : setupConfig) (storedConfig : Configuration)
    (agentID : String) (n : Nat) : List Event :=
  probeTrace env setupCfg storedConfig agentID n
    ++ generateTrace storedConfig.Fleet.EnrollmentTokenHash setupCfg.Fleet.EnrollmentToken
    ++ generateTrace storedConfig.Fleet.ReplaceTokenHash setupCfg.Fleet.ReplaceToken

/-- Writes of the record to the store. -/
def Event.isSave : Event → Bool
  | .storeSave _ => true
  | _ => false

/-- Number of writes to the store in a trace. -/
def saveCalls (tr : List Event) : Nat := tr.countP Event.isSave

/-- A freshly generated hash of the token verifies as a match against that token. -/
def FreshHashVerifies (env : Env) (token : String) : Prop :=
  ∀ hashBytes, env.GeneratePBKDF2FromPassword token = .ok hashBytes →
    Verify env (env.base64Encode hashBytes) token = .matched

/-- The encoding of a freshly generated hash of the token is not the empty string. -/
def FreshHashNonEmpty (env : Env) (token : String) : Prop :=
  ∀ hashBytes, env.GeneratePBKDF2FromPassword token = .ok hashBytes →
    0 < len (env.base64Encode hashBytes)

/-- The store is faithful for the backfill of the record it holds: what is written
is what the next load decodes. -/
def StoreFaithful (env : Env) (w : World) (setupCfg : setupConfig) : Prop :=
  ∀ storedConfig data, decodeStored env w = .ok storedConfig →
    env.yamlMarshal (backfilledRecord env setupCfg storedConfig) = .ok data →
    decodeStored env { disk := data } = .ok (backfilledRecord env setupCfg storedConfig)

/-- Sample environment whose Fleet server cannot be reached: every acknowledge fails
with a transport error. -/
def unreachableEnv : Env :=
  { sampleEnv with ackExecute := fun _ _ => some (.new "connection refused") }

/-- Sample stored record of an agent enrolled by an older version: no token hashes. -/
def legacyStored : Configuration :=
  { Fleet := { sampleStored.Fleet with EnrollmentTokenHash := "", ReplaceTokenHash := "" } }

/-- Sample hash generation: the two sample tokens get the hashes `[1]` and `[2]`. -/
def sampleGenerate (password : String) : Result Bytes :=
  if password = "enroll-token" then .ok [1]
  else if password = "replace-token" then .ok [2]
  else .err (.new "entropy source unavailable")

/-- Sample encoding, the inverse of `sampleDecode` on the two sample hashes. -/
def sampleEncode (hash : Bytes) : String :=
  if hash = [1] then "aGFzaC0x" else if hash = [2] then "aGFzaC0y" else ""

/-- Sample environment of an upgraded agent: the store holds `legacyStored` or, once both
hashes are backfilled, `sampleStored`. -/
def legacyEnv : Env :=
  { sampleEnv with
    NewFromConfig := fun raw =>
      if raw.text = "fleet: agent-1" then .ok sampleStored
      else if raw.text = "fleet: agent-1 (no token hashes)" then .ok legacyStored
      else .err (.new "missing field accessing fleet")
    base64Encode := sampleEncode
    GeneratePBKDF2FromPassword := sampleGenerate
    yamlMarshal := fun c =>
      if c = sampleStored then .ok "fleet: agent-1"
      else if c = legacyStored then .ok "fleet: agent-1 (no token hashes)"
      else .err (.new "unsupported value") }

/-- Sample store content of the upgraded agent, decoded by `legacyEnv` to `legacyStored`. -/
def legacyWorld : World := { disk := "fleet: agent-1 (no token hashes)" }

/-- Sample environment like `legacyEnv` whose store cannot be written. -/
def readOnlyEnv : Env :=
  { legacyEnv with SafelyStoreAgentInfo := fun _ => some (.new "read-only file system") }

/-- What the hash library guarantees for the two requested tokens: a freshly generated
hash has a non-empty encoding and verifies against its token. -/
structure FreshHashesLawful (env : Env) (setupCfg : setupConfig) : Prop where
  verifiesEnrollment : FreshHashVerifies env setupCfg.Fleet.EnrollmentToken
  verifiesReplace : FreshHashVerifies env setupCfg.Fleet.ReplaceToken
  nonEmptyEnrollment : FreshHashNonEmpty env setupCfg.Fleet.EnrollmentToken
  nonEmptyReplace : FreshHashNonEmpty env setupCfg.Fleet.ReplaceToken

/-! ## Transport decorators (`internal/pkg/fleetapi/client/round_trippers.go`)

A round tripper is embedded as the function its `RoundTrip` method computes.  The
result of a call records, next to the returned `(response, error)`, what happened
underneath: the requests put on the wire and the response bodies closed. -/

/-- Header map `http.Header`: the values stored under a key, if there is an entry. -/
abbrev Header := String → Option (List String)

/-- Library `Header.Set(key, value)`: the entry of the key becomes the single value.  The
keys the decorators use are in canonical form, so `Set` stores them as they are. -/
def Header.Set (h : Header) (key value : String) : Header :=
  fun k => if k = key then some [value] else h k

/-- The part of `http.Request` the decorators and their callers deal with. -/
structure Request where
  Method : String := "GET"
  URL : String := ""
  Header : Header := fun _ => none
  Body : String := ""

/-- The part of `http.Response` the decorators deal with. -/
structure Response where
  StatusCode : Nat
  Body : String
deriving DecidableEq, Repr

/-- Constant `http.StatusUnauthorized`. -/
def StatusUnauthorized : Nat := 401

/-- What happens underneath a `RoundTrip` call. -/
inductive TransportEvent where
  | roundTrip (req : Request)
  | bodyClose (resp : Response)

/-- Result of a `RoundTrip` call: the returned `(*http.Response, error)` with the events of
the call, or the runtime panic of dereferencing a nil response. -/
inductive Exchange where
  | ret (resp : Option Response) (err : Option GoError) (events : List TransportEvent)
  | nilPointerDereference (events : List TransportEvent)

/-- Interface `http.RoundTripper`. -/
abbrev RoundTripper := Request → Exchange

/-- Struct `FleetUserAgentRoundTripper`; `rt` is the user-agent round tripper built by
`remote.NewUserAgentRoundTripper`. -/
structure FleetUserAgentRoundTripper where
  rt : RoundTripper

/-- Method `FleetUserAgentRoundTripper.RoundTrip` (lines 23-25). -/
def FleetUserAgentRoundTripper.RoundTrip (r : FleetUserAgentRoundTripper) (req : Request) :
    Exchange :=
  r.rt req

/-- Struct `FleetAuthRoundTripper`. -/
structure FleetAuthRoundTripper where
  rt : RoundTripper
  apiKey : String

/-- Method `FleetAuthRoundTripper.RoundTrip` (lines 44-60). -/
def FleetAuthRoundTripper.RoundTrip (r : FleetAuthRoundTripper) (req : Request) : Exchange :=
  let key := "Authorization"
  let pfx := "ApiKey "
  let req := { req with Header := req.Header.Set key (pfx ++ r.apiKey) }
  match r.rt req with
  | .nilPointerDereference events => .nilPointerDereference events
  | .ret _ (some err) events => .ret none (some err) events
  | .ret none none events => .nilPointerDereference events
  | .ret (some resp) none events =>
    if resp.StatusCode == StatusUnauthorized then
      .ret none (some ErrInvalidAPIKey) (events ++ [.bodyClose resp])
    else
      .ret (some resp) none events

/-- Function `NewFleetAuthRoundTripper` (lines 63-71). -/
def NewFleetAuthRoundTripper (wrapped : RoundTripper) (apiKey : String) : Result RoundTripper :=
  if len apiKey == 0 then
    .err (.new "empty api key received")
  else
    .ok (FleetAuthRoundTripper.RoundTrip { rt := wrapped, apiKey := apiKey })

/-- Struct `ElasticApiVersionRoundTripper`. -/
structure ElasticApiVersionRoundTripper where
  rt : RoundTripper
  elasticApiVersion : String

/-- Constant `elasticApiVersionHeaderKey`. -/
def elasticApiVersionHeaderKey : String := "Elastic-Api-Version"

/-- Method `ElasticApiVersionRoundTripper.RoundTrip` (lines 82-86). -/
def ElasticApiVersionRoundTripper.RoundTrip (r : ElasticApiVersionRoundTripper)
    (req : Request) : Exchange :=
  let req := { req with Header := req.Header.Set elasticApiVersionHeaderKey r.elasticApiVersion }
  r.rt req

/-- Function `NewElasticApiVersionRoundTripper` (lines 88-90). -/
def NewElasticApiVersionRoundTripper (inner : RoundTripper) (elasticApiVersion : String) :
    RoundTripper :=
  ElasticApiVersionRoundTripper.RoundTrip { rt := inner, elasticApiVersion := elasticApiVersion }

/-- A transport that puts the request on the wire and returns what the server answers. -/
def wire (server : Request → Option Response × Option GoError) : RoundTripper :=
  fun req => .ret (server req).1 (server req).2 [.roundTrip req]

/-- The request as the auth decorator hands it on: the `Authorization` header is set. -/
def withAuthorization (apiKey : String) (req : Request) : Request :=
  { req with Header := req.Header.Set "Authorization" ("ApiKey " ++ apiKey) }

/-- The request with both the `Authorization` and the `Elastic-Api-Version` header set. -/
def withBothHeaders (apiKey version : String) (req : Request) : Request :=
  { req with
    Header :=
      (req.Header.Set "Authorization" ("ApiKey " ++ apiKey)).Set "Elastic-Api-Version" version }

/-- The auth decorator around the API-version decorator around `inner`. -/
def authOverVersion (inner : RoundTripper) (apiKey version : String) : RoundTripper :=
  FleetAuthRoundTripper.RoundTrip
    { rt := NewElasticApiVersionRoundTripper inner version, apiKey := apiKey }

/-- The API-version decorator around the auth decorator around `inner`. -/
def versionOverAuth (inner : RoundTripper) (apiKey version : String) : RoundTripper :=
  NewElasticApiVersionRoundTripper
    (FleetAuthRoundTripper.RoundTrip { rt := inner, apiKey := apiKey }) version

/-- Sample request with a stale `Authorization` header. -/
def sampleRequest : Request :=
  { Method := "POST"
    URL := "https://fleet:8220/api/fleet/agents/agent-1/acks"
    Header := fun k => if k = "Authorization" then some ["ApiKey stale-key"] else none
    Body := "" }

/-- Sample server that accepts only the API key `access-key`. -/
def sampleServer (req : Request) : Option Response × Option GoError :=
  if req.Header "Authorization" = some ["ApiKey access-key"] then
    (some { StatusCode := 200, Body := "acked" }, none)
  else
    (some { StatusCode := 401, Body := "unauthorized" }, none)

/-- Sample server that cannot be reached. -/
def downServer (_ : Request) : Option Response × Option GoError :=
  (none, some (.new "connection refused"))

/-- The events of a `RoundTrip` call, however it ended. -/
def Exchange.events : Exchange → List TransportEvent
  | .ret _ _ events => events
  | .nilPointerDereference events => events

/-! ## The container command (`runContainerCmd` and `ensureServiceToken`)

`runContainerCmd` decides on enrollment with `shouldFleetEnroll` and then calls
further functions of the package (`kibanaFetchPolicy`, `kibanaFetchToken`,
`buildEnrollArgs`, `run`) and of the system.  What these return is a field of
`ContainerEnv`, so a statement about `runContainerCmd` holds for every behaviour
of them; each call is recorded as a `ContainerEvent`. -/

/-- Struct `TokenResp`, the decoded response of the service token request. -/
structure TokenResp where
  Name : String := ""
  Value : String := ""
deriving DecidableEq, Repr

/-- Struct `kibanaPolicy`. -/
structure kibanaPolicy where
  ID : String := ""
  Name : String := ""
  Status : String := ""
  IsDefault : Bool := false
  IsDefaultFleetServer : Bool := false
deriving DecidableEq, Repr

/-- Calls made by the container command, in the order they are made. -/
inductive ContainerEvent where
  | logInfo (args : List String)
  | readFile (path : String)
  | kibanaClient (cfg : kibanaConfig)
  | kibanaRequest (method : String) (path : String)
  | shouldFleetEnroll (calls : List Event)
  | kibanaFetchPolicy
  | kibanaFetchToken (policy : kibanaPolicy) (tokenName : String)
  | buildEnrollArgs (token : String) (policyID : String)
  | enrollStart (executable : String) (args : List String)
  | enrollWait
  | run
deriving DecidableEq, Repr

/-- Lookups of the enrollment token in Kibana: the policy lookup and the key lookup. -/
def ContainerEvent.isTokenFetch : ContainerEvent → Bool
  | .kibanaFetchPolicy => true
  | .kibanaFetchToken _ _ => true
  | _ => false

/-- Number of enrollment token lookups in a trace. -/
def tokenFetchCalls (tr : List ContainerEvent) : Nat := tr.countP ContainerEvent.isTokenFetch

/-- What the container command calls. -/
structure ContainerEnv where
  /-- Library `os.ReadFile`. -/
  ReadFile : String → Result String
  /-- Error of `kibanaClient(cfg.Kibana, cfg.Kibana.Headers)`. -/
  kibanaClient : kibanaConfig → Option GoError
  /-- Result `(code, body, err)` of `client.Request(method, path, nil, nil, nil)`. -/
  kibanaRequest : kibanaConfig → String → String → Nat × String × Option GoError
  /-- Library `json.Unmarshal` into a `TokenResp`. -/
  jsonUnmarshalTokenResp : String → Result TokenResp
  /-- Function `kibanaFetchPolicy(cfg, client, streams)`. -/
  kibanaFetchPolicy : setupConfig → Result kibanaPolicy
  /-- Function `kibanaFetchToken(cfg, client, policy, streams, tokenName)`. -/
  kibanaFetchToken : setupConfig → kibanaPolicy → String → Result String
  /-- Library `os.Executable()`. -/
  Executable : Result String
  /-- Function `buildEnrollArgs(cfg, token, policyID)`. -/
  buildEnrollArgs : setupConfig → String → String → Result (List String)
  /-- Error of `enroll.Start()` for the command `executable cmdArgs...`. -/
  enrollStart : String → List String → Option GoError
  /-- Error of `enroll.Wait()`. -/
  enrollWait : Option GoError
  /-- Error of `run(containerCfgOverrides, false, initTimeout, isContainer)`. -/
  run : Option GoError

/-- The two assignments `cfg.Kibana.Fleet.ServiceToken = v` and
`cfg.FleetServer.Elasticsearch.ServiceToken = v` of `ensureServiceToken`. -/
def setServiceToken (cfg : setupConfig) (v : String) : setupConfig :=
  { cfg with
    Kibana := { cfg.Kibana with Fleet := { cfg.Kibana.Fleet with ServiceToken := v } }
    FleetServer :=
      { cfg.FleetServer with
        Elasticsearch := { cfg.FleetServer.Elasticsearch with ServiceToken := v } } }

/-- Embedding of `ensureServiceToken(streams, cfg)` (lines 358-411): returns the configuration as the
function leaves it, its error, and the calls made. -/
def ensureServiceToken (cenv : ContainerEnv) (cfg : setupConfig) :
    setupConfig × Option GoError × List ContainerEvent :=
  if cfg.Kibana.Fleet.ServiceToken != "" || cfg.FleetServer.Elasticsearch.ServiceToken != "" then
    (cfg, none, [])
  else if cfg.FleetServer.Elasticsearch.ServiceTokenPath != "" then
    match cenv.ReadFile cfg.FleetServer.Elasticsearch.ServiceTokenPath with
    | .err err =>
      (cfg, some (.errorf "unable to open service_token_path" err),
        [.readFile cfg.FleetServer.Elasticsearch.ServiceTokenPath])
    | .ok p =>
      (setServiceToken cfg p, none, [.readFile cfg.FleetServer.Elasticsearch.ServiceTokenPath])
  else if cfg.Kibana.Fleet.ServiceTokenPath != "" then
    match cenv.ReadFile cfg.Kibana.Fleet.ServiceTokenPath with
    | .err err =>
      (cfg, some (.errorf "unable to open service_token_path" err),
        [.readFile cfg.Kibana.Fleet.ServiceTokenPath])
    | .ok p => (setServiceToken cfg p, none, [.readFile cfg.Kibana.Fleet.ServiceTokenPath])
  else if cfg.Kibana.Fleet.Username == "" || cfg.Kibana.Fleet.Password == "" then
    (cfg, some (.new "username/password must be provided to retrieve service token"), [])
  else
    let tr := [ContainerEvent.logInfo ["Requesting service_token from Kibana."],
      ContainerEvent.kibanaClient cfg.Kibana]
    match cenv.kibanaClient cfg.Kibana with
    | some err => (cfg, some err, tr)
    | none =>
      let tr := tr ++ [ContainerEvent.kibanaRequest "POST" "/api/fleet/service_tokens"]
      match cenv.kibanaRequest cfg.Kibana "POST" "/api/fleet/service_tokens" with
      | (_, _, some err) =>
        (cfg, some (.errorf "request to get security token from Kibana failed" err), tr)
      | (code, r, none) =>
        if code >= 400 then
          (cfg, some (.new ("request to get security token from Kibana failed with status "
            ++ toString code ++ ", body: " ++ r)), tr)
        else
          match cenv.jsonUnmarshalTokenResp r with
          | .err err => (cfg, some (.errorf "unable to decode response" err), tr)
          | .ok t =>
            (setServiceToken cfg t.Value, none,
              tr ++ [ContainerEvent.logInfo ["Created service_token named:", t.Name]])

/-- How a call of `runContainerCmd` ends: it returns an error or nil, or panics. -/
inductive ContainerOutcome where
  | ret (err : Option GoError)
  | nilPointerDereference
deriving DecidableEq, Repr

/-- A finished run of the container command. -/
structure ContainerRun where
  outcome : ContainerOutcome
  world : World
  trace : List ContainerEvent
deriving DecidableEq, Repr

/-- Line 345 of `runContainerCmd`: run the agent. -/
def stepRun (cenv : ContainerEnv) (w : World) (tr : List ContainerEvent) : ContainerRun :=
  ⟨.ret cenv.run, w, tr ++ [ContainerEvent.run]⟩

/-- Lines 315-343 of `runContainerCmd`: select the policy ID, build the arguments of the enroll
command from the token, run the command. -/
def stepEnrollCommand (cenv : ContainerEnv) (w : World) (cfg : setupConfig)
    (policy : Option kibanaPolicy) (token : String) (tr : List ContainerEvent) : ContainerRun :=
  let policyID :=
    match policy with
    | some p => p.ID
    | none => cfg.FleetServer.PolicyID
  let tr :=
    if policyID != "" then
      tr ++ [ContainerEvent.logInfo ["Policy selected for enrollment: ", policyID]]
    else tr
  match cenv.Executable with
  | .err err => ⟨.ret (some err), w, tr⟩
  | .ok executable =>
    let tr := tr ++ [ContainerEvent.buildEnrollArgs token policyID]
    match cenv.buildEnrollArgs cfg token policyID with
    | .err err => ⟨.ret (some err), w, tr⟩
    | .ok cmdArgs =>
      let tr := tr ++ [ContainerEvent.enrollStart executable cmdArgs]
      match cenv.enrollStart executable cmdArgs with
      | some err => ⟨.ret (some (.errorf "failed to execute enrollment command" err)), w, tr⟩
      | none =>
        let tr := tr ++ [ContainerEvent.enrollWait]
        match cenv.enrollWait with
        | some err => ⟨.ret (some (.errorf "enrollment failed" err)), w, tr⟩
        | none => stepRun cenv w tr

/-- Lines 299-314 of `runContainerCmd`: the token is the configured enrollment token; it is
looked up in Kibana when it is empty and Fleet Server is not enabled. -/
def stepEnrollmentToken (cenv : ContainerEnv) (w : World) (cfg : setupConfig)
    (tr : List ContainerEvent) : ContainerRun :=
  let token := cfg.Fleet.EnrollmentToken
  if token == "" && !cfg.FleetServer.Enable then
    let tr := tr ++ [ContainerEvent.kibanaClient cfg.Kibana]
    match cenv.kibanaClient cfg.Kibana with
    | some err => ⟨.ret (some err), w, tr⟩
    | none =>
      let tr := tr ++ [ContainerEvent.kibanaFetchPolicy]
      match cenv.kibanaFetchPolicy cfg with
      | .err err => ⟨.ret (some err), w, tr⟩
      | .ok policy =>
        let tr := tr ++ [ContainerEvent.kibanaFetchToken policy cfg.Fleet.TokenName]
        match cenv.kibanaFetchToken cfg policy cfg.Fleet.TokenName with
        | .err err => ⟨.ret (some err), w, tr⟩
        | .ok token => stepEnrollCommand cenv w cfg (some policy) token tr
  else
    stepEnrollCommand cenv w cfg none token tr

/-- Embedding of `runContainerCmd(streams, cfg)`, lines 282-298, continued by the steps above. -/
def runContainerCmd (fuel : Nat) (cenv : ContainerEnv) (env : Env) (w : World)
    (cfg : setupConfig) : Option ContainerRun :=
  let ensured : setupConfig × Option GoError × List ContainerEvent :=
    if cfg.FleetServer.Enable then ensureServiceToken cenv cfg else (cfg, none, [])
  let cfg := ensured.1
  let tr := ensured.2.2
  match ensured.2.1 with
  | some err => some ⟨.ret (some err), w, tr⟩
  | none =>
    match shouldFleetEnroll fuel env w cfg with
    | none => none
    | some ⟨.nilPointerDereference, w1, calls⟩ =>
      some ⟨.nilPointerDereference, w1, tr ++ [ContainerEvent.shouldFleetEnroll calls]⟩
    | some ⟨.ret _ (some err), w1, calls⟩ =>
      some ⟨.ret (some err), w1, tr ++ [ContainerEvent.shouldFleetEnroll calls]⟩
    | some ⟨.ret shouldEnroll none, w1, calls⟩ =>
      let tr := tr ++ [ContainerEvent.shouldFleetEnroll calls]
      if shouldEnroll then
        some (stepEnrollmentToken cenv w1 cfg tr)
      else
        some (stepRun cenv w1 tr)

/-- Sample capabilities of the container command: Kibana answers every lookup, the enroll
command is `elastic-agent enroll -f` with the `--enrollment-token` flag when a
token is given. -/
def sampleContainerEnv : ContainerEnv :=
  { ReadFile := fun _ => .ok "file-token"
    kibanaClient := fun _ => none
    kibanaRequest := fun _ _ _ => (200, "token response", none)
    jsonUnmarshalTokenResp := fun _ => .ok { Name := "token-1", Value := "kibana-token" }
    kibanaFetchPolicy := fun _ => .ok { ID := "policy-1", Name := "Default policy" }
    kibanaFetchToken := fun _ _ _ => .ok "fetched-token"
    Executable := .ok "elastic-agent"
    buildEnrollArgs := fun _ token _ =>
      .ok (["enroll", "-f"] ++ (if token != "" then ["--enrollment-token", token] else []))
    enrollStart := fun _ _ => none
    enrollWait := none
    run := none }

/-- Sample setup: enrollment forced, Fleet Server bootstrapping enabled with a service
token, no enrollment token configured. -/
def fleetServerSetup : setupConfig :=
  { Fleet := { Enroll := true, Force := true, URL := "https://fleet:8220" }
    FleetServer :=
      { Enable := true
        PolicyID := "fleet-server-policy"
        Elasticsearch := { ServiceToken := "es-token" } } }

/-- Sample setup like `fleetServerSetup` but without Fleet Server bootstrapping. -/
def agentOnlySetup : setupConfig :=
  { Fleet := { Enroll := true, Force := true, URL := "https://fleet:8220" } }

/-- No enrollment token was looked up in Kibana, and the enroll arguments were built, if at
all, from an empty token. -/
def NoTokenFetched (tr : List ContainerEvent) : Prop :=
  tokenFetchCalls tr = 0 ∧
    ∀ token policyID, ContainerEvent.buildEnrollArgs token policyID ∈ tr → token = ""

/-! ## Policy and key selection (`findPolicy`, `findKey`) -/

/-- The `for` loop of `findPolicy` (lines 605-623): `none` when the loop ends without a
return. -/
def findPolicyLoop (cfg : setupConfig) (policyID policyName : String) :
    List kibanaPolicy → Option kibanaPolicy
  | [] => none
  | policy :: rest =>
    if policyID != "" then
      if policyID == policy.ID then some policy
      else findPolicyLoop cfg policyID policyName rest
    else if policyName != "" then
      if policyName == policy.Name then some policy
      else findPolicyLoop cfg policyID policyName rest
    else if cfg.FleetServer.Enable then
      if policy.IsDefaultFleetServer then some policy
      else findPolicyLoop cfg policyID policyName rest
    else
      if policy.IsDefault then some policy
      else findPolicyLoop cfg policyID policyName rest

/-- Embedding of `findPolicy(cfg, policies)` (lines 599-625). -/
def findPolicy (cfg : setupConfig) (policies : List kibanaPolicy) : Result kibanaPolicy :=
  let policyID := if cfg.FleetServer.Enable then cfg.FleetServer.PolicyID else ""
  let policyName := cfg.Fleet.TokenPolicyName
  match findPolicyLoop cfg policyID policyName policies with
  | some policy => .ok policy
  | none => .err (.new ("unable to find policy named \"" ++ policyName ++ "\""))

/-- The one criterion a setup configuration selects a policy by: the Fleet Server policy
ID when Fleet Server is enabled and the ID is given, else the token policy name
when given, else the default flag of the kind of agent. -/
def policyCriterion (cfg : setupConfig) (policy : kibanaPolicy) : Bool :=
  if cfg.FleetServer.Enable && cfg.FleetServer.PolicyID != "" then
    cfg.FleetServer.PolicyID == policy.ID
  else if cfg.Fleet.TokenPolicyName != "" then
    cfg.Fleet.TokenPolicyName == policy.Name
  else if cfg.FleetServer.Enable then
    policy.IsDefaultFleetServer
  else
    policy.IsDefault

/-- An element is the first of a list to satisfy a criterion. -/
def IsFirstWith {α : Type} (criterion : α → Bool) (xs : List α) (x : α) : Prop :=
  ∃ before after, xs = before ++ x :: after ∧ criterion x = true ∧
    ∀ y ∈ before, criterion y = false

/-- Sample policies as Kibana lists them. -/
def samplePolicies : List kibanaPolicy :=
  [{ ID := "policy-1", Name := "Agent policy", IsDefault := true },
   { ID := "policy-2", Name := "Fleet Server policy", IsDefaultFleetServer := true },
   { ID := "policy-3", Name := "Agent policy" }]

/-- Struct `kibanaAPIKey`. -/
structure kibanaAPIKey where
  ID : String := ""
  Name : String := ""
  Active : Bool := false
  PolicyID : String := ""
  APIKey : String := ""
deriving DecidableEq, Repr

/-- Character class `[0-9a-fA-F]`. -/
def isHexDigit (c : Char) : Bool :=
  (48 ≤ c.toNat && c.toNat ≤ 57) || (97 ≤ c.toNat && c.toNat ≤ 102) ||
    (65 ≤ c.toNat && c.toNat ≤ 70)

/-- Character class `\s` of Go regular expressions: tab, line feed, form feed, carriage
return, space. -/
def isRegexSpace (c : Char) : Bool :=
  c.toNat == 9 || c.toNat == 10 || c.toNat == 12 || c.toNat == 13 || c.toNat == 32

/-- The one-character class of a literal character. -/
def isChar (lit : Char) (c : Char) : Bool := c == lit

/-- A run of `n` hexadecimal digits, `[0-9a-fA-F]{n}`. -/
def hexRun (n : Nat) : List (Char → Bool) := List.replicate n isHexDigit

/-- The expression `tokenNameStrip` (line 66), without its end anchor, as the sequence of
its character classes: `\s`, `(`, a UUID in 8-4-4-4-12 hexadecimal digits, `)`. -/
def tokenNameStripPattern : List (Char → Bool) :=
  [isRegexSpace, isChar '('] ++ (hexRun 8 ++ ([isChar '-'] ++ (hexRun 4 ++ ([isChar '-'] ++
    (hexRun 4 ++ ([isChar '-'] ++ (hexRun 4 ++ ([isChar '-'] ++ (hexRun 12 ++
      [isChar ')'])))))))))

/-- A text matches a sequence of character classes, one character per class. -/
def matchesPattern : List (Char → Bool) → List Char → Bool
  | [], [] => true
  | p :: ps, c :: cs => p c && matchesPattern ps cs
  | _, _ => false

/-- Library `tokenNameStrip.ReplaceAllString(src, "")`: the expression is anchored at the end of the
text and matches texts of one length only, so its one possible match is the
suffix of that length, which is removed. -/
def tokenNameStripReplaceAll (src : String) : String :=
  let cs := src.data
  let n := tokenNameStripPattern.length
  if n ≤ cs.length && matchesPattern tokenNameStripPattern (cs.drop (cs.length - n)) then
    ⟨cs.take (cs.length - n)⟩
  else
    src

/-- Library `unicode.IsSpace`. -/
def unicodeIsSpace (c : Char) : Bool :=
  (9 ≤ c.toNat && c.toNat ≤ 13) || c.toNat == 32 || c.toNat == 133 || c.toNat == 160 ||
    c.toNat == 5760 || (8192 ≤ c.toNat && c.toNat ≤ 8202) || c.toNat == 8232 ||
    c.toNat == 8233 || c.toNat == 8239 || c.toNat == 8287 || c.toNat == 12288

/-- Library `strings.TrimSpace`: leading and trailing white space is removed. -/
def stringsTrimSpace (s : String) : String :=
  ⟨((s.data.dropWhile unicodeIsSpace).reverse.dropWhile unicodeIsSpace).reverse⟩

/-- The `for` loop of `findKey` (lines 628-633). -/
def findKeyLoop (policy : kibanaPolicy) (tokenName : String) :
    List kibanaAPIKey → Option kibanaAPIKey
  | [] => none
  | key :: rest =>
    let name := stringsTrimSpace (tokenNameStripReplaceAll key.Name)
    if name == tokenName && key.PolicyID == policy.ID then some key
    else findKeyLoop policy tokenName rest

/-- Embedding of `findKey(keys, policy, tokenName)` (lines 627-635). -/
def findKey (keys : List kibanaAPIKey) (policy : kibanaPolicy) (tokenName : String) :
    Result kibanaAPIKey :=
  match findKeyLoop policy tokenName keys with
  | some key => .ok key
  | none =>
    .err (.new ("unable to find enrollment token named \"" ++ tokenName ++ "\" in policy \""
      ++ policy.Name ++ "\""))

/-- A run of exactly `n` hexadecimal digits. -/
def IsHexRun (n : Nat) (cs : List Char) : Prop :=
  cs.length = n ∧ ∀ c ∈ cs, isHexDigit c = true

/-- A UUID as Kibana appends it: 8-4-4-4-12 hexadecimal digits. -/
def IsUUIDText (cs : List Char) : Prop :=
  ∃ a b c d e, cs = a ++ ('-' :: (b ++ ('-' :: (c ++ ('-' :: (d ++ ('-' :: e))))))) ∧
    IsHexRun 8 a ∧ IsHexRun 4 b ∧ IsHexRun 4 c ∧ IsHexRun 4 d ∧ IsHexRun 12 e

/-- The name is `base` followed by a trailing ` (<uuid>)`. -/
def HasUUIDSuffix (name base : List Char) : Prop :=
  ∃ sp uuid, isRegexSpace sp = true ∧ IsUUIDText uuid ∧
    name = base ++ (sp :: '(' :: (uuid ++ [')']))

/-- The name of a key as it is compared with the token name: the trailing UUID removed,
then surrounding white space trimmed. -/
def tokenNameOf (key : kibanaAPIKey) : String :=
  stringsTrimSpace (tokenNameStripReplaceAll key.Name)

/-- The key is the one asked for: its name without the UUID is the token name and it is
scoped to the policy. -/
def keyMatches (policy : kibanaPolicy) (tokenName : String) (key : kibanaAPIKey) : Bool :=
  tokenNameOf key == tokenName && key.PolicyID == policy.ID

/-- Sample enrollment keys: one whose suffix is not a UUID, one of another policy, one
with white space around its name, one without a suffix. -/
def sampleKeys : List kibanaAPIKey :=
  [{ ID := "key-0", Name := "Default (6c4ba6e9-5a9b-4c0e-8f6d-0a1b2c3d4e5g)",
     PolicyID := "policy-1", APIKey := "secret-0" },
   { ID := "key-1", Name := "Default (6c4ba6e9-5a9b-4c0e-8f6d-0a1b2c3d4e5f)",
     PolicyID := "policy-2", APIKey := "secret-1" },
   { ID := "key-2", Name := " Default  (0f1e2d3c-4b5a-6978-8796-a5b4c3d2e1f0)",
     PolicyID := "policy-1", APIKey := "secret-2" },
   { ID := "key-3", Name := "Default", PolicyID := "policy-1", APIKey := "secret-3" }]

/-! ## Filling the service tokens (`ensureServiceToken`) -/

/-- One of the two service tokens is configured: the guard of line 360. -/
def hasServiceToken (cfg : setupConfig) : Bool :=
  cfg.Kibana.Fleet.ServiceToken != "" || cfg.FleetServer.Elasticsearch.ServiceToken != ""

/-- Kibana issues the service token `v`: credentials are configured, the client is built, the
request `POST /api/fleet/service_tokens` is answered with a status below 400 and the body
decodes to a token of value `v`. -/
def KibanaIssues (cenv : ContainerEnv) (cfg : setupConfig) (v : String) : Prop :=
  cfg.Kibana.Fleet.Username ≠ "" ∧ cfg.Kibana.Fleet.Password ≠ "" ∧
    cenv.kibanaClient cfg.Kibana = none ∧
    ∃ code r t, cenv.kibanaRequest cfg.Kibana "POST" "/api/fleet/service_tokens" =
        (code, r, none) ∧ code < 400 ∧ cenv.jsonUnmarshalTokenResp r = .ok t ∧ t.Value = v

/-- The value `v` is what a configuration without a service token gets one from: the
content of the Elasticsearch service-token file, else of the Kibana service-token file,
else the token Kibana issues. -/
def ObtainsServiceToken (cenv : ContainerEnv) (cfg : setupConfig) (v : String) : Prop :=
  if cfg.FleetServer.Elasticsearch.ServiceTokenPath ≠ "" then
    cenv.ReadFile cfg.FleetServer.Elasticsearch.ServiceTokenPath = .ok v
  else if cfg.Kibana.Fleet.ServiceTokenPath ≠ "" then
    cenv.ReadFile cfg.Kibana.Fleet.ServiceTokenPath = .ok v
  else
    KibanaIssues cenv cfg v

/-- Sample setup: only the Kibana service token is configured. -/
def kibanaTokenOnlySetup : setupConfig :=
  { Fleet := { Enroll := true, URL := "https://fleet:8220" }
    FleetServer := { Enable := true }
    Kibana := { Fleet := { ServiceToken := "kibana-token" } } }

/-- Sample setup: no service token, the token file of Elasticsearch is configured. -/
def tokenFileSetup : setupConfig :=
  { Fleet := { Enroll := true, URL := "https://fleet:8220" }
    FleetServer := { Enable := true, Elasticsearch := { ServiceTokenPath := "/run/secrets/token" } } }

/-- Sample functions where the token file is empty. -/
def emptyFileEnv : ContainerEnv :=
  { sampleContainerEnv with ReadFile := fun _ => .ok "" }


/-! ## Expression language: `arrayContains` (`eql/methods_array.go`) -/

/-- Values an expression method receives as `interface{}`, as far as they are modelled: the
untyped nil, the language's null (a non-nil `*null`), booleans, integers (`int`), strings,
and slices `[]interface{}`, where the nil slice `nilArray` and a non-nil slice `array a`,
empty or not, are different values. Floating point numbers and maps are left out. -/
inductive Value where
  | nil
  | null
  | bool (b : Bool)
  | int (i : Int)
  | str (s : String)
  | nilArray
  | array (a : List Value)

mutual
/-- Library `reflect.DeepEqual` on these values: the same dynamic type and deeply equal
contents; two slices are deeply equal when both are nil, or both are not nil, have the
same length and deeply equal elements, so a nil slice and an empty non-nil slice are not. -/
def DeepEqual : Value → Value → Bool
  | .nil, .nil => true
  | .null, .null => true
  | .bool x, .bool y => x == y
  | .int x, .int y => x == y
  | .str x, .str y => x == y
  | .nilArray, .nilArray => true
  | .array x, .array y => DeepEqualList x y
  | _, _ => false
/-- Deep equality of the elements of two non-nil slices: equal lengths and deeply equal
elements. -/
def DeepEqualList : List Value → List Value → Bool
  | [], [] => true
  | x :: xs, y :: ys => DeepEqual x y && DeepEqualList xs ys
  | _, _ => false
end

/-- The verb `%T` on these values. -/
def Value.typeName : Value → String
  | .nil => "<nil>"
  | .null => "*eql.null"
  | .bool _ => "bool"
  | .int _ => "int"
  | .str _ => "string"
  | .nilArray => "[]interface {}"
  | .array _ => "[]interface {}"

/-- The inner loop over the array `a` (lines 22-26): some element is deeply equal to
`check`. -/
def arrayContainsInner (check : Value) : List Value → Bool
  | [] => false
  | i :: rest => if DeepEqual i check then true else arrayContainsInner check rest

/-- The outer loop over `args[1:]` (lines 21-27). -/
def arrayContainsOuter (a : List Value) : List Value → Bool
  | [] => false
  | check :: rest => if arrayContainsInner check a then true else arrayContainsOuter a rest

/-- Embedding of `arrayContains(args)` (lines 13-31): the boolean it returns, or its error. The case
`[]interface{}` of the type switch takes a nil slice as well, whose range is empty. -/
def arrayContains (args : List Value) : Result Bool :=
  if args.length < 2 then
    .err (.new ("arrayContains: accepts minimum 2 arguments; received " ++ toString args.length))
  else
    match args with
    | .null :: _ => .ok false
    | .nilArray :: rest => .ok (arrayContainsOuter [] rest)
    | .array a :: rest => .ok (arrayContainsOuter a rest)
    | first :: _ =>
      .err (.new ("arrayContains: first argument must be an array; received " ++
        first.typeName))
    | [] =>
      .err (.new ("arrayContains: accepts minimum 2 arguments; received " ++
        toString args.length))


/-! ## Fleet gateway (`coordinator/gateway.go`)

The source declares the interface `FleetGateway` (`Run`, `Errors`, `Actions`, `SetClient`)
only; the loop behind it is modelled from the specification. -/

/-- An action: a unit of remote-issued work with an opaque payload. -/
structure Action where
  payload : String
deriving DecidableEq, Repr

/-- The answer of the service to one poll (checkin): the actions it yields, or a failure. -/
inductive PollResult where
  | actions (batch : List Action)
  | failed (err : GoError)
deriving DecidableEq, Repr

/-- States of the gateway loop. -/
inductive GatewayState where
  | Idle
  | Polling
  | Delivering
  | WaitingBackoff
  | Cancelled
deriving DecidableEq, Repr

/-- The gateway as its consumers see it: the state of the loop, what was sent on the
channel `Actions()` and on the channel `Errors()`, oldest first, and the polls made. -/
structure Gateway where
  state : GatewayState := .Idle
  Actions : List (List Action) := []
  Errors : List GoError := []
  polls : Nat := 0
deriving DecidableEq, Repr

/-- Modelled from the spec: one poll cycle of the loop behind `FleetGateway.Run`, which is
missing from the source. The loop polls; a successful checkin that yields one or more
actions pushes exactly one batch on `Actions()` and the loop is `Delivering`; a failed poll
pushes the error on `Errors()` and moves to `WaitingBackoff` rather than terminating. -/
def Gateway.pollCycle (g : Gateway) (answer : PollResult) : Gateway :=
  let g := { g with state := .Polling, polls := g.polls + 1 }
  match answer with
  | .actions batch =>
    if batch.isEmpty then g
    else { g with state := .Delivering, Actions := g.Actions ++ [batch] }
  | .failed err => { g with state := .WaitingBackoff, Errors := g.Errors ++ [err] }

/-- Modelled from the spec: the loop of `FleetGateway.Run`, which is missing from the
source, from `Idle` over the answers the service gives until the context is cancelled;
cancellation is the only terminal transition. -/
def Gateway.Run (answers : List PollResult) : Gateway :=
  { answers.foldl Gateway.pollCycle {} with state := .Cancelled }


/-- What one answer adds to the channel `Actions()`. -/
def PollResult.sentActions : PollResult → List (List Action)
  | .actions batch => if batch.isEmpty then [] else [batch]
  | .failed _ => []

/-- What one answer adds to the channel `Errors()`. -/
def PollResult.sentErrors : PollResult → List GoError
  | .actions _ => []
  | .failed err => [err]


/-! ## Vocabulary of the frame of the backfill -/

/-- The run wrote `data` to the store: what is said of a run that made the call
`enroll.SafelyStoreAgentInfo(store, bytes.NewReader(data))`. -/
def Writes (run : Run) (data : String) : Prop := Event.storeSave data ∈ run.trace

/-- The field values of a stored record. -/
def Configuration.fieldValues (c : Configuration) : List String :=
  [c.Fleet.AccessAPIKey, c.Fleet.EnrollmentTokenHash, c.Fleet.ReplaceTokenHash,
    c.Fleet.Client.Host] ++ c.Fleet.Client.Hosts ++
    (match c.Fleet.Info with
      | some info => [info.ID]
      | none => [])

/-- The hash of a record was left as loaded, or was empty and is now the base64 encoding
of a hash generated from the token. -/
def HashKeptOrBackfilled (env : Env) (loadedHash token writtenHash : String) : Prop :=
  writtenHash = loadedHash ∨
    (len loadedHash = 0 ∧ 0 < len token ∧
      ∃ hashBytes, env.GeneratePBKDF2FromPassword token = .ok hashBytes ∧
        writtenHash = env.base64Encode hashBytes)

/-- Hashes are one-way: the encoding of a hash generated from one of the two requested
tokens is not the text of one of them. -/
def EncodedHashIsNotPlaintext (env : Env) (setupCfg : setupConfig) : Prop :=
  ∀ token ∈ [setupCfg.Fleet.EnrollmentToken, setupCfg.Fleet.ReplaceToken],
    ∀ hashBytes, env.GeneratePBKDF2FromPassword token = .ok hashBytes →
      env.base64Encode hashBytes ∉
        [setupCfg.Fleet.EnrollmentToken, setupCfg.Fleet.ReplaceToken]

/-- The frame of a write: `written` is `loaded` except for token hashes that were missing. -/
structure BackfillFrame (env : Env) (setupCfg : setupConfig) (loaded written : Configuration) :
    Prop where
  info : written.Fleet.Info = loaded.Fleet.Info
  accessAPIKey : written.Fleet.AccessAPIKey = loaded.Fleet.AccessAPIKey
  client : written.Fleet.Client = loaded.Fleet.Client
  enrollmentHash : HashKeptOrBackfilled env loaded.Fleet.EnrollmentTokenHash
    setupCfg.Fleet.EnrollmentToken written.Fleet.EnrollmentTokenHash
  replaceHash : HashKeptOrBackfilled env loaded.Fleet.ReplaceTokenHash
    setupCfg.Fleet.ReplaceToken written.Fleet.ReplaceTokenHash
  keptEnrollmentHash : 0 < len loaded.Fleet.EnrollmentTokenHash →
    written.Fleet.EnrollmentTokenHash = loaded.Fleet.EnrollmentTokenHash
  keptReplaceHash : 0 < len loaded.Fleet.ReplaceTokenHash →
    written.Fleet.ReplaceTokenHash = loaded.Fleet.ReplaceTokenHash
  backfilled : savesConfig setupCfg loaded = true


/-- What a run wrote, if it did: the marshalled `record`, and on success it is what the
store holds. -/
def WroteRecord (env : Env) (record : Configuration) (run : Run) (data : String) : Prop :=
  env.yamlMarshal record = .ok data ∧
    (run.outcome = .ret false none → run.world = { disk := data })


/-- Sample request like `sampleSetup` whose replace token is the text of the agent ID. -/
def reusedIDSetup : setupConfig :=
  { Fleet := { sampleSetup.Fleet with ReplaceToken := "agent-1" } }

/-- Sample environment like `legacyEnv` that generates the hash `[2]` for every replace
token. -/
def reusedIDEnv : Env :=
  { legacyEnv with
    GeneratePBKDF2FromPassword := fun password =>
      if password = "enroll-token" then .ok [1] else .ok [2] }


/-- Sample environment whose Fleet server is reached at the second acknowledge only: the
first attempt fails with a transport error. -/
def flakyEnv : Env :=
  { sampleEnv with
    ackExecute := fun _ n => if n = 1 then some (.new "connection refused") else none }

/-- Sample environment whose Fleet server is reached at the third acknowledge only. -/
def flakyTwiceEnv : Env :=
  { sampleEnv with
    ackExecute := fun _ n => if n ≤ 2 then some (.new "connection refused") else none }


/-! ## Requests to Kibana (`performGET`, `kibanaFetchPolicy`, `kibanaFetchToken`) -/

/-- Go method `Error()` of an error value. -/
def GoError.Error : GoError → String
  | .new text => text
  | .errorf text wrapped => text ++ ": " ++ wrapped.Error

/-- Calls made while requesting from Kibana, in the order they are made. -/
inductive KibanaEvent where
  | request (method : String) (path : String)
  | fprintf (text : String)
  | timeAfter (d : Int)
deriving DecidableEq, Repr

/-- Requests among the calls. -/
def KibanaEvent.isRequest : KibanaEvent → Bool
  | .request _ _ => true
  | _ => false

/-- Number of requests in a trace. -/
def requestCalls (tr : List KibanaEvent) : Nat := tr.countP KibanaEvent.isRequest

/-- The Kibana client and the JSON decoding the lookups use. -/
structure KibanaEnv where
  /-- Field `client.URL`. -/
  URL : String
  /-- Result `(code, body, err)` of the `i`-th `client.Request(method, path, nil, nil, nil)`
  of one call of `performGET` (`i` counts from 0). -/
  Request : String → String → Nat → Nat × String × Option GoError
  /-- Library `json.Unmarshal` into a `kibanaPolicies`, giving its `Items`. -/
  jsonUnmarshalPolicies : String → Result (List kibanaPolicy)
  /-- Library `json.Unmarshal` into a `kibanaAPIKeys`, giving its `Items`. -/
  jsonUnmarshalAPIKeys : String → Result (List kibanaAPIKey)
  /-- Library `json.Unmarshal` into a `kibanaAPIKeyDetail`, giving its `Item`. -/
  jsonUnmarshalAPIKeyDetail : String → Result kibanaAPIKey

/-- Embedding of `truncateString(b)` (lines 726-734). -/
def truncateString (b : String) : String :=
  let maxLength := 250
  let runes := b.data
  let runes := if runes.length > maxLength then runes.take maxLength ++ "... (truncated)".data
    else runes
  ⟨runes.map (fun c => if c = Char.ofNat 10 then Char.ofNat 32 else c)⟩

/-- What a call of `performGET` leaves: the error returned, the value decoded into
`response` (`none` when `response` was not filled), and the calls made. -/
structure GetResult (α : Type) where
  err : Option GoError
  response : Option α
  trace : List KibanaEvent

/-- The `for` loop of `performGET` (lines 704-722) from counter `i` on, with `remaining` iterations
left before `i < cfg.Kibana.RetryMaxCount` fails; `lastErr` is declared in line 703 and
never assigned, so it is nil where the loop ends; the local `err` of a failed attempt is
only printed, and is kept as its text. -/
def performGETLoop {α : Type} (cfg : setupConfig) (kenv : KibanaEnv) (path : String)
    (response : Option (String → Result α)) (msg : String) :
    Nat → Nat → List KibanaEvent → GetResult α
  | 0, _, tr => ⟨none, none, tr⟩
  | remaining + 1, i, tr =>
    let tr := tr ++ [KibanaEvent.request "GET" path]
    match kenv.Request "GET" path i with
    | (code, result, err) =>
      if err.isSome || code != 200 then
        let err : String :=
          match err with
          | some err =>
            "http GET request to " ++ kenv.URL ++ path ++ " fails: " ++ err.Error ++
              ". Response: " ++ truncateString result
          | none =>
            "http GET request to " ++ kenv.URL ++ path ++ " fails. StatusCode: " ++
              toString code ++ " Response: " ++ truncateString result
        let tr := tr ++ [KibanaEvent.fprintf (msg ++ " failed: " ++ err ++ "\n"),
          KibanaEvent.timeAfter cfg.Kibana.RetrySleepDuration]
        performGETLoop cfg kenv path response msg remaining (i + 1) tr
      else
        match response with
        | none => ⟨none, none, tr⟩
        | some unmarshal =>
          match unmarshal result with
          | .ok value => ⟨none, some value, tr⟩
          | .err e => ⟨some e, none, tr⟩

/-- Embedding of `performGET(cfg, client, path, response, writer, msg)` (lines 702-724); `response` is
`none` for a nil pointer, else the decoding into what it points to. -/
def performGET {α : Type} (cfg : setupConfig) (kenv : KibanaEnv) (path : String)
    (response : Option (String → Result α)) (msg : String) : GetResult α :=
  performGETLoop cfg kenv path response msg cfg.Kibana.RetryMaxCount.toNat 0 []

/-- Embedding of `kibanaFetchPolicy(cfg, client, streams)` (lines 550-557): `policies` starts as the
zero value, whose `Items` is empty. -/
def kibanaFetchPolicy (cfg : setupConfig) (kenv : KibanaEnv) :
    Result kibanaPolicy × List KibanaEvent :=
  let r := performGET cfg kenv "/api/fleet/agent_policies" (some kenv.jsonUnmarshalPolicies)
    "Kibana fetch policy"
  match r.err with
  | some err => (.err err, r.trace)
  | none => (findPolicy cfg (r.response.getD []), r.trace)

/-- Embedding of `kibanaFetchToken(cfg, client, policy, streams, tokenName)` (lines 559-575). -/
def kibanaFetchToken (cfg : setupConfig) (kenv : KibanaEnv) (policy : kibanaPolicy)
    (tokenName : String) : Result String × List KibanaEvent :=
  let r := performGET cfg kenv "/api/fleet/enrollment_api_keys" (some kenv.jsonUnmarshalAPIKeys)
    "Kibana fetch token"
  match r.err with
  | some err => (.err err, r.trace)
  | none =>
    match findKey (r.response.getD []) policy tokenName with
    | .err err => (.err err, r.trace)
    | .ok key =>
      let d := performGET cfg kenv ("/api/fleet/enrollment_api_keys/" ++ key.ID)
        (some kenv.jsonUnmarshalAPIKeyDetail) "Kibana fetch token detail"
      match d.err with
      | some err => (.err err, r.trace ++ d.trace)
      | none => (.ok (d.response.getD {}).APIKey, r.trace ++ d.trace)

/-- Every one of the first `n` requests for `path` fails: a transport error, or a status
code other than 200. -/
def AllAttemptsFail (kenv : KibanaEnv) (path : String) (n : Nat) : Prop :=
  ∀ i, i < n → (kenv.Request "GET" path i).2.2.isSome = true ∨
    (kenv.Request "GET" path i).1 ≠ 200

/-- Sample Kibana that is not ready: every request is answered with status 503. -/
def downKibana : KibanaEnv :=
  { URL := "http://kibana:5601"
    Request := fun _ _ _ => (503, "Kibana server is not ready yet", none)
    jsonUnmarshalPolicies := fun _ => .err (.new "unexpected end of JSON input")
    jsonUnmarshalAPIKeys := fun _ => .err (.new "unexpected end of JSON input")
    jsonUnmarshalAPIKeyDetail := fun _ => .err (.new "unexpected end of JSON input") }

/-- Sample setup: two requests to Kibana at most, one second apart. -/
def twoTriesSetup : setupConfig :=
  { Fleet := { Enroll := true, URL := "https://fleet:8220", TokenPolicyName := "Agent policy" }
    Kibana := { RetryMaxCount := 2, RetrySleepDuration := 1000000000 } }


/-- Sample stored record like `sampleStored` whose identity record `Fleet.Info` is nil. -/
def noIdentityStored : Configuration :=
  { Fleet := { sampleStored.Fleet with Info := none } }

/-- Sample environment that decodes the store content to `noIdentityStored`. -/
def noIdentityEnv : Env :=
  { sampleEnv with NewFromConfig := fun _ => .ok noIdentityStored }


/-! ## Arguments of the enroll command (`buildEnrollArgs`) -/

/-- A parsed URL (`*url.URL`), with the fields `buildFleetServerConnStr` reads. -/
structure URL where
  Scheme : String := ""
  Host : String := ""
  Path : String := ""
deriving DecidableEq, Repr

/-- What `buildEnrollArgs` reads besides its arguments: the paths of the installation, the
environment, and library functions. -/
structure EnrollEnv where
  /-- Value of `paths.ConfigFile()`. -/
  ConfigFile : String
  /-- Value of `paths.Top()`. -/
  Top : String
  /-- Value of `paths.Config()`. -/
  Config : String
  /-- Value of `paths.Logs()`. -/
  Logs : String
  /-- Value of `paths.ControlSocket()`. -/
  ControlSocket : String
  /-- Value of `paths.Downloads()`. -/
  Downloads : String
  /-- Value of `paths.IsVersionHome()`. -/
  IsVersionHome : Bool
  /-- Value of `envWithDefault("", "ELASTIC_AGENT_TAGS")`. -/
  ELASTIC_AGENT_TAGS : String
  /-- Library `url.Parse`. -/
  urlParse : String → Result URL
  /-- Method `time.Duration.String`. -/
  durationString : Int → String

/-- One element of the argument list, with where its text comes from: a string literal of
the source (the subcommand and the flags), or a value taken from the configuration, the
paths or the environment. -/
inductive Arg where
  | literal (text : String)
  | value (text : String)
deriving DecidableEq, Repr

/-- The text of an argument, as the enroll command receives it. -/
def Arg.text : Arg → String
  | .literal text => text
  | .value text => text

/-- Library `strings.TrimLeft(s, "/")`. -/
def trimLeftSlash (s : String) : String := ⟨s.data.dropWhile (fun c => c == '/')⟩

/-- Embedding of `buildFleetServerConnStr(cfg)` (lines 537-548). -/
def buildFleetServerConnStr (eenv : EnrollEnv) (cfg : fleetServerConfig) : Result String :=
  match eenv.urlParse cfg.Elasticsearch.Host with
  | .err err => .err err
  | .ok u =>
    let path := ""
    let path := if u.Path != "" then path ++ ("/" ++ trimLeftSlash u.Path) else path
    .ok (u.Scheme ++ "://" ++ u.Host ++ path)

/-- The `range` loops of lines 477-479 and 505-507: one `--header k=v` per entry. -/
def headerArgs : List (String × String) → List Arg
  | [] => []
  | (k, v) :: rest => [.literal "--header", .value (k ++ "=" ++ v)] ++ headerArgs rest

/-- An `if cond { args = append(args, items...) }`: what it appends. -/
def appendIf (cond : Bool) (items : List Arg) : List Arg := if cond then items else []

/-- Lines 414-431: the arguments every enroll command gets. -/
def baseEnrollArgs (eenv : EnrollEnv) : List Arg :=
  [Arg.literal "enroll", Arg.literal "-f",
    Arg.literal "-c", Arg.value eenv.ConfigFile,
    Arg.literal "--path.home", Arg.value eenv.Top,
    Arg.literal "--path.config", Arg.value eenv.Config,
    Arg.literal "--path.logs", Arg.value eenv.Logs,
    Arg.literal "--path.socket", Arg.value eenv.ControlSocket,
    Arg.literal "--skip-daemon-reload"]
  ++ appendIf (eenv.Downloads != "") [Arg.literal "--path.downloads", Arg.value eenv.Downloads]
  ++ appendIf (!eenv.IsVersionHome) [Arg.literal "--path.home.unversioned"]
  ++ appendIf (eenv.ELASTIC_AGENT_TAGS != "")
      [Arg.literal "--tag", Arg.value eenv.ELASTIC_AGENT_TAGS]

/-- Lines 438-442: the service token of Fleet Server, as a path if one is configured, else
as the token if one is configured. -/
def serviceTokenArgs (es : elasticsearchConfig) : List Arg :=
  if es.ServiceTokenPath != "" then
    [Arg.literal "--fleet-server-service-token-path", Arg.value es.ServiceTokenPath]
  else if es.ServiceTokenPath == "" && es.ServiceToken != "" then
    [Arg.literal "--fleet-server-service-token", Arg.value es.ServiceToken]
  else []

/-- Lines 443-498: the other options of Fleet Server. -/
def fleetServerOptionArgs (eenv : EnrollEnv) (cfg : setupConfig) (policyID : String) :
    List Arg :=
  appendIf (policyID != "") [Arg.literal "--fleet-server-policy", Arg.value policyID]
  ++ appendIf (cfg.FleetServer.Elasticsearch.CA != "")
      [Arg.literal "--fleet-server-es-ca", Arg.value cfg.FleetServer.Elasticsearch.CA]
  ++ appendIf (cfg.FleetServer.Elasticsearch.CATrustedFingerprint != "")
      [Arg.literal "--fleet-server-es-ca-trusted-fingerprint",
        Arg.value cfg.FleetServer.Elasticsearch.CATrustedFingerprint]
  ++ appendIf (cfg.FleetServer.Elasticsearch.Cert != "")
      [Arg.literal "--fleet-server-es-cert", Arg.value cfg.FleetServer.Elasticsearch.Cert]
  ++ appendIf (cfg.FleetServer.Elasticsearch.CertKey != "")
      [Arg.literal "--fleet-server-es-cert-key", Arg.value cfg.FleetServer.Elasticsearch.CertKey]
  ++ appendIf (cfg.FleetServer.Host != "")
      [Arg.literal "--fleet-server-host", Arg.value cfg.FleetServer.Host]
  ++ appendIf (cfg.FleetServer.Port != "")
      [Arg.literal "--fleet-server-port", Arg.value cfg.FleetServer.Port]
  ++ appendIf (cfg.FleetServer.Cert != "")
      [Arg.literal "--fleet-server-cert", Arg.value cfg.FleetServer.Cert]
  ++ appendIf (cfg.FleetServer.CertKey != "")
      [Arg.literal "--fleet-server-cert-key", Arg.value cfg.FleetServer.CertKey]
  ++ appendIf (cfg.FleetServer.PassphrasePath != "")
      [Arg.literal "--fleet-server-cert-key-passphrase", Arg.value cfg.FleetServer.PassphrasePath]
  ++ appendIf (cfg.FleetServer.ClientAuth != "")
      [Arg.literal "--fleet-server-client-auth", Arg.value cfg.FleetServer.ClientAuth]
  ++ headerArgs cfg.FleetServer.Headers
  ++ appendIf (cfg.Fleet.URL != "") [Arg.literal "--url", Arg.value cfg.Fleet.URL]
  ++ appendIf cfg.FleetServer.InsecureHTTP [Arg.literal "--fleet-server-insecure-http"]
  ++ appendIf (cfg.FleetServer.InsecureHTTP || cfg.Fleet.Insecure) [Arg.literal "--insecure"]
  ++ appendIf cfg.FleetServer.Elasticsearch.Insecure [Arg.literal "--fleet-server-es-insecure"]
  ++ appendIf (cfg.FleetServer.Timeout != 0)
      [Arg.literal "--fleet-server-timeout",
        Arg.value (eenv.durationString cfg.FleetServer.Timeout)]

/-- Lines 437-498: what is appended when Fleet Server is enabled, after the connection
string was built. -/
def fleetServerEnrollArgs (eenv : EnrollEnv) (cfg : setupConfig) (policyID connStr : String) :
    List Arg :=
  [Arg.literal "--fleet-server-es", Arg.value connStr]
  ++ serviceTokenArgs cfg.FleetServer.Elasticsearch
  ++ fleetServerOptionArgs eenv cfg policyID

/-- Lines 503-507: what is appended when Fleet Server is not enabled and a URL is given. -/
def agentEnrollArgs (cfg : setupConfig) : List Arg :=
  [Arg.literal "--url", Arg.value cfg.Fleet.URL]
  ++ appendIf cfg.Fleet.Insecure [Arg.literal "--insecure"]
  ++ headerArgs cfg.Fleet.Headers

/-- Lines 509-533: what is appended in both cases. -/
def commonEnrollArgs (eenv : EnrollEnv) (cfg : setupConfig) (token : String) : List Arg :=
  appendIf (cfg.Fleet.CA != "") [Arg.literal "--certificate-authorities", Arg.value cfg.Fleet.CA]
  ++ appendIf (token != "") [Arg.literal "--enrollment-token", Arg.value token]
  ++ appendIf (cfg.Fleet.ID != "") [Arg.literal "--id", Arg.value cfg.Fleet.ID]
  ++ appendIf (cfg.Fleet.ReplaceToken != "")
      [Arg.literal "--replace-token", Arg.value cfg.Fleet.ReplaceToken]
  ++ appendIf (cfg.Fleet.DaemonTimeout != 0)
      [Arg.literal "--daemon-timeout", Arg.value (eenv.durationString cfg.Fleet.DaemonTimeout)]
  ++ appendIf (cfg.Fleet.EnrollTimeout != 0)
      [Arg.literal "--enroll-timeout", Arg.value (eenv.durationString cfg.Fleet.EnrollTimeout)]
  ++ appendIf (cfg.Fleet.Cert != "") [Arg.literal "--elastic-agent-cert", Arg.value cfg.Fleet.Cert]
  ++ appendIf (cfg.Fleet.CertKey != "")
      [Arg.literal "--elastic-agent-cert-key", Arg.value cfg.Fleet.CertKey]

/-- The elements `buildEnrollArgs(cfg, token, policyID)` (lines 413-535) appends to `args`, in
order. -/
def enrollArgs (eenv : EnrollEnv) (cfg : setupConfig) (token policyID : String) :
    Result (List Arg) :=
  if cfg.FleetServer.Enable then
    match buildFleetServerConnStr eenv cfg.FleetServer with
    | .err err => .err err
    | .ok connStr =>
      .ok (baseEnrollArgs eenv ++ fleetServerEnrollArgs eenv cfg policyID connStr
        ++ commonEnrollArgs eenv cfg token)
  else
    if cfg.Fleet.URL == "" then
      .err (.new "FLEET_URL is required when FLEET_ENROLL is true without FLEET_SERVER_ENABLE")
    else
      .ok (baseEnrollArgs eenv ++ agentEnrollArgs cfg ++ commonEnrollArgs eenv cfg token)

/-- Embedding of `buildEnrollArgs(cfg, token, policyID)` (lines 413-535): the argument list, or the
error. -/
def buildEnrollArgs (eenv : EnrollEnv) (cfg : setupConfig) (token policyID : String) :
    Result (List String) :=
  match enrollArgs eenv cfg token policyID with
  | .ok args => .ok (args.map Arg.text)
  | .err err => .err err

/-- The two configurations differ at most in the values of the service token. -/
def DifferOnlyInServiceToken (cfg1 cfg2 : setupConfig) : Prop :=
  setServiceToken cfg1 "" = setServiceToken cfg2 ""

/-- Sample paths and environment of a container. -/
def sampleEnrollEnv : EnrollEnv :=
  { ConfigFile := "/usr/share/elastic-agent/state/elastic-agent.yml"
    Top := "/usr/share/elastic-agent/state"
    Config := "/usr/share/elastic-agent/state"
    Logs := "/usr/share/elastic-agent/state/logs"
    ControlSocket := "unix:///usr/share/elastic-agent/state/elastic-agent.sock"
    Downloads := ""
    IsVersionHome := true
    ELASTIC_AGENT_TAGS := ""
    urlParse := fun _ => .ok { Scheme := "https", Host := "es:9200" }
    durationString := fun _ => "1m0s" }

/-- Sample setup: Fleet Server bootstrapping with the service token in a file; the token
value was also read into the configuration. -/
def tokenPathSetup : setupConfig :=
  { Fleet := { Enroll := true, URL := "https://fleet:8220" }
    FleetServer :=
      { Enable := true
        Elasticsearch :=
          { Host := "https://es:9200"
            ServiceTokenPath := "/run/secrets/token"
            ServiceToken := "secret-token-1" } }
    Kibana := { Fleet := { ServiceToken := "secret-token-1" } } }


/-- White space as Unicode defines it (the property `White_Space`), by code point: the
controls U+0009 to U+000D, space, U+0085, U+00A0, U+1680, U+2000 to U+200A, U+2028,
U+2029, U+202F, U+205F and U+3000. -/
def IsWhiteSpace (c : Char) : Prop :=
  c.toNat ∈ [9, 10, 11, 12, 13, 32, 133, 160, 5760, 8192, 8193, 8194, 8195, 8196, 8197, 8198,
    8199, 8200, 8201, 8202, 8232, 8233, 8239, 8287, 12288]

/-- The text `core` is `s` without its surrounding white space: `s` is `core` between two
runs of white space, and `core` neither starts nor ends with white space. -/
def IsTrimOf (s core : List Char) : Prop :=
  ∃ leading trailing, s = leading ++ core ++ trailing ∧
    (∀ c ∈ leading, IsWhiteSpace c) ∧ (∀ c ∈ trailing, IsWhiteSpace c) ∧
    (∀ c, core.head? = some c → ¬ IsWhiteSpace c) ∧
    (∀ c, core.getLast? = some c → ¬ IsWhiteSpace c)

/-- The code points of the hexadecimal digits `0-9`, `A-F`, `a-f`. -/
def hexDigitCodes : List Nat :=
  [48, 49, 50, 51, 52, 53, 54, 55, 56, 57, 65, 66, 67, 68, 69, 70, 97, 98, 99, 100, 101, 102]

/-- The code points of tab, line feed, form feed, carriage return and space. -/
def regexSpaceCodes : List Nat := [9, 10, 12, 13, 32]


/-! ## Stepping lemmas -/

theorem shouldFleetEnroll_of_loads (fuel : Nat) (env : Env) (w : World) (setupCfg : setupConfig)
    (storedConfig : Configuration) (hE : setupCfg.Fleet.Enroll = true)
    (hF : setupCfg.Fleet.Force = false) (hL : Loads env w storedConfig) :
    shouldFleetEnroll fuel env w setupCfg =
      if setupCfg.Fleet.ID != "" &&
          (match storedConfig.Fleet.Info with
            | none => true
            | some info => info.ID != setupCfg.Fleet.ID) then
        some ⟨.ret true none, w, loadTrace env⟩
      else
        stepFleetHosts fuel env w setupCfg storedConfig (loadTrace env) := by
  have hd := hL.decoded
  unfold decodeStored at hd
  cases hcfg : env.NewConfigFrom w.disk with
  | err e => simp [hcfg] at hd
  | ok cfg =>
    simp only [hcfg] at hd
    simp [shouldFleetEnroll, hE, hF, hL.present, hL.opened, hL.loaded, hcfg, hd, loadTrace]

theorem shouldFleetEnroll_of_idCheckPasses (fuel : Nat) (env : Env) (w : World)
    (setupCfg : setupConfig) (storedConfig : Configuration)
    (hE : setupCfg.Fleet.Enroll = true) (hF : setupCfg.Fleet.Force = false)
    (hL : Loads env w storedConfig) (hID : IDCheckPasses setupCfg storedConfig) :
    shouldFleetEnroll fuel env w setupCfg =
      stepFleetHosts fuel env w setupCfg storedConfig (loadTrace env) := by
  rw [shouldFleetEnroll_of_loads fuel env w setupCfg storedConfig hE hF hL]
  rcases hID with h | h
  · simp [h]
  · simp [h]

theorem shouldFleetEnroll_of_reaches (fuel : Nat) (env : Env) (w : World)
    (setupCfg : setupConfig) (storedConfig : Configuration)
    (h : ReachesTokenChecks env w setupCfg storedConfig) :
    shouldFleetEnroll fuel env w setupCfg =
      stepEnrollmentTokenCheck fuel env w setupCfg storedConfig (loadTrace env) := by
  rw [shouldFleetEnroll_of_idCheckPasses fuel env w setupCfg storedConfig h.enroll h.force
    h.loads h.id]
  have hu := h.url
  unfold URLCheckPasses at hu
  have hne : env.GetHosts storedConfig.Fleet.Client ≠ [] := List.ne_nil_of_mem hu
  simp [stepFleetHosts, hu, hne]

theorem stepEnrollmentTokenCheck_of_passes (fuel : Nat) (env : Env) (w : World)
    (setupCfg : setupConfig) (storedConfig : Configuration) (tr : List Event)
    (h : TokenCheckPasses env storedConfig.Fleet.EnrollmentTokenHash
      setupCfg.Fleet.EnrollmentToken) :
    stepEnrollmentTokenCheck fuel env w setupCfg storedConfig tr =
      stepReplaceTokenCheck fuel env w setupCfg storedConfig
        (tr ++ compareTrace env storedConfig.Fleet.EnrollmentTokenHash
          setupCfg.Fleet.EnrollmentToken) := by
  rcases h with h | h
  · have h2 : ¬ (0 < len storedConfig.Fleet.EnrollmentTokenHash ∧
        0 < len setupCfg.Fleet.EnrollmentToken) := h
    simp only [stepEnrollmentTokenCheck, compareTrace]
    simp [h2]
  · unfold Verify at h
    by_cases hp : 0 < len storedConfig.Fleet.EnrollmentTokenHash ∧
        0 < len setupCfg.Fleet.EnrollmentToken
    · cases hd : env.base64Decode storedConfig.Fleet.EnrollmentTokenHash with
      | err e => simp [hd] at h
      | ok hashBytes =>
        simp only [hd] at h
        cases hc : env.ComparePBKDF2HashAndPassword hashBytes setupCfg.Fleet.EnrollmentToken with
        | none => simp [stepEnrollmentTokenCheck, compareTrace, hp, hd, hc]
        | some e =>
          simp only [hc] at h
          split at h <;> simp at h
    · simp only [stepEnrollmentTokenCheck, compareTrace]
      simp [hp]

theorem stepReplaceTokenCheck_of_passes (fuel : Nat) (env : Env) (w : World)
    (setupCfg : setupConfig) (storedConfig : Configuration) (tr : List Event)
    (h : TokenCheckPasses env storedConfig.Fleet.ReplaceTokenHash setupCfg.Fleet.ReplaceToken) :
    stepReplaceTokenCheck fuel env w setupCfg storedConfig tr =
      stepValidateAPIToken fuel env w setupCfg storedConfig
        (tr ++ compareTrace env storedConfig.Fleet.ReplaceTokenHash
          setupCfg.Fleet.ReplaceToken) := by
  rcases h with h | h
  · have h2 : ¬ (0 < len storedConfig.Fleet.ReplaceTokenHash ∧
        0 < len setupCfg.Fleet.ReplaceToken) := h
    simp only [stepReplaceTokenCheck, compareTrace]
    simp [h2]
  · unfold Verify at h
    by_cases hp : 0 < len storedConfig.Fleet.ReplaceTokenHash ∧
        0 < len setupCfg.Fleet.ReplaceToken
    · cases hd : env.base64Decode storedConfig.Fleet.ReplaceTokenHash with
      | err e => simp [hd] at h
      | ok hashBytes =>
        simp only [hd] at h
        cases hc : env.ComparePBKDF2HashAndPassword hashBytes setupCfg.Fleet.ReplaceToken with
        | none => simp [stepReplaceTokenCheck, compareTrace, hp, hd, hc]
        | some e =>
          simp only [hc] at h
          split at h <;> simp at h
    · simp only [stepReplaceTokenCheck, compareTrace]
      simp [hp]

theorem shouldFleetEnroll_of_localChecksPass (fuel : Nat) (env : Env) (w : World)
    (setupCfg : setupConfig) (storedConfig : Configuration)
    (h : LocalChecksPass env w setupCfg storedConfig) :
    shouldFleetEnroll fuel env w setupCfg =
      stepValidateAPIToken fuel env w setupCfg storedConfig
        (localTrace env setupCfg storedConfig) := by
  rw [shouldFleetEnroll_of_reaches fuel env w setupCfg storedConfig h.reaches,
    stepEnrollmentTokenCheck_of_passes fuel env w setupCfg storedConfig _ h.enrollmentToken,
    stepReplaceTokenCheck_of_passes fuel env w setupCfg storedConfig _ h.replaceToken]
  rfl

/-- With fuel for three iterations the retry loop of `ackFleet` always finishes, and its
result is decided by the outcomes of at most three acknowledge commands. -/
theorem ackFleet_eq (k : Nat) (env : Env) (agentID : String) (tr : List Event) :
    ackFleet (k + 3) env agentID tr =
      some (match env.ackExecute agentID 1 with
        | none => (none, tr ++ ackTrace agentID 1)
        | some e1 =>
          if errorsIs e1 ErrInvalidAPIKey then (some e1, tr ++ ackTrace agentID 1)
          else
            match env.ackExecute agentID 2 with
            | none => (none, tr ++ ackTrace agentID 2)
            | some e2 =>
              if errorsIs e2 ErrInvalidAPIKey then (some e2, tr ++ ackTrace agentID 2)
              else
                match env.ackExecute agentID 3 with
                | none => (none, tr ++ ackTrace agentID 3)
                | some e3 => (some e3, tr ++ ackTrace agentID 3)) := by
  cases h1 : env.ackExecute agentID 1 with
  | none => simp [ackFleet, backoffRetry, ackFleetOperation, h1, ackTrace]
  | some e1 =>
    by_cases i1 : errorsIs e1 ErrInvalidAPIKey = true
    · simp [ackFleet, backoffRetry, ackFleetOperation, h1, ackTrace, i1]
    · cases h2 : env.ackExecute agentID 2 with
      | none => simp [ackFleet, backoffRetry, ackFleetOperation, h1, h2, ackTrace, i1, maxRetries]
      | some e2 =>
        by_cases i2 : errorsIs e2 ErrInvalidAPIKey = true
        · simp [ackFleet, backoffRetry, ackFleetOperation, h1, h2, ackTrace, i1, i2, maxRetries]
        · cases h3 : env.ackExecute agentID 3 with
          | none =>
            simp [ackFleet, backoffRetry, ackFleetOperation, h1, h2, h3, ackTrace, i1, i2,
              maxRetries]
          | some e3 =>
            simp [ackFleet, backoffRetry, ackFleetOperation, h1, h2, h3, ackTrace, i1, i2,
              maxRetries]

theorem stepValidateAPIToken_of_clientBuilt (fuel : Nat) (env : Env) (w : World)
    (setupCfg : setupConfig) (storedConfig : Configuration) (info : AgentInfo)
    (tr : List Event) (h : ClientBuilt env storedConfig info) :
    stepValidateAPIToken fuel env w setupCfg storedConfig tr =
      match ackFleet fuel env info.ID
          (tr ++ [Event.newFleetClient storedConfig.Fleet.AccessAPIKey
            storedConfig.Fleet.Client]) with
      | none => none
      | some (some err, tr1) =>
        if errorsIs err ErrInvalidAPIKey then
          some ⟨.ret true none, w, tr1⟩
        else
          some ⟨.ret false (some (.errorf "failed to validate api token" err)), w, tr1⟩
      | some (none, tr1) => some (stepEnrollmentHashUpdate env w setupCfg storedConfig tr1) := by
  simp only [stepValidateAPIToken, h.logger, h.client, h.identity]

/-! ## Facts about traces and errors -/

theorem errorsIs_self (e : GoError) : errorsIs e e = true := by
  cases e <;> simp [errorsIs]

theorem errorsIs_errorf (text : String) (e : GoError) : errorsIs (.errorf text e) e = true := by
  simp [errorsIs, errorsIs_self]

theorem networkCalls_loadTrace (env : Env) : networkCalls (loadTrace env) = 0 := rfl

theorem compareCalls_loadTrace (env : Env) : compareCalls (loadTrace env) = 0 := rfl

theorem networkCalls_append (a b : List Event) :
    networkCalls (a ++ b) = networkCalls a + networkCalls b := by
  simp [networkCalls]

theorem ackCalls_append (a b : List Event) : ackCalls (a ++ b) = ackCalls a + ackCalls b := by
  simp [ackCalls]

theorem networkCalls_compareTrace (env : Env) (storedHash token : String) :
    networkCalls (compareTrace env storedHash token) = 0 := by
  unfold compareTrace
  split
  · split <;> rfl
  · rfl

theorem ackCalls_compareTrace (env : Env) (storedHash token : String) :
    ackCalls (compareTrace env storedHash token) = 0 := by
  unfold compareTrace
  split
  · split <;> rfl
  · rfl

theorem networkCalls_localTrace (env : Env) (setupCfg : setupConfig)
    (storedConfig : Configuration) : networkCalls (localTrace env setupCfg storedConfig) = 0 := by
  simp [localTrace, networkCalls_append, networkCalls_compareTrace, networkCalls_loadTrace]

theorem ackCalls_localTrace (env : Env) (setupCfg : setupConfig)
    (storedConfig : Configuration) : ackCalls (localTrace env setupCfg storedConfig) = 0 := by
  have h : ackCalls (loadTrace env) = 0 := rfl
  simp [localTrace, ackCalls_append, ackCalls_compareTrace, h]

theorem ackCalls_ackTrace (agentID : String) (n : Nat) : ackCalls (ackTrace agentID n) = n := by
  induction n using Nat.strongRecOn with
  | _ n ih =>
    match n with
    | 0 => rfl
    | 1 => rfl
    | m + 2 =>
      have h := ih (m + 1) (by omega)
      simp only [ackCalls] at h
      simp [ackTrace, ackCalls, List.countP_cons, Event.isAck, h]

theorem stepEnrollmentTokenCheck_mismatch (fuel : Nat) (env : Env) (w : World)
    (setupCfg : setupConfig) (storedConfig : Configuration) (tr : List Event)
    (hp : BothPresent storedConfig.Fleet.EnrollmentTokenHash setupCfg.Fleet.EnrollmentToken)
    (hv : Verify env storedConfig.Fleet.EnrollmentTokenHash setupCfg.Fleet.EnrollmentToken
      = .mismatch) :
    ∃ hashBytes, env.base64Decode storedConfig.Fleet.EnrollmentTokenHash = .ok hashBytes ∧
      stepEnrollmentTokenCheck fuel env w setupCfg storedConfig tr =
        some ⟨.ret true none, w,
          tr ++ [Event.comparePBKDF2 hashBytes setupCfg.Fleet.EnrollmentToken]⟩ := by
  unfold Verify at hv
  have hp2 : 0 < len storedConfig.Fleet.EnrollmentTokenHash ∧
      0 < len setupCfg.Fleet.EnrollmentToken := hp
  cases hd : env.base64Decode storedConfig.Fleet.EnrollmentTokenHash with
  | err e => simp [hd] at hv
  | ok hashBytes =>
    simp only [hd] at hv
    refine ⟨hashBytes, rfl, ?_⟩
    cases hc : env.ComparePBKDF2HashAndPassword hashBytes setupCfg.Fleet.EnrollmentToken with
    | none => simp [hc] at hv
    | some e =>
      simp only [hc] at hv
      by_cases hm : errorsIs e env.ErrMismatchedHashAndPassword = true
      · simp [stepEnrollmentTokenCheck, hp2, hd, hc, hm]
      · simp [hm] at hv

theorem stepReplaceTokenCheck_mismatch (fuel : Nat) (env : Env) (w : World)
    (setupCfg : setupConfig) (storedConfig : Configuration) (tr : List Event)
    (hp : BothPresent storedConfig.Fleet.ReplaceTokenHash setupCfg.Fleet.ReplaceToken)
    (hv : Verify env storedConfig.Fleet.ReplaceTokenHash setupCfg.Fleet.ReplaceToken
      = .mismatch) :
    ∃ hashBytes, env.base64Decode storedConfig.Fleet.ReplaceTokenHash = .ok hashBytes ∧
      stepReplaceTokenCheck fuel env w setupCfg storedConfig tr =
        some ⟨.ret true none, w,
          tr ++ [Event.comparePBKDF2 hashBytes setupCfg.Fleet.ReplaceToken]⟩ := by
  unfold Verify at hv
  have hp2 : 0 < len storedConfig.Fleet.ReplaceTokenHash ∧
      0 < len setupCfg.Fleet.ReplaceToken := hp
  cases hd : env.base64Decode storedConfig.Fleet.ReplaceTokenHash with
  | err e => simp [hd] at hv
  | ok hashBytes =>
    simp only [hd] at hv
    refine ⟨hashBytes, rfl, ?_⟩
    cases hc : env.ComparePBKDF2HashAndPassword hashBytes setupCfg.Fleet.ReplaceToken with
    | none => simp [hc] at hv
    | some e =>
      simp only [hc] at hv
      by_cases hm : errorsIs e env.ErrMismatchedHashAndPassword = true
      · simp [stepReplaceTokenCheck, hp2, hd, hc, hm]
      · simp [hm] at hv

theorem stepEnrollmentTokenCheck_failure (fuel : Nat) (env : Env) (w : World)
    (setupCfg : setupConfig) (storedConfig : Configuration) (tr : List Event) (e : GoError)
    (hp : BothPresent storedConfig.Fleet.EnrollmentTokenHash setupCfg.Fleet.EnrollmentToken)
    (hv : Verify env storedConfig.Fleet.EnrollmentTokenHash setupCfg.Fleet.EnrollmentToken
      = .failure e) :
    ∃ err tr1, stepEnrollmentTokenCheck fuel env w setupCfg storedConfig tr =
        some ⟨.ret false (some err), w, tr1⟩ ∧ errorsIs err e = true ∧
      networkCalls tr1 = networkCalls tr := by
  unfold Verify at hv
  have hp2 : 0 < len storedConfig.Fleet.EnrollmentTokenHash ∧
      0 < len setupCfg.Fleet.EnrollmentToken := hp
  cases hd : env.base64Decode storedConfig.Fleet.EnrollmentTokenHash with
  | err e1 =>
    simp only [hd, Verdict.failure.injEq] at hv
    subst hv
    exact ⟨.errorf "failed to decode enrollment token hash" e1, tr,
      by simp [stepEnrollmentTokenCheck, hp2, hd], errorsIs_errorf _ _, rfl⟩
  | ok hashBytes =>
    simp only [hd] at hv
    cases hc : env.ComparePBKDF2HashAndPassword hashBytes setupCfg.Fleet.EnrollmentToken with
    | none => simp [hc] at hv
    | some e1 =>
      simp only [hc] at hv
      by_cases hm : errorsIs e1 env.ErrMismatchedHashAndPassword = true
      · simp [hm] at hv
      · simp only [hm, Bool.false_eq_true, if_false, Verdict.failure.injEq] at hv
        subst hv
        refine ⟨_, _, by simp [stepEnrollmentTokenCheck, hp2, hd, hc, hm]; exact ⟨rfl, rfl⟩,
          errorsIs_errorf _ _, ?_⟩
        rw [networkCalls_append]
        rfl

theorem stepReplaceTokenCheck_failure (fuel : Nat) (env : Env) (w : World)
    (setupCfg : setupConfig) (storedConfig : Configuration) (tr : List Event) (e : GoError)
    (hp : BothPresent storedConfig.Fleet.ReplaceTokenHash setupCfg.Fleet.ReplaceToken)
    (hv : Verify env storedConfig.Fleet.ReplaceTokenHash setupCfg.Fleet.ReplaceToken
      = .failure e) :
    ∃ err tr1, stepReplaceTokenCheck fuel env w setupCfg storedConfig tr =
        some ⟨.ret false (some err), w, tr1⟩ ∧ errorsIs err e = true ∧
      networkCalls tr1 = networkCalls tr := by
  unfold Verify at hv
  have hp2 : 0 < len storedConfig.Fleet.ReplaceTokenHash ∧
      0 < len setupCfg.Fleet.ReplaceToken := hp
  cases hd : env.base64Decode storedConfig.Fleet.ReplaceTokenHash with
  | err e1 =>
    simp only [hd, Verdict.failure.injEq] at hv
    subst hv
    exact ⟨.errorf "failed to decode replace token hash" e1, tr,
      by simp [stepReplaceTokenCheck, hp2, hd], errorsIs_errorf _ _, rfl⟩
  | ok hashBytes =>
    simp only [hd] at hv
    cases hc : env.ComparePBKDF2HashAndPassword hashBytes setupCfg.Fleet.ReplaceToken with
    | none => simp [hc] at hv
    | some e1 =>
      simp only [hc] at hv
      by_cases hm : errorsIs e1 env.ErrMismatchedHashAndPassword = true
      · simp [hm] at hv
      · simp only [hm, Bool.false_eq_true, if_false, Verdict.failure.injEq] at hv
        subst hv
        refine ⟨_, _, by simp [stepReplaceTokenCheck, hp2, hd, hc, hm]; exact ⟨rfl, rfl⟩,
          errorsIs_errorf _ _, ?_⟩
        rw [networkCalls_append]
        rfl

/-- The steps after the agent ID check do not read the requested agent ID. -/
theorem stepFleetHosts_congr_ID (fuel : Nat) (env : Env) (w : World) (setupCfg : setupConfig)
    (storedConfig : Configuration) (tr : List Event) (id : String) :
    stepFleetHosts fuel env w { setupCfg with Fleet := { setupCfg.Fleet with ID := id } } storedConfig tr =
      stepFleetHosts fuel env w setupCfg storedConfig tr := by
  simp only [stepFleetHosts, stepEnrollmentTokenCheck, stepReplaceTokenCheck,
    stepValidateAPIToken, stepEnrollmentHashUpdate, stepReplaceHashUpdate]

/-! ## Facts about the sample inputs -/

theorem sample_loads : Loads sampleEnv sampleWorld sampleStored :=
  ⟨by decide, by decide, by decide, by decide⟩

theorem sample_reaches_of (setupCfg : setupConfig) (hE : setupCfg.Fleet.Enroll = true)
    (hF : setupCfg.Fleet.Force = false) (hID : setupCfg.Fleet.ID = "")
    (hURL : setupCfg.Fleet.URL = "https://fleet:8220") :
    ReachesTokenChecks sampleEnv sampleWorld setupCfg sampleStored :=
  ⟨hE, hF, sample_loads, Or.inl hID, by unfold URLCheckPasses; rw [hURL]; decide⟩

theorem sample_reaches : ReachesTokenChecks sampleEnv sampleWorld sampleSetup sampleStored :=
  sample_reaches_of sampleSetup (by decide) (by decide) (by decide) (by decide)

theorem sample_localChecksPass : LocalChecksPass sampleEnv sampleWorld sampleSetup sampleStored :=
  ⟨sample_reaches, Or.inr (by decide), Or.inr (by decide)⟩

theorem revoked_localChecksPass :
    LocalChecksPass revokedEnv sampleWorld sampleSetup sampleStored :=
  ⟨⟨by decide, by decide, ⟨by decide, by decide, by decide, by decide⟩, Or.inl (by decide),
    by unfold URLCheckPasses; decide⟩, Or.inr (by decide), Or.inr (by decide)⟩

theorem brokenHash_reaches (setupCfg : setupConfig) (hE : setupCfg.Fleet.Enroll = true)
    (hF : setupCfg.Fleet.Force = false) (hID : setupCfg.Fleet.ID = "")
    (hURL : setupCfg.Fleet.URL = "https://fleet:8220") :
    ReachesTokenChecks brokenHashEnv sampleWorld setupCfg brokenHashStored :=
  ⟨hE, hF, ⟨by decide, by decide, by decide, by decide⟩, Or.inl hID,
    by unfold URLCheckPasses; rw [hURL]; decide⟩

/-! ## Facts about the probe -/

theorem unreachable_localChecksPass :
    LocalChecksPass unreachableEnv sampleWorld sampleSetup sampleStored :=
  ⟨⟨by decide, by decide, ⟨by decide, by decide, by decide, by decide⟩, Or.inl (by decide),
    by unfold URLCheckPasses; decide⟩, Or.inr (by decide), Or.inr (by decide)⟩

/-- The retry loop of `ackFleet` finishes within three iterations, after `n` attempts for
some `n` between 1 and 3. -/
theorem ackFleet_total (k : Nat) (env : Env) (agentID : String) (tr : List Event) :
    ∃ err n, ackFleet (k + 3) env agentID tr = some (err, tr ++ ackTrace agentID n) ∧
      1 ≤ n ∧ n ≤ 3 := by
  rw [ackFleet_eq]
  cases env.ackExecute agentID 1 with
  | none => exact ⟨none, 1, rfl, by omega, by omega⟩
  | some e1 =>
    by_cases i1 : errorsIs e1 ErrInvalidAPIKey = true
    · exact ⟨some e1, 1, by simp [i1], by omega, by omega⟩
    · cases env.ackExecute agentID 2 with
      | none => exact ⟨none, 2, by simp [i1], by omega, by omega⟩
      | some e2 =>
        by_cases i2 : errorsIs e2 ErrInvalidAPIKey = true
        · exact ⟨some e2, 2, by simp [i1, i2], by omega, by omega⟩
        · cases env.ackExecute agentID 3 with
          | none => exact ⟨none, 3, by simp [i1, i2], by omega, by omega⟩
          | some e3 => exact ⟨some e3, 3, by simp [i1, i2], by omega, by omega⟩

/-- A probe that succeeds at attempt `n` makes `ackFleet` return no error after `n` attempts. -/
theorem ackFleet_of_probeSucceedsAt (k : Nat) (env : Env) (agentID : String) (tr : List Event)
    (n : Nat) (h : ProbeSucceedsAt env agentID n) :
    ackFleet (k + 3) env agentID tr = some (none, tr ++ ackTrace agentID n) := by
  rw [ackFleet_eq]
  obtain ⟨h1, h3, hn, hearlier⟩ := h
  have hcases : n = 1 ∨ n = 2 ∨ n = 3 := by omega
  rcases hcases with rfl | rfl | rfl
  · simp [hn]
  · obtain ⟨e1, he1, hn1⟩ := hearlier 1 (by omega) (by omega)
    simp [he1, hn1, hn]
  · obtain ⟨e1, he1, hn1⟩ := hearlier 1 (by omega) (by omega)
    obtain ⟨e2, he2, hn2⟩ := hearlier 2 (by omega) (by omega)
    simp [he1, hn1, he2, hn2, hn]

/-! ## Facts about the backfill -/

theorem stepReplaceHashUpdate_of_generated (env : Env) (w : World) (setupCfg : setupConfig)
    (storedConfig : Configuration) (saveConfig : Bool) (tr : List Event)
    (hgen : GenerationSucceeds env storedConfig.Fleet.ReplaceTokenHash
      setupCfg.Fleet.ReplaceToken) :
    stepReplaceHashUpdate env w setupCfg storedConfig saveConfig tr =
      stepSaveConfig env w
        { storedConfig with
          Fleet :=
            { storedConfig.Fleet with
              ReplaceTokenHash :=
                backfilledHash env storedConfig.Fleet.ReplaceTokenHash
                  setupCfg.Fleet.ReplaceToken } }
        (saveConfig ||
          needsBackfill storedConfig.Fleet.ReplaceTokenHash setupCfg.Fleet.ReplaceToken)
        (tr ++ generateTrace storedConfig.Fleet.ReplaceTokenHash
          setupCfg.Fleet.ReplaceToken) := by
  by_cases hb : needsBackfill storedConfig.Fleet.ReplaceTokenHash
      setupCfg.Fleet.ReplaceToken = true
  · obtain ⟨hashBytes, hg⟩ := hgen hb
    have hb2 := hb
    simp only [needsBackfill] at hb2
    simp [stepReplaceHashUpdate, backfilledHash, generateTrace, hb, hb2, hg]
  · have hb2 := hb
    simp only [needsBackfill] at hb2
    simp [stepReplaceHashUpdate, backfilledHash, generateTrace, hb, hb2]

theorem stepEnrollmentHashUpdate_of_generated (env : Env) (w : World) (setupCfg : setupConfig)
    (storedConfig : Configuration) (tr : List Event)
    (hgenE : GenerationSucceeds env storedConfig.Fleet.EnrollmentTokenHash
      setupCfg.Fleet.EnrollmentToken)
    (hgenR : GenerationSucceeds env storedConfig.Fleet.ReplaceTokenHash
      setupCfg.Fleet.ReplaceToken) :
    stepEnrollmentHashUpdate env w setupCfg storedConfig tr =
      stepSaveConfig env w (backfilledRecord env setupCfg storedConfig)
        (savesConfig setupCfg storedConfig)
        (tr ++ generateTrace storedConfig.Fleet.EnrollmentTokenHash
            setupCfg.Fleet.EnrollmentToken
          ++ generateTrace storedConfig.Fleet.ReplaceTokenHash
            setupCfg.Fleet.ReplaceToken) := by
  by_cases hb : needsBackfill storedConfig.Fleet.EnrollmentTokenHash
      setupCfg.Fleet.EnrollmentToken = true
  · obtain ⟨hashBytes, hg⟩ := hgenE hb
    have hb2 := hb
    simp only [needsBackfill] at hb2
    simp only [stepEnrollmentHashUpdate, hb2, if_true, hg]
    refine (stepReplaceHashUpdate_of_generated env w setupCfg
      { storedConfig with
        Fleet :=
          { storedConfig.Fleet with EnrollmentTokenHash := env.base64Encode hashBytes } }
      true (tr ++ [Event.generatePBKDF2 setupCfg.Fleet.EnrollmentToken]) hgenR).trans ?_
    simp [backfilledRecord, backfilledHash, generateTrace, savesConfig, hb, hg]
  · have hb2 := hb
    simp only [needsBackfill] at hb2
    simp only [stepEnrollmentHashUpdate, hb2, if_false]
    rw [stepReplaceHashUpdate_of_generated env w setupCfg storedConfig false tr hgenR]
    simp [backfilledRecord, backfilledHash, generateTrace, savesConfig, hb]

/-- The success path: when no local check decides, the probe is reached and succeeds at
attempt `n`, and hash generation does not fail, `shouldFleetEnroll` ends in the
write step for the backfilled record. -/
theorem shouldFleetEnroll_of_probeSucceedsAt (k : Nat) (env : Env) (w : World)
    (setupCfg : setupConfig) (storedConfig : Configuration) (info : AgentInfo) (n : Nat)
    (hlocal : LocalChecksPass env w setupCfg storedConfig)
    (hclient : ClientBuilt env storedConfig info)
    (hprobe : ProbeSucceedsAt env info.ID n)
    (hgenE : GenerationSucceeds env storedConfig.Fleet.EnrollmentTokenHash
      setupCfg.Fleet.EnrollmentToken)
    (hgenR : GenerationSucceeds env storedConfig.Fleet.ReplaceTokenHash
      setupCfg.Fleet.ReplaceToken) :
    shouldFleetEnroll (k + 3) env w setupCfg =
      some (stepSaveConfig env w (backfilledRecord env setupCfg storedConfig)
        (savesConfig setupCfg storedConfig)
        (backfillTrace env setupCfg storedConfig info.ID n)) := by
  rw [shouldFleetEnroll_of_localChecksPass _ env w setupCfg storedConfig hlocal,
    stepValidateAPIToken_of_clientBuilt _ env w setupCfg storedConfig info _ hclient,
    ackFleet_of_probeSucceedsAt k env info.ID _ n hprobe]
  simp only []
  rw [stepEnrollmentHashUpdate_of_generated env w setupCfg storedConfig _ hgenE hgenR]
  simp [backfillTrace, probeTrace]

/-! ## The probe and the trace it starts from -/

theorem backoffRetry_ackFleet_append (env : Env) (agentID : String) (fuel : Nat) :
    ∀ (retries : Nat) (tr : List Event),
      backoffRetry (ackFleetOperation env agentID) (fun s => (s.1, s.2 ++ [Event.sleep])) fuel
          (retries, tr) =
        (backoffRetry (ackFleetOperation env agentID) (fun s => (s.1, s.2 ++ [Event.sleep]))
          fuel (retries, [])).map (fun r => (r.1, (r.2.1, tr ++ r.2.2))) := by
  induction fuel with
  | zero => intro retries tr; rfl
  | succ fuel ih =>
    intro retries tr
    cases hx : env.ackExecute agentID (retries + 1) with
    | none => simp [backoffRetry, ackFleetOperation, hx]
    | some err =>
      by_cases hp : (errorsIs err ErrInvalidAPIKey || retries + 1 == maxRetries) = true
      · simp [backoffRetry, ackFleetOperation, hx, hp]
      · have hp2 : (errorsIs err ErrInvalidAPIKey || retries + 1 == maxRetries) = false := by
          simpa using hp
        simp only [backoffRetry, ackFleetOperation, hx, hp2]
        simp only [Bool.false_eq_true, if_false]
        rw [ih (retries + 1) (tr ++ [Event.ackExecute agentID] ++ [Event.sleep]),
          ih (retries + 1) ([] ++ [Event.ackExecute agentID] ++ [Event.sleep])]
        cases backoffRetry (ackFleetOperation env agentID)
            (fun s => (s.1, s.2 ++ [Event.sleep])) fuel (retries + 1, []) with
        | none => rfl
        | some r => simp

/-- The result of `ackFleet` does not depend on the trace it starts from, which it only extends. -/
theorem ackFleet_append (fuel : Nat) (env : Env) (agentID : String) (tr : List Event) :
    ackFleet fuel env agentID tr =
      (ackFleet fuel env agentID []).map (fun r => (r.1, tr ++ r.2)) := by
  unfold ackFleet
  rw [backoffRetry_ackFleet_append env agentID fuel 0 tr]
  cases backoffRetry (ackFleetOperation env agentID)
      (fun s => (s.1, s.2 ++ [Event.sleep])) fuel (0, []) with
  | none => rfl
  | some r => rfl

theorem ackFleet_some_iff (fuel : Nat) (env : Env) (agentID : String) (tr tr1 : List Event)
    (err : Option GoError) (h : ackFleet fuel env agentID tr = some (err, tr1)) :
    ∃ rest, ackFleet fuel env agentID [] = some (err, rest) ∧ tr1 = tr ++ rest := by
  rw [ackFleet_append] at h
  cases h0 : ackFleet fuel env agentID [] with
  | none => simp [h0] at h
  | some r =>
    simp only [h0, Option.map_some', Option.some.injEq, Prod.mk.injEq] at h
    exact ⟨r.2, by rw [← h.1], h.2.symm⟩

/-! ## Facts about the steps after the probe -/

/-- Once the probe has succeeded every return of `shouldFleetEnroll` carries `false`. -/
theorem stepEnrollmentHashUpdate_outcome (env : Env) (w : World) (setupCfg : setupConfig)
    (storedConfig : Configuration) (tr : List Event) :
    ∃ e, (stepEnrollmentHashUpdate env w setupCfg storedConfig tr).outcome = .ret false e := by
  simp only [stepEnrollmentHashUpdate, stepReplaceHashUpdate, stepSaveConfig]
  repeat' split
  all_goals exact ⟨_, rfl⟩

theorem stepSaveConfig_trace (env : Env) (w : World) (storedConfig : Configuration)
    (saveConfig : Bool) (tr : List Event) :
    ∃ rest, (stepSaveConfig env w storedConfig saveConfig tr).trace = tr ++ rest ∧
      networkCalls rest = 0 := by
  simp only [stepSaveConfig]
  repeat' split
  · exact ⟨[], (List.append_nil _).symm, rfl⟩
  · exact ⟨_, rfl, rfl⟩
  · exact ⟨_, rfl, rfl⟩
  · exact ⟨[], (List.append_nil _).symm, rfl⟩

theorem stepSaveConfig_world (env : Env) (w : World) (storedConfig : Configuration)
    (saveConfig : Bool) (tr : List Event) :
    (stepSaveConfig env w storedConfig saveConfig tr).world = w ∨
      ∃ data, env.yamlMarshal storedConfig = .ok data ∧
        (stepSaveConfig env w storedConfig saveConfig tr).world = { disk := data } := by
  simp only [stepSaveConfig]
  split
  · cases hm : env.yamlMarshal storedConfig with
    | err e => exact Or.inl rfl
    | ok data =>
      cases hs : env.SafelyStoreAgentInfo data with
      | some e => simp [hs]
      | none => exact Or.inr ⟨data, rfl, by simp [hs]⟩
  · exact Or.inl rfl

theorem stepEnrollmentHashUpdate_trace (env : Env) (w : World) (setupCfg : setupConfig)
    (storedConfig : Configuration) (tr : List Event) :
    ∃ rest, (stepEnrollmentHashUpdate env w setupCfg storedConfig tr).trace = tr ++ rest := by
  simp only [stepEnrollmentHashUpdate, stepReplaceHashUpdate, stepSaveConfig]
  repeat' split
  all_goals first
    | exact ⟨[], (List.append_nil _).symm⟩
    | exact ⟨_, rfl⟩
    | exact ⟨_, List.append_assoc _ _ _⟩
    | exact ⟨_, (List.append_assoc _ _ _).trans (List.append_assoc _ _ _)⟩

theorem not_generationSucceeds (env : Env) (storedHash token : String)
    (h : ¬ GenerationSucceeds env storedHash token) :
    needsBackfill storedHash token = true ∧
      ∃ e, env.GeneratePBKDF2FromPassword token = .err e := by
  unfold GenerationSucceeds at h
  push_neg at h
  obtain ⟨hn, hg⟩ := h
  refine ⟨hn, ?_⟩
  cases hx : env.GeneratePBKDF2FromPassword token with
  | ok b => exact absurd hx (hg b)
  | err e => exact ⟨e, rfl⟩

/-- The store content changes only when hash generation succeeded and the backfilled
record was marshalled and written. -/
theorem stepEnrollmentHashUpdate_world (env : Env) (w : World) (setupCfg : setupConfig)
    (storedConfig : Configuration) (tr : List Event) :
    (stepEnrollmentHashUpdate env w setupCfg storedConfig tr).world = w ∨
      ∃ data, env.yamlMarshal (backfilledRecord env setupCfg storedConfig) = .ok data ∧
        (stepEnrollmentHashUpdate env w setupCfg storedConfig tr).world = { disk := data } := by
  by_cases hgenE : GenerationSucceeds env storedConfig.Fleet.EnrollmentTokenHash
      setupCfg.Fleet.EnrollmentToken
  · by_cases hgenR : GenerationSucceeds env storedConfig.Fleet.ReplaceTokenHash
        setupCfg.Fleet.ReplaceToken
    · rw [stepEnrollmentHashUpdate_of_generated env w setupCfg storedConfig tr hgenE hgenR]
      exact stepSaveConfig_world env w _ _ _
    · obtain ⟨hn, e, hg⟩ := not_generationSucceeds env _ _ hgenR
      have hn2 := hn
      simp only [needsBackfill] at hn2
      left
      simp only [stepEnrollmentHashUpdate, stepReplaceHashUpdate]
      repeat' split
      all_goals first
        | rfl
        | simp_all
  · obtain ⟨hn, e, hg⟩ := not_generationSucceeds env _ _ hgenE
    have hn2 := hn
    simp only [needsBackfill] at hn2
    left
    simp [stepEnrollmentHashUpdate, hn2, hg]

/-! ## The decision tree before the probe -/

theorem not_tokenCheckPasses (env : Env) (storedHash token : String)
    (h : ¬ TokenCheckPasses env storedHash token) :
    BothPresent storedHash token ∧
      (Verify env storedHash token = .mismatch ∨
        ∃ e, Verify env storedHash token = .failure e) := by
  unfold TokenCheckPasses at h
  push_neg at h
  refine ⟨h.1, ?_⟩
  cases hv : Verify env storedHash token with
  | matched => exact absurd hv h.2
  | mismatch => exact Or.inl rfl
  | failure e => exact Or.inr ⟨e, rfl⟩

/-- Whenever one of the local checks decides or fails, `shouldFleetEnroll` returns (whatever
the fuel of the retry loop), leaves the store as it is and makes no network call. -/
theorem shouldFleetEnroll_decided_locally (fuel : Nat) (env : Env) (w : World)
    (setupCfg : setupConfig)
    (h : ¬ ∃ storedConfig, LocalChecksPass env w setupCfg storedConfig) :
    ∃ run, shouldFleetEnroll fuel env w setupCfg = some run ∧ run.world = w ∧
      networkCalls run.trace = 0 := by
  by_cases hE : setupCfg.Fleet.Enroll = true
  swap
  · exact ⟨⟨.ret false none, w, []⟩, by simp [shouldFleetEnroll, hE], rfl, rfl⟩
  by_cases hF : setupCfg.Fleet.Force = true
  · exact ⟨⟨.ret true none, w, []⟩, by simp [shouldFleetEnroll, hE, hF], rfl, rfl⟩
  have hF2 : setupCfg.Fleet.Force = false := by simpa using hF
  by_cases hS : osIsNotExist env (env.statAgentConfigFile env.AgentConfigFile) = true
  · exact ⟨⟨.ret true none, w, [Event.statAgentConfigFile env.AgentConfigFile]⟩,
      by simp [shouldFleetEnroll, hE, hF2, hS], rfl, rfl⟩
  have hS2 : osIsNotExist env (env.statAgentConfigFile env.AgentConfigFile) = false := by
    simpa using hS
  cases hopen : env.newEncryptedDiskStore env.AgentConfigFile with
  | some e1 =>
    exact ⟨⟨.ret false (some (.errorf "failed to instantiate encrypted disk store" e1)), w,
      [Event.statAgentConfigFile env.AgentConfigFile,
        Event.newEncryptedDiskStore env.AgentConfigFile]⟩,
      by simp [shouldFleetEnroll, hE, hF2, hS2, hopen], rfl, rfl⟩
  | none =>
  cases hload : env.storeLoad with
  | some e2 =>
    exact ⟨⟨.ret false (some (.errorf "failed to load from disk store" e2)), w, loadTrace env⟩,
      by simp [shouldFleetEnroll, hE, hF2, hS2, hopen, hload, loadTrace], rfl, rfl⟩
  | none =>
  cases hdec : decodeStored env w with
  | err e3 =>
    have hdec2 := hdec
    unfold decodeStored at hdec2
    cases hraw : env.NewConfigFrom w.disk with
    | err e4 =>
      exact ⟨⟨.ret false (some (.errorf "failed to read from disk store" e4)), w,
        loadTrace env⟩,
        by simp [shouldFleetEnroll, hE, hF2, hS2, hopen, hload, hraw, loadTrace], rfl, rfl⟩
    | ok cfg =>
      simp only [hraw] at hdec2
      exact ⟨⟨.ret false (some (.errorf "failed to read from disk store" e3)), w,
        loadTrace env⟩,
        by simp [shouldFleetEnroll, hE, hF2, hS2, hopen, hload, hraw, hdec2, loadTrace],
        rfl, rfl⟩
  | ok storedConfig =>
  have hL : Loads env w storedConfig := ⟨hS2, hopen, hload, hdec⟩
  by_cases hID : IDCheckPasses setupCfg storedConfig
  swap
  · refine ⟨⟨.ret true none, w, loadTrace env⟩, ?_, rfl, rfl⟩
    rw [shouldFleetEnroll_of_loads fuel env w setupCfg storedConfig hE hF2 hL]
    unfold IDCheckPasses at hID
    push_neg at hID
    cases hinfo : storedConfig.Fleet.Info with
    | none => simp [hID.1]
    | some info =>
      have hne : info.ID ≠ setupCfg.Fleet.ID := by
        intro heq
        apply hID.2
        rw [hinfo, ← heq]
      simp [hID.1, hne]
  rw [shouldFleetEnroll_of_idCheckPasses fuel env w setupCfg storedConfig hE hF2 hL hID]
  by_cases hURL : URLCheckPasses env setupCfg storedConfig
  swap
  · refine ⟨⟨.ret true none, w, loadTrace env⟩, ?_, rfl, rfl⟩
    unfold URLCheckPasses at hURL
    simp [stepFleetHosts, hURL]
  have hR : ReachesTokenChecks env w setupCfg storedConfig := ⟨hE, hF2, hL, hID, hURL⟩
  rw [← shouldFleetEnroll_of_idCheckPasses fuel env w setupCfg storedConfig hE hF2 hL hID,
    shouldFleetEnroll_of_reaches fuel env w setupCfg storedConfig hR]
  by_cases hTE : TokenCheckPasses env storedConfig.Fleet.EnrollmentTokenHash
      setupCfg.Fleet.EnrollmentToken
  swap
  · obtain ⟨hp, hv | ⟨e, hv⟩⟩ := not_tokenCheckPasses env _ _ hTE
    · obtain ⟨hashBytes, _, hr⟩ :=
        stepEnrollmentTokenCheck_mismatch fuel env w setupCfg storedConfig (loadTrace env) hp hv
      exact ⟨_, hr, rfl, rfl⟩
    · obtain ⟨err, tr1, hr, _, hn⟩ :=
        stepEnrollmentTokenCheck_failure fuel env w setupCfg storedConfig (loadTrace env) e hp hv
      exact ⟨_, hr, rfl, by rw [hn]; rfl⟩
  rw [stepEnrollmentTokenCheck_of_passes fuel env w setupCfg storedConfig _ hTE]
  by_cases hTR : TokenCheckPasses env storedConfig.Fleet.ReplaceTokenHash
      setupCfg.Fleet.ReplaceToken
  swap
  · have hzero : networkCalls (loadTrace env ++
        compareTrace env storedConfig.Fleet.EnrollmentTokenHash
          setupCfg.Fleet.EnrollmentToken) = 0 := by
      rw [networkCalls_append, networkCalls_compareTrace, networkCalls_loadTrace]
    obtain ⟨hp, hv | ⟨e, hv⟩⟩ := not_tokenCheckPasses env _ _ hTR
    · obtain ⟨hashBytes, _, hr⟩ :=
        stepReplaceTokenCheck_mismatch fuel env w setupCfg storedConfig
          (loadTrace env ++ compareTrace env storedConfig.Fleet.EnrollmentTokenHash
            setupCfg.Fleet.EnrollmentToken) hp hv
      refine ⟨_, hr, rfl, ?_⟩
      show networkCalls (_ ++ _) = 0
      rw [networkCalls_append, hzero]
      rfl
    · obtain ⟨err, tr1, hr, _, hn⟩ :=
        stepReplaceTokenCheck_failure fuel env w setupCfg storedConfig
          (loadTrace env ++ compareTrace env storedConfig.Fleet.EnrollmentTokenHash
            setupCfg.Fleet.EnrollmentToken) e hp hv
      exact ⟨_, hr, rfl, by rw [hn]; exact hzero⟩
  exact absurd ⟨storedConfig, ⟨hR, hTE, hTR⟩⟩ h

/-! ## Facts about the probe step -/

theorem stepValidateAPIToken_of_ack_ok (fuel : Nat) (env : Env) (w : World)
    (setupCfg : setupConfig) (storedConfig : Configuration) (info : AgentInfo)
    (tr rest : List Event) (hclient : ClientBuilt env storedConfig info)
    (hack : ackFleet fuel env info.ID [] = some (none, rest)) :
    stepValidateAPIToken fuel env w setupCfg storedConfig tr =
      some (stepEnrollmentHashUpdate env w setupCfg storedConfig
        (tr ++ [Event.newFleetClient storedConfig.Fleet.AccessAPIKey
          storedConfig.Fleet.Client] ++ rest)) := by
  rw [stepValidateAPIToken_of_clientBuilt fuel env w setupCfg storedConfig info tr hclient,
    ackFleet_append, hack]
  rfl

/-- A run of the probe step that changes the store content had its client built and its
probe answered without error, and wrote the marshalled backfilled record. -/
theorem stepValidateAPIToken_world (fuel : Nat) (env : Env) (w : World)
    (setupCfg : setupConfig) (storedConfig : Configuration) (tr : List Event) (run : Run)
    (h : stepValidateAPIToken fuel env w setupCfg storedConfig tr = some run) :
    run.world = w ∨
      ∃ info rest data, ClientBuilt env storedConfig info ∧
        ackFleet fuel env info.ID [] = some (none, rest) ∧
        env.yamlMarshal (backfilledRecord env setupCfg storedConfig) = .ok data ∧
        run.world = { disk := data } ∧ ∃ e, run.outcome = .ret false e := by
  cases hlog : env.loggerNew with
  | some e =>
    simp only [stepValidateAPIToken, hlog, Option.some.injEq] at h
    left; rw [← h]
  | none =>
  cases hcl : env.newFleetClient storedConfig.Fleet.AccessAPIKey storedConfig.Fleet.Client with
  | some e =>
    simp only [stepValidateAPIToken, hlog, hcl, Option.some.injEq] at h
    left; rw [← h]
  | none =>
  cases hinfo : storedConfig.Fleet.Info with
  | none =>
    simp only [stepValidateAPIToken, hlog, hcl, hinfo, Option.some.injEq] at h
    left; rw [← h]
  | some info =>
  have hclient : ClientBuilt env storedConfig info := ⟨hlog, hcl, hinfo⟩
  rw [stepValidateAPIToken_of_clientBuilt fuel env w setupCfg storedConfig info tr hclient] at h
  cases hack : ackFleet fuel env info.ID
      (tr ++ [Event.newFleetClient storedConfig.Fleet.AccessAPIKey
        storedConfig.Fleet.Client]) with
  | none => simp [hack] at h
  | some r =>
    obtain ⟨err, tr1⟩ := r
    obtain ⟨rest, hack0, _⟩ := ackFleet_some_iff fuel env info.ID _ tr1 err hack
    cases err with
    | some e =>
      simp only [hack] at h
      split at h
      · simp only [Option.some.injEq] at h
        left; rw [← h]
      · simp only [Option.some.injEq] at h
        left; rw [← h]
    | none =>
      simp only [hack, Option.some.injEq] at h
      subst h
      rcases stepEnrollmentHashUpdate_world env w setupCfg storedConfig tr1 with hw | ⟨data, hm, hw⟩
      · exact Or.inl hw
      · exact Or.inr ⟨info, rest, data, hclient, hack0, hm, hw,
          stepEnrollmentHashUpdate_outcome env w setupCfg storedConfig tr1⟩

/-- The probe step only extends the trace it is given. -/
theorem stepValidateAPIToken_trace (fuel : Nat) (env : Env) (w : World)
    (setupCfg : setupConfig) (storedConfig : Configuration) (tr : List Event) (run : Run)
    (h : stepValidateAPIToken fuel env w setupCfg storedConfig tr = some run) :
    ∃ rest, run.trace = tr ++ rest := by
  cases hlog : env.loggerNew with
  | some e =>
    simp only [stepValidateAPIToken, hlog, Option.some.injEq] at h
    exact ⟨[], by rw [← h]; simp⟩
  | none =>
  cases hcl : env.newFleetClient storedConfig.Fleet.AccessAPIKey storedConfig.Fleet.Client with
  | some e =>
    simp only [stepValidateAPIToken, hlog, hcl, Option.some.injEq] at h
    exact ⟨_, by rw [← h]⟩
  | none =>
  cases hinfo : storedConfig.Fleet.Info with
  | none =>
    simp only [stepValidateAPIToken, hlog, hcl, hinfo, Option.some.injEq] at h
    exact ⟨_, by rw [← h]⟩
  | some info =>
  have hclient : ClientBuilt env storedConfig info := ⟨hlog, hcl, hinfo⟩
  rw [stepValidateAPIToken_of_clientBuilt fuel env w setupCfg storedConfig info tr hclient] at h
  cases hack : ackFleet fuel env info.ID
      (tr ++ [Event.newFleetClient storedConfig.Fleet.AccessAPIKey
        storedConfig.Fleet.Client]) with
  | none => simp [hack] at h
  | some r =>
    obtain ⟨err, tr1⟩ := r
    obtain ⟨rest, _, htr1⟩ := ackFleet_some_iff fuel env info.ID _ tr1 err hack
    cases err with
    | some e =>
      simp only [hack] at h
      split at h
      · simp only [Option.some.injEq] at h
        exact ⟨_, by rw [← h]; simp only []; rw [htr1, List.append_assoc]⟩
      · simp only [Option.some.injEq] at h
        exact ⟨_, by rw [← h]; simp only []; rw [htr1, List.append_assoc]⟩
    | none =>
      simp only [hack, Option.some.injEq] at h
      subst h
      obtain ⟨rest2, hr2⟩ := stepEnrollmentHashUpdate_trace env w setupCfg storedConfig tr1
      exact ⟨_, by rw [hr2, htr1, List.append_assoc, List.append_assoc]⟩

/-! ## Facts about the backfilled record -/

theorem tokenCheckPasses_backfilledHash (env : Env) (storedHash token : String)
    (h : TokenCheckPasses env storedHash token) (hfresh : FreshHashVerifies env token) :
    TokenCheckPasses env (backfilledHash env storedHash token) token := by
  unfold backfilledHash
  split
  · cases hg : env.GeneratePBKDF2FromPassword token with
    | ok hashBytes => exact Or.inr (hfresh hashBytes hg)
    | err e => exact h
  · exact h

theorem needsBackfill_backfilledHash (env : Env) (storedHash token : String)
    (hgen : GenerationSucceeds env storedHash token) (hne : FreshHashNonEmpty env token) :
    needsBackfill (backfilledHash env storedHash token) token = false := by
  by_cases hb : needsBackfill storedHash token = true
  · obtain ⟨hashBytes, hg⟩ := hgen hb
    have hpos := hne hashBytes hg
    have hx : backfilledHash env storedHash token = env.base64Encode hashBytes := by
      simp only [backfilledHash, hb, if_true, hg]
    have : len (env.base64Encode hashBytes) ≠ 0 := by omega
    rw [hx]
    simp [needsBackfill, this]
  · simp only [backfilledHash, hb]
    simpa using hb

theorem localChecksPass_backfilled (env : Env) (w : World) (setupCfg : setupConfig)
    (storedConfig : Configuration) (data : String)
    (h : LocalChecksPass env w setupCfg storedConfig)
    (hfaithful : decodeStored env { disk := data } =
      .ok (backfilledRecord env setupCfg storedConfig))
    (hfreshE : FreshHashVerifies env setupCfg.Fleet.EnrollmentToken)
    (hfreshR : FreshHashVerifies env setupCfg.Fleet.ReplaceToken) :
    LocalChecksPass env { disk := data } setupCfg (backfilledRecord env setupCfg storedConfig) :=
  ⟨⟨h.reaches.enroll, h.reaches.force,
      ⟨h.reaches.loads.present, h.reaches.loads.opened, h.reaches.loads.loaded, hfaithful⟩,
      h.reaches.id, h.reaches.url⟩,
    tokenCheckPasses_backfilledHash env _ _ h.enrollmentToken hfreshE,
    tokenCheckPasses_backfilledHash env _ _ h.replaceToken hfreshR⟩

theorem clientBuilt_backfilled (env : Env) (setupCfg : setupConfig)
    (storedConfig : Configuration) (info : AgentInfo) (h : ClientBuilt env storedConfig info) :
    ClientBuilt env (backfilledRecord env setupCfg storedConfig) info :=
  ⟨h.logger, h.client, h.identity⟩

theorem savesConfig_backfilled (env : Env) (setupCfg : setupConfig)
    (storedConfig : Configuration)
    (hgenE : GenerationSucceeds env storedConfig.Fleet.EnrollmentTokenHash
      setupCfg.Fleet.EnrollmentToken)
    (hgenR : GenerationSucceeds env storedConfig.Fleet.ReplaceTokenHash
      setupCfg.Fleet.ReplaceToken)
    (hneE : FreshHashNonEmpty env setupCfg.Fleet.EnrollmentToken)
    (hneR : FreshHashNonEmpty env setupCfg.Fleet.ReplaceToken) :
    savesConfig setupCfg (backfilledRecord env setupCfg storedConfig) = false := by
  have h1 := needsBackfill_backfilledHash env _ _ hgenE hneE
  have h2 := needsBackfill_backfilledHash env _ _ hgenR hneR
  simp only [savesConfig, backfilledRecord, h1, h2]
  rfl

theorem saveCalls_append (a b : List Event) : saveCalls (a ++ b) = saveCalls a + saveCalls b := by
  simp [saveCalls]

theorem saveCalls_backfillTrace (env : Env) (setupCfg : setupConfig)
    (storedConfig : Configuration) (agentID : String) (n : Nat) :
    saveCalls (backfillTrace env setupCfg storedConfig agentID n) = 0 := by
  have hack : ∀ m, saveCalls (ackTrace agentID m) = 0 := by
    intro m
    induction m using Nat.strongRecOn with
    | _ m ih =>
      match m with
      | 0 => rfl
      | 1 => rfl
      | j + 2 =>
        have h := ih (j + 1) (by omega)
        simp only [saveCalls] at h
        simp [ackTrace, saveCalls, List.countP_cons, Event.isSave, h]
  have hcmp : ∀ a b, saveCalls (compareTrace env a b) = 0 := by
    intro a b
    unfold compareTrace
    split
    · split <;> rfl
    · rfl
  have hgen : ∀ a b, saveCalls (generateTrace a b) = 0 := by
    intro a b
    unfold generateTrace
    split <;> rfl
  have hload : saveCalls (loadTrace env) = 0 := rfl
  have hcl : saveCalls [Event.newFleetClient storedConfig.Fleet.AccessAPIKey
      storedConfig.Fleet.Client] = 0 := rfl
  simp only [backfillTrace, probeTrace, localTrace, saveCalls_append, hack, hcmp, hgen, hload,
    hcl]

/-! ## Facts about the upgraded sample agent -/

theorem readOnly_localChecksPass :
    LocalChecksPass readOnlyEnv legacyWorld sampleSetup legacyStored :=
  ⟨⟨by decide, by decide, ⟨by decide, by decide, by decide, by decide⟩, Or.inl (by decide),
    by unfold URLCheckPasses; decide⟩,
    Or.inl (by unfold BothPresent; decide), Or.inl (by unfold BothPresent; decide)⟩

theorem probeSucceedsAt_one (env : Env) (agentID : String)
    (h : env.ackExecute agentID 1 = none) : ProbeSucceedsAt env agentID 1 :=
  ⟨by omega, by omega, h, fun j h1 h2 => by omega⟩

theorem generationSucceeds_of_ok (env : Env) (storedHash token : String) (hashBytes : Bytes)
    (h : env.GeneratePBKDF2FromPassword token = .ok hashBytes) :
    GenerationSucceeds env storedHash token :=
  fun _ => ⟨hashBytes, h⟩

theorem generationSucceeds_of_not_needed (env : Env) (storedHash token : String)
    (h : needsBackfill storedHash token = false) : GenerationSucceeds env storedHash token := by
  intro hn
  rw [h] at hn
  exact absurd hn (by simp)

/-! ## The call after a backfill -/

theorem legacy_generate_enrollment (hashBytes : Bytes)
    (h : legacyEnv.GeneratePBKDF2FromPassword "enroll-token" = .ok hashBytes) :
    hashBytes = [1] := by
  have h2 : legacyEnv.GeneratePBKDF2FromPassword "enroll-token" = .ok [1] := by decide
  rw [h2] at h
  exact (Result.ok.inj h).symm

theorem legacy_generate_replace (hashBytes : Bytes)
    (h : legacyEnv.GeneratePBKDF2FromPassword "replace-token" = .ok hashBytes) :
    hashBytes = [2] := by
  have h2 : legacyEnv.GeneratePBKDF2FromPassword "replace-token" = .ok [2] := by decide
  rw [h2] at h
  exact (Result.ok.inj h).symm

theorem legacy_freshHashesLawful : FreshHashesLawful legacyEnv sampleSetup :=
  ⟨fun hashBytes h => by
      have hb := legacy_generate_enrollment hashBytes h
      subst hb
      decide,
    fun hashBytes h => by
      have hb := legacy_generate_replace hashBytes h
      subst hb
      decide,
    fun hashBytes h => by
      have hb := legacy_generate_enrollment hashBytes h
      subst hb
      decide,
    fun hashBytes h => by
      have hb := legacy_generate_replace hashBytes h
      subst hb
      decide⟩

theorem legacy_storeFaithful : StoreFaithful legacyEnv legacyWorld sampleSetup := by
  intro storedConfig data h1 h2
  have hd : decodeStored legacyEnv legacyWorld = .ok legacyStored := by decide
  rw [hd] at h1
  have hs : legacyStored = storedConfig := Result.ok.inj h1
  subst hs
  have hb : backfilledRecord legacyEnv sampleSetup legacyStored = sampleStored := by decide
  rw [hb] at h2 ⊢
  have hm : legacyEnv.yamlMarshal sampleStored = .ok "fleet: agent-1" := by decide
  rw [hm] at h2
  have hdata : "fleet: agent-1" = data := Result.ok.inj h2
  subst hdata
  decide

theorem header_set_same (h : Header) (key value : String) :
    (h.Set key value) key = some [value] := by
  simp [Header.Set]

theorem header_set_other (h : Header) (key value k : String) (hk : k ≠ key) :
    (h.Set key value) k = h k := by
  simp [Header.Set, hk]

theorem withAuthorization_version (apiKey version : String) (req : Request) :
    withAuthorization apiKey
        { req with Header := req.Header.Set elasticApiVersionHeaderKey version } =
      withBothHeaders apiKey version req := by
  have hh : ((req.Header.Set elasticApiVersionHeaderKey version).Set "Authorization"
        ("ApiKey " ++ apiKey)) =
      ((req.Header.Set "Authorization" ("ApiKey " ++ apiKey)).Set "Elastic-Api-Version"
        version) := by
    funext k
    by_cases h1 : k = "Authorization"
    · subst h1
      simp [Header.Set, elasticApiVersionHeaderKey]
    · by_cases h2 : k = "Elastic-Api-Version"
      · subst h2
        simp [Header.Set, elasticApiVersionHeaderKey]
      · simp [Header.Set, elasticApiVersionHeaderKey, h1, h2]
  simp only [withAuthorization, withBothHeaders, hh]

theorem FleetAuthRoundTripper_eq (r : FleetAuthRoundTripper) (req : Request) :
    r.RoundTrip req =
      match r.rt (withAuthorization r.apiKey req) with
      | .nilPointerDereference events => .nilPointerDereference events
      | .ret _ (some err) events => .ret none (some err) events
      | .ret none none events => .nilPointerDereference events
      | .ret (some resp) none events =>
        if resp.StatusCode == StatusUnauthorized then
          .ret none (some ErrInvalidAPIKey) (events ++ [.bodyClose resp])
        else
          .ret (some resp) none events := rfl

theorem authOverVersion_eq (inner : RoundTripper) (apiKey version : String) (req : Request) :
    authOverVersion inner apiKey version req =
      FleetAuthRoundTripper.RoundTrip { rt := inner, apiKey := apiKey }
        { req with Header := req.Header.Set elasticApiVersionHeaderKey version } := by
  have hreq : ({ withAuthorization apiKey req with
        Header := (withAuthorization apiKey req).Header.Set elasticApiVersionHeaderKey
          version } : Request) =
      withAuthorization apiKey
        { req with Header := req.Header.Set elasticApiVersionHeaderKey version } := by
    rw [withAuthorization_version]
    rfl
  rw [authOverVersion, FleetAuthRoundTripper_eq, FleetAuthRoundTripper_eq]
  simp only [NewElasticApiVersionRoundTripper, ElasticApiVersionRoundTripper.RoundTrip]
  rw [hreq]

theorem FleetAuthRoundTripper_wire_events (server : Request → Option Response × Option GoError)
    (apiKey : String) (req : Request) :
    ∃ closed,
      (FleetAuthRoundTripper.RoundTrip { rt := wire server, apiKey := apiKey } req).events =
        .roundTrip (withAuthorization apiKey req) :: closed := by
  rw [FleetAuthRoundTripper_eq]
  simp only [wire]
  cases h1 : (server (withAuthorization apiKey req)).1 with
  | none =>
    cases h2 : (server (withAuthorization apiKey req)).2 with
    | none => exact ⟨[], rfl⟩
    | some err => exact ⟨[], rfl⟩
  | some resp =>
    cases h2 : (server (withAuthorization apiKey req)).2 with
    | none =>
      simp only []
      split
      · exact ⟨[.bodyClose resp], rfl⟩
      · exact ⟨[], rfl⟩
    | some err => exact ⟨[], rfl⟩

/-! ## Facts about the container command -/

/-- Only the `Fleet` section of the setup configuration is read by `shouldFleetEnroll`. -/
theorem shouldFleetEnroll_congr_Fleet (fuel : Nat) (env : Env) (w : World)
    (cfg1 cfg2 : setupConfig) (h : cfg1.Fleet = cfg2.Fleet) :
    shouldFleetEnroll fuel env w cfg1 = shouldFleetEnroll fuel env w cfg2 := by
  simp only [shouldFleetEnroll, stepFleetHosts, stepEnrollmentTokenCheck, stepReplaceTokenCheck,
    stepValidateAPIToken, stepEnrollmentHashUpdate, stepReplaceHashUpdate, h]

theorem noTokenFetched_nil : NoTokenFetched [] :=
  ⟨rfl, fun _ _ h => absurd h (List.not_mem_nil _)⟩

theorem noTokenFetched_append (tr : List ContainerEvent) (ev : ContainerEvent)
    (h : NoTokenFetched tr) (hfetch : ev.isTokenFetch = false)
    (hbuild : ∀ token policyID, ev = ContainerEvent.buildEnrollArgs token policyID → token = "") :
    NoTokenFetched (tr ++ [ev]) := by
  constructor
  · have h0 := h.1
    simp only [tokenFetchCalls] at h0 ⊢
    simp [List.countP_append, h0, List.countP_cons, hfetch]
  · intro token policyID hmem
    rcases List.mem_append.mp hmem with h1 | h1
    · exact h.2 token policyID h1
    · exact hbuild token policyID (List.mem_singleton.mp h1).symm

theorem ensureServiceToken_preserves (cenv : ContainerEnv) (cfg : setupConfig) :
    (ensureServiceToken cenv cfg).1.Fleet = cfg.Fleet ∧
      (ensureServiceToken cenv cfg).1.FleetServer.Enable = cfg.FleetServer.Enable ∧
      (ensureServiceToken cenv cfg).1.FleetServer.PolicyID = cfg.FleetServer.PolicyID ∧
      NoTokenFetched (ensureServiceToken cenv cfg).2.2 := by
  unfold ensureServiceToken
  repeat' split
  all_goals
    refine ⟨rfl, rfl, rfl, ?_⟩
    try exact noTokenFetched_nil
  all_goals
    constructor
    · rfl
    · intro token policyID hmem
      simp at hmem

theorem stepRun_noTokenFetched (cenv : ContainerEnv) (w : World) (tr : List ContainerEvent)
    (h : NoTokenFetched tr) : NoTokenFetched (stepRun cenv w tr).trace :=
  noTokenFetched_append tr _ h rfl (fun _ _ he => by simp at he)

theorem stepEnrollCommand_noTokenFetched (cenv : ContainerEnv) (w : World) (cfg : setupConfig)
    (tr : List ContainerEvent) (h : NoTokenFetched tr) :
    NoTokenFetched (stepEnrollCommand cenv w cfg none "" tr).trace := by
  have hlog : NoTokenFetched
      (if cfg.FleetServer.PolicyID != "" then
        tr ++ [ContainerEvent.logInfo ["Policy selected for enrollment: ",
          cfg.FleetServer.PolicyID]]
      else tr) := by
    split
    · exact noTokenFetched_append tr _ h rfl (fun _ _ he => by simp at he)
    · exact h
  have hbuild := noTokenFetched_append _
    (ContainerEvent.buildEnrollArgs "" cfg.FleetServer.PolicyID) hlog rfl
    (fun token policyID he => by
      simp only [ContainerEvent.buildEnrollArgs.injEq] at he
      exact he.1.symm)
  simp only [stepEnrollCommand]
  cases hexe : cenv.Executable with
  | err e => exact hlog
  | ok executable =>
    simp only []
    cases hargs : cenv.buildEnrollArgs cfg "" cfg.FleetServer.PolicyID with
    | err e => exact hbuild
    | ok cmdArgs =>
      have hstart := noTokenFetched_append _ (ContainerEvent.enrollStart executable cmdArgs)
        hbuild rfl (fun _ _ he => by simp at he)
      simp only []
      cases hs : cenv.enrollStart executable cmdArgs with
      | some e => exact hstart
      | none =>
        have hwait := noTokenFetched_append _ ContainerEvent.enrollWait hstart rfl
          (fun _ _ he => by simp at he)
        simp only []
        cases hw : cenv.enrollWait with
        | some e => exact hwait
        | none => exact stepRun_noTokenFetched cenv w _ hwait

/-- With Fleet Server bootstrapping enabled and no enrollment token configured, no run of
`runContainerCmd` looks the token up in Kibana, whatever the functions it calls
return: the enroll arguments are built from the empty token. -/
theorem runContainerCmd_fleet_server_never_fetches (fuel : Nat) (cenv : ContainerEnv)
    (env : Env) (w : World) (cfg : setupConfig) (run : ContainerRun)
    (hserver : cfg.FleetServer.Enable = true) (htoken : cfg.Fleet.EnrollmentToken = "")
    (hrun : runContainerCmd fuel cenv env w cfg = some run) :
    NoTokenFetched run.trace := by
  obtain ⟨hfleet, henable, _, hens⟩ := ensureServiceToken_preserves cenv cfg
  simp only [runContainerCmd, hserver, if_true] at hrun
  cases herr : (ensureServiceToken cenv cfg).2.1 with
  | some e =>
    simp only [herr, Option.some.injEq] at hrun
    rw [← hrun]
    exact hens
  | none =>
    simp only [herr] at hrun
    cases hshould : shouldFleetEnroll fuel env w (ensureServiceToken cenv cfg).1 with
    | none => simp [hshould] at hrun
    | some r =>
      obtain ⟨outcome, w1, calls⟩ := r
      have hcall := noTokenFetched_append _ (ContainerEvent.shouldFleetEnroll calls) hens rfl
        (fun _ _ he => by simp at he)
      cases outcome with
      | nilPointerDereference =>
        simp only [hshould, Option.some.injEq] at hrun
        rw [← hrun]
        exact hcall
      | ret shouldEnroll err =>
        cases err with
        | some e =>
          simp only [hshould, Option.some.injEq] at hrun
          rw [← hrun]
          exact hcall
        | none =>
          simp only [hshould] at hrun
          cases shouldEnroll with
          | false =>
            simp only [Bool.false_eq_true, if_false, Option.some.injEq] at hrun
            rw [← hrun]
            exact stepRun_noTokenFetched cenv w1 _ hcall
          | true =>
            simp only [if_true, Option.some.injEq] at hrun
            rw [← hrun]
            have htok : (ensureServiceToken cenv cfg).1.Fleet.EnrollmentToken = "" := by
              rw [hfleet, htoken]
            have hen : (ensureServiceToken cenv cfg).1.FleetServer.Enable = true := by
              rw [henable, hserver]
            simp only [stepEnrollmentToken, htok, hen]
            exact stepEnrollCommand_noTokenFetched cenv w1 _ _ hcall

/-! ## Facts about policy and key selection -/

theorem find?_eq_some_iff_isFirstWith {α : Type} (criterion : α → Bool) (xs : List α) (x : α) :
    xs.find? criterion = some x ↔ IsFirstWith criterion xs x := by
  induction xs with
  | nil =>
    constructor
    · intro h
      simp at h
    · rintro ⟨before, after, h, _, _⟩
      cases before <;> simp at h
  | cons y ys ih =>
    by_cases hy : criterion y = true
    · rw [List.find?_cons_of_pos _ hy]
      constructor
      · intro h
        have hxy : y = x := Option.some.inj h
        subst hxy
        exact ⟨[], ys, rfl, hy, fun z hz => absurd hz (List.not_mem_nil z)⟩
      · rintro ⟨before, after, h, hx, hbefore⟩
        cases before with
        | nil =>
          simp only [List.nil_append, List.cons.injEq] at h
          rw [h.1]
        | cons b bs =>
          simp only [List.cons_append, List.cons.injEq] at h
          have hb := hbefore b (List.mem_cons_self b bs)
          rw [← h.1, hy] at hb
          exact absurd hb (by simp)
    · have hy2 : criterion y = false := by simpa using hy
      rw [List.find?_cons_of_neg _ hy, ih]
      constructor
      · rintro ⟨before, after, h, hx, hbefore⟩
        refine ⟨y :: before, after, by rw [h]; rfl, hx, ?_⟩
        intro z hz
        rcases List.mem_cons.mp hz with hz | hz
        · rw [hz]; exact hy2
        · exact hbefore z hz
      · rintro ⟨before, after, h, hx, hbefore⟩
        cases before with
        | nil =>
          simp only [List.nil_append, List.cons.injEq] at h
          rw [h.1, hx] at hy2
          exact absurd hy2 (by simp)
        | cons b bs =>
          simp only [List.cons_append, List.cons.injEq] at h
          exact ⟨bs, after, h.2, hx, fun z hz => hbefore z (List.mem_cons_of_mem b hz)⟩

theorem find?_eq_none_iff_all_false {α : Type} (criterion : α → Bool) (xs : List α) :
    xs.find? criterion = none ↔ ∀ x ∈ xs, criterion x = false := by
  simp [List.find?_eq_none]

theorem findPolicyLoop_eq_find? (cfg : setupConfig) (policies : List kibanaPolicy) :
    findPolicyLoop cfg (if cfg.FleetServer.Enable then cfg.FleetServer.PolicyID else "")
        cfg.Fleet.TokenPolicyName policies =
      policies.find? (policyCriterion cfg) := by
  induction policies with
  | nil => rfl
  | cons policy rest ih =>
    simp only [findPolicyLoop, List.find?_cons, ih, policyCriterion]
    cases hE : cfg.FleetServer.Enable
    · by_cases hN : cfg.Fleet.TokenPolicyName = ""
      · cases h4 : policy.IsDefault <;> simp [hN, h4]
      · cases h2 : (cfg.Fleet.TokenPolicyName == policy.Name) <;> simp [hN, h2]
    · by_cases hID : cfg.FleetServer.PolicyID = ""
      · by_cases hN : cfg.Fleet.TokenPolicyName = ""
        · cases h3 : policy.IsDefaultFleetServer <;> simp [hID, hN, h3]
        · cases h2 : (cfg.Fleet.TokenPolicyName == policy.Name) <;> simp [hID, hN, h2]
      · cases h1 : (cfg.FleetServer.PolicyID == policy.ID) <;> simp [hID, h1]

theorem matchesPattern_length : ∀ (ps : List (Char → Bool)) (cs : List Char),
    matchesPattern ps cs = true → cs.length = ps.length
  | [], [], _ => rfl
  | [], _ :: _, h => by simp [matchesPattern] at h
  | _ :: _, [], h => by simp [matchesPattern] at h
  | p :: ps, c :: cs, h => by
    simp only [matchesPattern, Bool.and_eq_true] at h
    simp [matchesPattern_length ps cs h.2]

theorem matchesPattern_cons (p : Char → Bool) (ps : List (Char → Bool)) (cs : List Char) :
    matchesPattern (p :: ps) cs = true ↔
      ∃ c rest, cs = c :: rest ∧ p c = true ∧ matchesPattern ps rest = true := by
  cases cs with
  | nil => simp [matchesPattern]
  | cons c rest =>
    simp only [matchesPattern, Bool.and_eq_true]
    constructor
    · rintro ⟨hc, h⟩
      exact ⟨c, rest, rfl, hc, h⟩
    · rintro ⟨c1, rest1, heq, hc, h⟩
      cases heq
      exact ⟨hc, h⟩

theorem matchesPattern_hexRun_append (n : Nat) (qs : List (Char → Bool)) :
    ∀ cs : List Char, matchesPattern (hexRun n ++ qs) cs = true ↔
      ∃ xs ys, cs = xs ++ ys ∧ IsHexRun n xs ∧ matchesPattern qs ys = true := by
  induction n with
  | zero =>
    intro cs
    constructor
    · intro h
      exact ⟨[], cs, rfl, ⟨rfl, by simp⟩, by simpa [hexRun] using h⟩
    · rintro ⟨xs, ys, rfl, ⟨hl, -⟩, h⟩
      have : xs = [] := List.length_eq_zero.mp hl
      subst this
      simpa [hexRun] using h
  | succ n ih =>
    intro cs
    have hrun : hexRun (n + 1) ++ qs = isHexDigit :: (hexRun n ++ qs) := by
      simp [hexRun, List.replicate_succ]
    rw [hrun, matchesPattern_cons]
    constructor
    · rintro ⟨c, rest, rfl, hc, h⟩
      obtain ⟨xs, ys, rfl, ⟨hl, hx⟩, hq⟩ := (ih rest).mp h
      refine ⟨c :: xs, ys, rfl, ⟨by simp [hl], ?_⟩, hq⟩
      intro d hd
      rcases List.mem_cons.mp hd with rfl | hd
      · exact hc
      · exact hx d hd
    · rintro ⟨xs, ys, rfl, ⟨hl, hx⟩, hq⟩
      cases xs with
      | nil => simp at hl
      | cons c xs =>
        refine ⟨c, xs ++ ys, rfl, hx c (List.mem_cons_self _ _), (ih _).mpr ?_⟩
        exact ⟨xs, ys, rfl, ⟨by simpa using hl, fun d hd => hx d (List.mem_cons_of_mem _ hd)⟩, hq⟩

theorem matchesPattern_isChar_cons (lit : Char) (ps : List (Char → Bool)) (cs : List Char) :
    matchesPattern ([isChar lit] ++ ps) cs = true ↔
      ∃ rest, cs = lit :: rest ∧ matchesPattern ps rest = true := by
  rw [List.singleton_append, matchesPattern_cons]
  constructor
  · rintro ⟨c, rest, rfl, hc, h⟩
    have : c = lit := by simpa [isChar] using hc
    exact ⟨rest, by rw [this], h⟩
  · rintro ⟨rest, rfl, h⟩
    exact ⟨lit, rest, rfl, by simp [isChar], h⟩

/-- What the expression `tokenNameStrip` matches: a white space character, then a UUID in
parentheses. -/
theorem matchesPattern_tokenNameStrip (cs : List Char) :
    matchesPattern tokenNameStripPattern cs = true ↔
      ∃ sp uuid, isRegexSpace sp = true ∧ IsUUIDText uuid ∧
        cs = sp :: '(' :: (uuid ++ [')']) := by
  unfold tokenNameStripPattern
  rw [show ([isRegexSpace, isChar '('] : List (Char → Bool)) = [isRegexSpace] ++ [isChar '(']
    from rfl, List.append_assoc, List.singleton_append, matchesPattern_cons]
  simp only [matchesPattern_isChar_cons, matchesPattern_hexRun_append]
  constructor
  · rintro ⟨sp, rest, rfl, hsp, rest1, rfl, a, r2, rfl, ha, r3, rfl, b, r4, rfl, hb, r5, rfl,
      c, r6, rfl, hc, r7, rfl, d, r8, rfl, hd, r9, rfl, e, r10, rfl, he, h⟩
    have hr : r10 = [')'] := by
      cases r10 with
      | nil => simp [matchesPattern] at h
      | cons x xs =>
        cases xs with
        | nil =>
          have : x = ')' := by simpa [matchesPattern, isChar] using h
          rw [this]
        | cons y ys => simp [matchesPattern] at h
    subst hr
    exact ⟨sp, _, hsp, ⟨a, b, c, d, e, rfl, ha, hb, hc, hd, he⟩, by simp⟩
  · rintro ⟨sp, uuid, hsp, ⟨a, b, c, d, e, rfl, ha, hb, hc, hd, he⟩, rfl⟩
    exact ⟨sp, _, rfl, hsp, _, rfl, a, _, by simp, ha, _, rfl, b, _, rfl, hb, _, rfl,
      c, _, rfl, hc, _, rfl, d, _, rfl, hd, _, rfl, e, [')'], rfl, he,
      by simp [matchesPattern, isChar]⟩

/-- A name that ends in a parenthesised UUID after a white space loses exactly that. -/
theorem tokenNameStripReplaceAll_of_suffix (name : String) (base : List Char)
    (h : HasUUIDSuffix name.data base) : tokenNameStripReplaceAll name = ⟨base⟩ := by
  obtain ⟨sp, uuid, hsp, hu, hname⟩ := h
  have hm : matchesPattern tokenNameStripPattern (sp :: '(' :: (uuid ++ [')'])) = true :=
    (matchesPattern_tokenNameStrip _).mpr ⟨sp, uuid, hsp, hu, rfl⟩
  have hl := matchesPattern_length _ _ hm
  unfold tokenNameStripReplaceAll
  simp only [hname, List.length_append]
  rw [hl, Nat.add_sub_cancel, List.drop_left, List.take_left, hm]
  simp

/-- Any other name is left as it is. -/
theorem tokenNameStripReplaceAll_of_no_suffix (name : String)
    (h : ¬ ∃ base, HasUUIDSuffix name.data base) : tokenNameStripReplaceAll name = name := by
  unfold tokenNameStripReplaceAll
  simp only
  split
  · rename_i hc
    simp only [Bool.and_eq_true] at hc
    obtain ⟨sp, uuid, hsp, hu, hd⟩ := (matchesPattern_tokenNameStrip _).mp hc.2
    refine absurd ⟨name.data.take (name.data.length - tokenNameStripPattern.length),
      sp, uuid, hsp, hu, ?_⟩ h
    rw [← hd]
    exact (List.take_append_drop _ _).symm
  · rfl

theorem findKeyLoop_eq_find? (policy : kibanaPolicy) (tokenName : String) :
    ∀ keys : List kibanaAPIKey,
      findKeyLoop policy tokenName keys = keys.find? (keyMatches policy tokenName)
  | [] => rfl
  | key :: rest => by
    simp only [findKeyLoop, List.find?_cons, keyMatches, tokenNameOf]
    rw [findKeyLoop_eq_find? policy tokenName rest]
    cases h : (stringsTrimSpace (tokenNameStripReplaceAll key.Name) == tokenName &&
      key.PolicyID == policy.ID) <;> simp [keyMatches, tokenNameOf]


/-! ## Facts about `arrayContains` -/

mutual
/-- Deep equality on these values is equality: the same dynamic type, the same nilness, the
same contents. -/
theorem DeepEqual_iff : ∀ v w : Value, DeepEqual v w = true ↔ v = w
  | .nil, w => by cases w <;> simp [DeepEqual]
  | .null, w => by cases w <;> simp [DeepEqual]
  | .bool x, w => by cases w <;> simp [DeepEqual]
  | .int x, w => by cases w <;> simp [DeepEqual]
  | .str x, w => by cases w <;> simp [DeepEqual]
  | .nilArray, w => by cases w <;> simp [DeepEqual]
  | .array x, w => by
    cases w with
    | array y => simp [DeepEqual, DeepEqualList_iff x y]
    | _ => simp [DeepEqual]
theorem DeepEqualList_iff : ∀ xs ys : List Value, DeepEqualList xs ys = true ↔ xs = ys
  | [], [] => by simp [DeepEqualList]
  | [], _ :: _ => by simp [DeepEqualList]
  | _ :: _, [] => by simp [DeepEqualList]
  | x :: xs, y :: ys => by simp [DeepEqualList, DeepEqual_iff x y, DeepEqualList_iff xs ys]
end

theorem arrayContainsInner_iff (check : Value) (a : List Value) :
    arrayContainsInner check a = true ↔ ∃ i ∈ a, DeepEqual i check = true := by
  induction a with
  | nil => simp [arrayContainsInner]
  | cons i rest ih =>
    unfold arrayContainsInner
    by_cases h : DeepEqual i check = true
    · simp [h]
    · simp [h, ih]

theorem arrayContainsOuter_iff (a : List Value) (checks : List Value) :
    arrayContainsOuter a checks = true ↔
      ∃ check ∈ checks, ∃ i ∈ a, DeepEqual i check = true := by
  induction checks with
  | nil => simp [arrayContainsOuter]
  | cons check rest ih =>
    unfold arrayContainsOuter
    by_cases h : arrayContainsInner check a = true
    · simp only [h, if_true, List.mem_cons, true_iff]
      exact ⟨check, Or.inl rfl, (arrayContainsInner_iff check a).mp h⟩
    · rw [if_neg h, ih]
      have h2 : ¬ ∃ i ∈ a, DeepEqual i check = true :=
        fun hex => h ((arrayContainsInner_iff check a).mpr hex)
      constructor
      · rintro ⟨c, hc, hi⟩
        exact ⟨c, List.mem_cons_of_mem _ hc, hi⟩
      · rintro ⟨c, hc, hi⟩
        rcases List.mem_cons.mp hc with rfl | hc
        · exact absurd hi h2
        · exact ⟨c, hc, hi⟩


/-! ## Facts about the gateway loop -/

theorem gateway_foldl (answers : List PollResult) : ∀ g : Gateway,
    (answers.foldl Gateway.pollCycle g).Actions =
        g.Actions ++ (answers.map PollResult.sentActions).flatten ∧
      (answers.foldl Gateway.pollCycle g).Errors =
        g.Errors ++ (answers.map PollResult.sentErrors).flatten ∧
      (answers.foldl Gateway.pollCycle g).polls = g.polls + answers.length := by
  induction answers with
  | nil => intro g; simp
  | cons a rest ih =>
    intro g
    obtain ⟨h1, h2, h3⟩ := ih (g.pollCycle a)
    simp only [List.foldl_cons, h1, h2, h3, List.map_cons, List.flatten_cons, List.length_cons]
    cases a with
    | actions batch =>
      by_cases hb : batch.isEmpty = true
      · simp [Gateway.pollCycle, PollResult.sentActions, PollResult.sentErrors, hb]
        omega
      · simp [Gateway.pollCycle, PollResult.sentActions, PollResult.sentErrors, hb]
        omega
    | failed err =>
      simp [Gateway.pollCycle, PollResult.sentActions, PollResult.sentErrors]
      omega

theorem gateway_run (answers : List PollResult) :
    (Gateway.Run answers).Actions = (answers.map PollResult.sentActions).flatten ∧
      (Gateway.Run answers).Errors = (answers.map PollResult.sentErrors).flatten ∧
      (Gateway.Run answers).polls = answers.length := by
  have h := gateway_foldl answers {}
  simpa [Gateway.Run] using h


/-! ## Facts about what is written to the store -/

theorem stepSaveConfig_saved (env : Env) (w : World) (storedConfig : Configuration)
    (saveConfig : Bool) (tr : List Event) (data : String)
    (h : Event.storeSave data ∈ (stepSaveConfig env w storedConfig saveConfig tr).trace) :
    Event.storeSave data ∈ tr ∨
      (saveConfig = true ∧
        WroteRecord env storedConfig (stepSaveConfig env w storedConfig saveConfig tr) data) := by
  unfold stepSaveConfig at h ⊢
  cases saveConfig with
  | false => exact Or.inl (by simpa using h)
  | true =>
    simp only [if_true] at h ⊢
    cases hm : env.yamlMarshal storedConfig with
    | err e =>
      simp only [hm] at h
      exact Or.inl h
    | ok d =>
      simp only [hm] at h ⊢
      cases hs : env.SafelyStoreAgentInfo d with
      | some err =>
        simp only [hs] at h ⊢
        rcases List.mem_append.mp h with h | h
        · exact Or.inl h
        · have hd : data = d := by simpa using h
          subst hd
          exact Or.inr ⟨trivial, hm, fun ho => by simp at ho⟩
      | none =>
        simp only [hs] at h ⊢
        rcases List.mem_append.mp h with h | h
        · exact Or.inl h
        · have hd : data = d := by simpa using h
          subst hd
          exact Or.inr ⟨trivial, hm, fun _ => rfl⟩


theorem stepReplaceHashUpdate_saved (env : Env) (w : World) (setupCfg : setupConfig)
    (storedConfig : Configuration) (saveConfig : Bool) (tr : List Event) (data : String)
    (h : Event.storeSave data ∈
      (stepReplaceHashUpdate env w setupCfg storedConfig saveConfig tr).trace) :
    Event.storeSave data ∈ tr ∨
      ((saveConfig ||
          needsBackfill storedConfig.Fleet.ReplaceTokenHash setupCfg.Fleet.ReplaceToken) = true ∧
        WroteRecord env
          { storedConfig with
            Fleet := { storedConfig.Fleet with
              ReplaceTokenHash := backfilledHash env storedConfig.Fleet.ReplaceTokenHash
                setupCfg.Fleet.ReplaceToken } }
          (stepReplaceHashUpdate env w setupCfg storedConfig saveConfig tr) data) := by
  unfold stepReplaceHashUpdate at h ⊢
  by_cases hc : needsBackfill storedConfig.Fleet.ReplaceTokenHash setupCfg.Fleet.ReplaceToken
      = true
  · have hc2 := hc
    unfold needsBackfill at hc2
    rw [if_pos hc2] at h ⊢
    cases hg : env.GeneratePBKDF2FromPassword setupCfg.Fleet.ReplaceToken with
    | err e =>
      simp only [hg] at h
      rcases List.mem_append.mp h with h | h
      · exact Or.inl h
      · simp at h
    | ok hashBytes =>
      simp only [hg] at h ⊢
      have hb : backfilledHash env storedConfig.Fleet.ReplaceTokenHash
          setupCfg.Fleet.ReplaceToken = env.base64Encode hashBytes := by
        simp [backfilledHash, hc, hg]
      rw [hb]
      rcases stepSaveConfig_saved _ _ _ _ _ _ h with h | ⟨_, h⟩
      · rcases List.mem_append.mp h with h | h
        · exact Or.inl h
        · simp at h
      · exact Or.inr ⟨by simp [hc], h⟩
  · have hc2 := hc
    unfold needsBackfill at hc2
    rw [if_neg hc2] at h ⊢
    have hb : backfilledHash env storedConfig.Fleet.ReplaceTokenHash
        setupCfg.Fleet.ReplaceToken = storedConfig.Fleet.ReplaceTokenHash := by
      simp [backfilledHash, hc]
    rw [hb]
    rcases stepSaveConfig_saved _ _ _ _ _ _ h with h | ⟨hs, h⟩
    · exact Or.inl h
    · exact Or.inr ⟨by simp [hs], h⟩

theorem stepEnrollmentHashUpdate_saved (env : Env) (w : World) (setupCfg : setupConfig)
    (storedConfig : Configuration) (tr : List Event) (data : String)
    (h : Event.storeSave data ∈ (stepEnrollmentHashUpdate env w setupCfg storedConfig tr).trace) :
    Event.storeSave data ∈ tr ∨
      (savesConfig setupCfg storedConfig = true ∧
        WroteRecord env (backfilledRecord env setupCfg storedConfig)
          (stepEnrollmentHashUpdate env w setupCfg storedConfig tr) data) := by
  unfold stepEnrollmentHashUpdate at h ⊢
  by_cases hc : needsBackfill storedConfig.Fleet.EnrollmentTokenHash
      setupCfg.Fleet.EnrollmentToken = true
  · have hc2 := hc
    unfold needsBackfill at hc2
    rw [if_pos hc2] at h ⊢
    cases hg : env.GeneratePBKDF2FromPassword setupCfg.Fleet.EnrollmentToken with
    | err e =>
      simp only [hg] at h
      rcases List.mem_append.mp h with h | h
      · exact Or.inl h
      · simp at h
    | ok hashBytes =>
      simp only [hg] at h ⊢
      have hb : backfilledHash env storedConfig.Fleet.EnrollmentTokenHash
          setupCfg.Fleet.EnrollmentToken = env.base64Encode hashBytes := by
        simp [backfilledHash, hc, hg]
      rcases stepReplaceHashUpdate_saved _ _ _ _ _ _ _ h with h | ⟨_, h⟩
      · rcases List.mem_append.mp h with h | h
        · exact Or.inl h
        · simp at h
      · refine Or.inr ⟨by simp [savesConfig, hc], ?_⟩
        unfold backfilledRecord
        rw [hb]
        exact h
  · have hc2 := hc
    unfold needsBackfill at hc2
    rw [if_neg hc2] at h ⊢
    have hb : backfilledHash env storedConfig.Fleet.EnrollmentTokenHash
        setupCfg.Fleet.EnrollmentToken = storedConfig.Fleet.EnrollmentTokenHash := by
      simp [backfilledHash, hc]
    rcases stepReplaceHashUpdate_saved _ _ _ _ _ _ _ h with h | ⟨hs, h⟩
    · exact Or.inl h
    · refine Or.inr ⟨by simpa [savesConfig, hc] using hs, ?_⟩
      unfold backfilledRecord
      rw [hb]
      exact h

theorem ackFleetOperation_trace (env : Env) (agentID : String) (s : Nat × List Event) :
    (ackFleetOperation env agentID s).2.2 = s.2 ++ [Event.ackExecute agentID] := by
  obtain ⟨retries, tr⟩ := s
  unfold ackFleetOperation
  simp only
  cases env.ackExecute agentID (retries + 1) with
  | none => rfl
  | some err =>
    simp only
    split <;> rfl

theorem backoffRetry_ackFleet_events (env : Env) (agentID : String) :
    ∀ (fuel : Nat) (s : Nat × List Event) (r : Option GoError × (Nat × List Event)),
      backoffRetry (ackFleetOperation env agentID)
        (fun s => (s.1, s.2 ++ [Event.sleep])) fuel s = some r →
      ∀ e ∈ r.2.2, e ∈ s.2 ∨ e = Event.ackExecute agentID ∨ e = Event.sleep := by
  intro fuel
  induction fuel with
  | zero => intro s r h; simp [backoffRetry] at h
  | succ fuel ih =>
    intro s r h e he
    have ht := ackFleetOperation_trace env agentID s
    unfold backoffRetry at h
    rcases hop : ackFleetOperation env agentID s with ⟨oe, s1⟩
    rw [hop] at h ht
    simp only at ht
    have hstep : ∀ x ∈ s1.2, x ∈ s.2 ∨ x = Event.ackExecute agentID ∨ x = Event.sleep := by
      intro x hx
      rw [ht] at hx
      rcases List.mem_append.mp hx with hx | hx
      · exact Or.inl hx
      · exact Or.inr (Or.inl (by simpa using hx))
    cases oe with
    | none =>
      simp only [Option.some.injEq] at h
      subst h
      exact hstep e he
    | some oerr =>
      cases oerr with
      | permanent e1 =>
        simp only [Option.some.injEq] at h
        subst h
        exact hstep e he
      | plain e1 =>
        simp only at h
        rcases ih _ r h e he with h1 | h1 | h1
        · rcases List.mem_append.mp h1 with h1 | h1
          · exact hstep e h1
          · exact Or.inr (Or.inr (by simpa using h1))
        · exact Or.inr (Or.inl h1)
        · exact Or.inr (Or.inr h1)

theorem ackFleet_saved (fuel : Nat) (env : Env) (agentID : String) (tr tr1 : List Event)
    (err : Option GoError) (data : String)
    (h : ackFleet fuel env agentID tr = some (err, tr1))
    (hs : Event.storeSave data ∈ tr1) : Event.storeSave data ∈ tr := by
  unfold ackFleet at h
  cases hb : backoffRetry (ackFleetOperation env agentID)
      (fun s => (s.1, s.2 ++ [Event.sleep])) fuel (0, tr) with
  | none => simp [hb] at h
  | some r =>
    obtain ⟨e1, n1, t1⟩ := r
    simp only [hb, Option.some.injEq, Prod.mk.injEq] at h
    obtain ⟨-, rfl⟩ := h
    rcases backoffRetry_ackFleet_events env agentID fuel (0, tr) _ hb _ hs with h1 | h1 | h1
    · exact h1
    · cases h1
    · cases h1


theorem stepValidateAPIToken_saved (fuel : Nat) (env : Env) (w : World)
    (setupCfg : setupConfig) (storedConfig : Configuration) (tr : List Event) (run : Run)
    (data : String) (h : stepValidateAPIToken fuel env w setupCfg storedConfig tr = some run)
    (hs : Event.storeSave data ∈ run.trace) :
    Event.storeSave data ∈ tr ∨
      (savesConfig setupCfg storedConfig = true ∧
        WroteRecord env (backfilledRecord env setupCfg storedConfig) run data) := by
  have hnew : ∀ key client, Event.storeSave data ∈ tr ++ [Event.newFleetClient key client] →
      Event.storeSave data ∈ tr := by
    intro key client hm
    rcases List.mem_append.mp hm with hm | hm
    · exact hm
    · simp at hm
  unfold stepValidateAPIToken at h
  cases hl : env.loggerNew with
  | some err =>
    simp only [hl, Option.some.injEq] at h
    subst h
    exact Or.inl hs
  | none =>
    simp only [hl] at h
    cases hc : env.newFleetClient storedConfig.Fleet.AccessAPIKey storedConfig.Fleet.Client with
    | some err =>
      simp only [hc, Option.some.injEq] at h
      subst h
      exact Or.inl (hnew _ _ hs)
    | none =>
      simp only [hc] at h
      cases hi : storedConfig.Fleet.Info with
      | none =>
        simp only [hi, Option.some.injEq] at h
        subst h
        exact Or.inl (hnew _ _ hs)
      | some info =>
        simp only [hi] at h
        cases ha : ackFleet fuel env info.ID
            (tr ++ [Event.newFleetClient storedConfig.Fleet.AccessAPIKey
              storedConfig.Fleet.Client]) with
        | none => simp [ha] at h
        | some r =>
          obtain ⟨err, tr1⟩ := r
          have hback : Event.storeSave data ∈ tr1 → Event.storeSave data ∈ tr :=
            fun hm => hnew _ _ (ackFleet_saved _ _ _ _ _ _ _ ha hm)
          cases err with
          | some e =>
            simp only [ha] at h
            split at h
            · simp only [Option.some.injEq] at h
              subst h
              exact Or.inl (hback hs)
            · simp only [Option.some.injEq] at h
              subst h
              exact Or.inl (hback hs)
          | none =>
            simp only [ha, Option.some.injEq] at h
            subst h
            rcases stepEnrollmentHashUpdate_saved _ _ _ _ _ _ hs with h1 | h1
            · exact Or.inl (hback h1)
            · exact Or.inr h1

theorem stepReplaceTokenCheck_saved (fuel : Nat) (env : Env) (w : World)
    (setupCfg : setupConfig) (storedConfig : Configuration) (tr : List Event) (run : Run)
    (data : String) (h : stepReplaceTokenCheck fuel env w setupCfg storedConfig tr = some run)
    (hs : Event.storeSave data ∈ run.trace) :
    Event.storeSave data ∈ tr ∨
      (savesConfig setupCfg storedConfig = true ∧
        WroteRecord env (backfilledRecord env setupCfg storedConfig) run data) := by
  have hcmp : ∀ hash token, Event.storeSave data ∈ tr ++ [Event.comparePBKDF2 hash token] →
      Event.storeSave data ∈ tr := by
    intro hash token hm
    rcases List.mem_append.mp hm with hm | hm
    · exact hm
    · simp at hm
  unfold stepReplaceTokenCheck at h
  split at h
  · cases hd : env.base64Decode storedConfig.Fleet.ReplaceTokenHash with
    | err e =>
      simp only [hd, Option.some.injEq] at h
      subst h
      exact Or.inl hs
    | ok hashBytes =>
      simp only [hd] at h
      cases hcp : env.ComparePBKDF2HashAndPassword hashBytes setupCfg.Fleet.ReplaceToken with
      | some e =>
        simp only [hcp] at h
        split at h
        · simp only [Option.some.injEq] at h
          subst h
          exact Or.inl (hcmp _ _ hs)
        · simp only [Option.some.injEq] at h
          subst h
          exact Or.inl (hcmp _ _ hs)
      | none =>
        simp only [hcp] at h
        rcases stepValidateAPIToken_saved _ _ _ _ _ _ _ _ h hs with h1 | h1
        · exact Or.inl (hcmp _ _ h1)
        · exact Or.inr h1
  · exact stepValidateAPIToken_saved _ _ _ _ _ _ _ _ h hs

theorem stepEnrollmentTokenCheck_saved (fuel : Nat) (env : Env) (w : World)
    (setupCfg : setupConfig) (storedConfig : Configuration) (tr : List Event) (run : Run)
    (data : String)
    (h : stepEnrollmentTokenCheck fuel env w setupCfg storedConfig tr = some run)
    (hs : Event.storeSave data ∈ run.trace) :
    Event.storeSave data ∈ tr ∨
      (savesConfig setupCfg storedConfig = true ∧
        WroteRecord env (backfilledRecord env setupCfg storedConfig) run data) := by
  have hcmp : ∀ hash token, Event.storeSave data ∈ tr ++ [Event.comparePBKDF2 hash token] →
      Event.storeSave data ∈ tr := by
    intro hash token hm
    rcases List.mem_append.mp hm with hm | hm
    · exact hm
    · simp at hm
  unfold stepEnrollmentTokenCheck at h
  split at h
  · cases hd : env.base64Decode storedConfig.Fleet.EnrollmentTokenHash with
    | err e =>
      simp only [hd, Option.some.injEq] at h
      subst h
      exact Or.inl hs
    | ok hashBytes =>
      simp only [hd] at h
      cases hcp : env.ComparePBKDF2HashAndPassword hashBytes
          setupCfg.Fleet.EnrollmentToken with
      | some e =>
        simp only [hcp] at h
        split at h
        · simp only [Option.some.injEq] at h
          subst h
          exact Or.inl (hcmp _ _ hs)
        · simp only [Option.some.injEq] at h
          subst h
          exact Or.inl (hcmp _ _ hs)
      | none =>
        simp only [hcp] at h
        rcases stepReplaceTokenCheck_saved _ _ _ _ _ _ _ _ h hs with h1 | h1
        · exact Or.inl (hcmp _ _ h1)
        · exact Or.inr h1
  · exact stepReplaceTokenCheck_saved _ _ _ _ _ _ _ _ h hs

/-- A run of `shouldFleetEnroll` that writes to the store has loaded a record, found a token hash
missing in it, and writes the backfilled record. -/
theorem shouldFleetEnroll_saved (fuel : Nat) (env : Env) (w : World) (setupCfg : setupConfig)
    (run : Run) (data : String) (h : shouldFleetEnroll fuel env w setupCfg = some run)
    (hs : Event.storeSave data ∈ run.trace) :
    ∃ storedConfig, decodeStored env w = .ok storedConfig ∧
      savesConfig setupCfg storedConfig = true ∧
      WroteRecord env (backfilledRecord env setupCfg storedConfig) run data := by
  unfold shouldFleetEnroll at h
  split at h
  · simp only [Option.some.injEq] at h
    subst h
    simp at hs
  · split at h
    · simp only [Option.some.injEq] at h
      subst h
      simp at hs
    · simp only at h
      split at h
      · simp only [Option.some.injEq] at h
        subst h
        simp at hs
      · cases ho : env.newEncryptedDiskStore env.AgentConfigFile with
        | some err =>
          simp only [ho, Option.some.injEq] at h
          subst h
          simp at hs
        | none =>
          simp only [ho] at h
          cases hl : env.storeLoad with
          | some err =>
            simp only [hl, Option.some.injEq] at h
            subst h
            simp at hs
          | none =>
            simp only [hl] at h
            cases hn : env.NewConfigFrom w.disk with
            | err e =>
              simp only [hn, Option.some.injEq] at h
              subst h
              simp at hs
            | ok cfg =>
              simp only [hn] at h
              cases hf : env.NewFromConfig cfg with
              | err e =>
                simp only [hf, Option.some.injEq] at h
                subst h
                simp at hs
              | ok storedConfig =>
                simp only [hf] at h
                have hdec : decodeStored env w = .ok storedConfig := by
                  simp [decodeStored, hn, hf]
                split at h
                · simp only [Option.some.injEq] at h
                  subst h
                  simp at hs
                · unfold stepFleetHosts at h
                  simp only at h
                  split at h
                  · simp only [Option.some.injEq] at h
                    subst h
                    simp at hs
                  · rcases stepEnrollmentTokenCheck_saved _ _ _ _ _ _ _ _ h hs with h1 | h1
                    · simp at h1
                    · exact ⟨storedConfig, hdec, h1⟩


theorem hashKeptOrBackfilled_backfilledHash (env : Env) (storedHash token : String) :
    HashKeptOrBackfilled env storedHash token (backfilledHash env storedHash token) := by
  unfold backfilledHash
  by_cases hc : needsBackfill storedHash token = true
  · rw [if_pos hc]
    cases hg : env.GeneratePBKDF2FromPassword token with
    | err e => exact Or.inl rfl
    | ok hashBytes =>
      have hc2 : len storedHash = 0 ∧ 0 < len token := by
        simpa [needsBackfill] using hc
      exact Or.inr ⟨hc2.1, hc2.2, hashBytes, hg, rfl⟩
  · rw [if_neg hc]
    exact Or.inl rfl

theorem backfilledHash_of_present (env : Env) (storedHash token : String)
    (h : 0 < len storedHash) : backfilledHash env storedHash token = storedHash := by
  have hc : needsBackfill storedHash token = false := by
    have : len storedHash ≠ 0 := by omega
    simp [needsBackfill, this]
  simp [backfilledHash, hc]

theorem backfillFrame_backfilledRecord (env : Env) (setupCfg : setupConfig)
    (loaded : Configuration) (hsaves : savesConfig setupCfg loaded = true) :
    BackfillFrame env setupCfg loaded (backfilledRecord env setupCfg loaded) :=
  { info := rfl
    accessAPIKey := rfl
    client := rfl
    enrollmentHash := hashKeptOrBackfilled_backfilledHash env _ _
    replaceHash := hashKeptOrBackfilled_backfilledHash env _ _
    keptEnrollmentHash := backfilledHash_of_present env _ _
    keptReplaceHash := backfilledHash_of_present env _ _
    backfilled := hsaves }

/-- Under the frame, a requested token that is a field value of the written record was
one of the loaded record, unless it is itself the encoding of a generated hash. -/
theorem backfillFrame_plaintext (env : Env) (setupCfg : setupConfig)
    (loaded written : Configuration) (hframe : BackfillFrame env setupCfg loaded written)
    (hlaw : EncodedHashIsNotPlaintext env setupCfg) (token : String)
    (htoken : token ∈ [setupCfg.Fleet.EnrollmentToken, setupCfg.Fleet.ReplaceToken])
    (hmem : token ∈ written.fieldValues) : token ∈ loaded.fieldValues := by
  have hkept : ∀ loadedHash tok writtenHash, HashKeptOrBackfilled env loadedHash tok writtenHash →
      tok ∈ [setupCfg.Fleet.EnrollmentToken, setupCfg.Fleet.ReplaceToken] →
      token = writtenHash → token = loadedHash := by
    intro loadedHash tok writtenHash hk htok heq
    rcases hk with hk | ⟨-, -, hashBytes, hg, hk⟩
    · rw [heq, hk]
    · exact absurd (by rw [← hk, ← heq]; exact htoken) (hlaw tok htok hashBytes hg)
  unfold Configuration.fieldValues at hmem ⊢
  rw [hframe.info, hframe.accessAPIKey, hframe.client] at hmem
  simp only [List.mem_append, List.mem_cons, List.mem_singleton, List.not_mem_nil,
    or_false] at hmem ⊢
  rcases hmem with ((h1 | h1 | h1 | h1) | h1) | h1
  · exact Or.inl (Or.inl (Or.inl h1))
  · exact Or.inl (Or.inl (Or.inr (Or.inl
      (hkept _ _ _ hframe.enrollmentHash (List.mem_cons_self _ _) h1))))
  · exact Or.inl (Or.inl (Or.inr (Or.inr (Or.inl
      (hkept _ _ _ hframe.replaceHash (List.mem_cons_of_mem _ (List.mem_singleton.mpr rfl))
        h1)))))
  · exact Or.inl (Or.inl (Or.inr (Or.inr (Or.inr h1))))
  · exact Or.inl (Or.inr h1)
  · exact Or.inr h1


theorem legacy_encodedHashIsNotPlaintext : EncodedHashIsNotPlaintext legacyEnv sampleSetup := by
  intro token htoken hashBytes hg
  have ht : token = "enroll-token" ∨ token = "replace-token" := by
    simpa [sampleSetup] using htoken
  rcases ht with rfl | rfl
  · have hb := legacy_generate_enrollment hashBytes hg
    subst hb
    decide
  · have hb := legacy_generate_replace hashBytes hg
    subst hb
    decide


theorem flaky_localChecksPass :
    LocalChecksPass flakyEnv sampleWorld sampleSetup sampleStored :=
  ⟨⟨by decide, by decide, ⟨by decide, by decide, by decide, by decide⟩, Or.inl (by decide),
    by unfold URLCheckPasses; decide⟩, Or.inr (by decide), Or.inr (by decide)⟩

theorem flaky_probeSucceedsAt : ProbeSucceedsAt flakyEnv "agent-1" 2 := by
  refine ⟨by decide, by decide, by decide, ?_⟩
  intro j h1 h2
  have hj : j = 1 := by omega
  subst hj
  exact ⟨.new "connection refused", by decide, by decide⟩


theorem stepSaveConfig_ackCalls (env : Env) (w : World) (storedConfig : Configuration)
    (saveConfig : Bool) (tr : List Event) :
    ackCalls (stepSaveConfig env w storedConfig saveConfig tr).trace = ackCalls tr := by
  unfold stepSaveConfig
  repeat' split
  all_goals simp [ackCalls, Event.isAck]

theorem stepReplaceHashUpdate_ackCalls (env : Env) (w : World) (setupCfg : setupConfig)
    (storedConfig : Configuration) (saveConfig : Bool) (tr : List Event) :
    ackCalls (stepReplaceHashUpdate env w setupCfg storedConfig saveConfig tr).trace =
      ackCalls tr := by
  unfold stepReplaceHashUpdate
  repeat' split
  all_goals try rw [stepSaveConfig_ackCalls]
  all_goals try simp [ackCalls, Event.isAck]

theorem stepEnrollmentHashUpdate_ackCalls (env : Env) (w : World) (setupCfg : setupConfig)
    (storedConfig : Configuration) (tr : List Event) :
    ackCalls (stepEnrollmentHashUpdate env w setupCfg storedConfig tr).trace = ackCalls tr := by
  unfold stepEnrollmentHashUpdate
  repeat' split
  all_goals try rw [stepReplaceHashUpdate_ackCalls]
  all_goals try simp [ackCalls, Event.isAck]

theorem ackCalls_probeTrace (env : Env) (setupCfg : setupConfig) (storedConfig : Configuration)
    (agentID : String) (n : Nat) :
    ackCalls (probeTrace env setupCfg storedConfig agentID n) = n := by
  unfold probeTrace
  rw [ackCalls_append, ackCalls_append, ackCalls_localTrace, ackCalls_ackTrace]
  simp [ackCalls, Event.isAck]


/-! ## Facts about `performGET` -/

theorem performGETLoop_all_fail {α : Type} (cfg : setupConfig) (kenv : KibanaEnv)
    (path : String) (response : Option (String → Result α)) (msg : String) :
    ∀ (remaining i : Nat) (tr : List KibanaEvent),
      (∀ j, i ≤ j → j < i + remaining → (kenv.Request "GET" path j).2.2.isSome = true ∨
        (kenv.Request "GET" path j).1 ≠ 200) →
      (performGETLoop cfg kenv path response msg remaining i tr).err = none ∧
      (performGETLoop cfg kenv path response msg remaining i tr).response = none ∧
      requestCalls (performGETLoop cfg kenv path response msg remaining i tr).trace =
        requestCalls tr + remaining := by
  intro remaining
  induction remaining with
  | zero => intro i tr _; exact ⟨rfl, rfl, rfl⟩
  | succ remaining ih =>
    intro i tr hfail
    unfold performGETLoop
    rcases hreq : kenv.Request "GET" path i with ⟨code, result, err⟩
    have hi := hfail i (Nat.le_refl i) (by omega)
    rw [hreq] at hi
    have hcond : (err.isSome || code != 200) = true := by
      rcases hi with hi | hi
      · simp only at hi
        simp [hi]
      · simp only at hi
        simp [hi]
    simp only [hcond, if_true]
    obtain ⟨h1, h2, h3⟩ := ih (i + 1) _ (fun j hj1 hj2 => hfail j (by omega) (by omega))
    refine ⟨h1, h2, ?_⟩
    rw [h3]
    simp [requestCalls, KibanaEvent.isRequest]
    omega

/-- When every attempt fails, `performGET` makes all its attempts and then returns nil with
`response` not filled. -/
theorem performGET_all_fail {α : Type} (cfg : setupConfig) (kenv : KibanaEnv) (path : String)
    (response : Option (String → Result α)) (msg : String) (n : Nat)
    (hn : cfg.Kibana.RetryMaxCount = (n : Int)) (hfail : AllAttemptsFail kenv path n) :
    (performGET cfg kenv path response msg).err = none ∧
      (performGET cfg kenv path response msg).response = none ∧
      requestCalls (performGET cfg kenv path response msg).trace = n := by
  unfold performGET
  rw [hn, Int.toNat_ofNat]
  have h := performGETLoop_all_fail cfg kenv path response msg n 0 []
    (fun j _ hj => hfail j (by omega))
  simpa [requestCalls] using h


/-! ## Facts about `buildEnrollArgs` -/

theorem mem_appendIf (x : Arg) (cond : Bool) (items : List Arg) :
    x ∈ appendIf cond items ↔ cond = true ∧ x ∈ items := by
  cases cond <;> simp [appendIf]

theorem literal_mem_headerArgs (text : String) (headers : List (String × String))
    (h : Arg.literal text ∈ headerArgs headers) : text = "--header" := by
  induction headers with
  | nil => simp [headerArgs] at h
  | cons kv rest ih =>
    obtain ⟨k, v⟩ := kv
    simp only [headerArgs, List.mem_append, List.mem_cons, Arg.literal.injEq,
      List.mem_singleton, List.not_mem_nil, or_false] at h
    rcases h with (h | h) | h
    · exact h
    · cases h
    · exact ih h

theorem serviceTokenArgs_of_path (es : elasticsearchConfig) (h : es.ServiceTokenPath ≠ "") :
    serviceTokenArgs es =
      [Arg.literal "--fleet-server-service-token-path", Arg.value es.ServiceTokenPath] := by
  simp [serviceTokenArgs, h]

/-- With Fleet Server enabled and a token path configured, the elements do not depend on
the values of the service tokens. -/
theorem enrollArgs_setServiceToken (eenv : EnrollEnv) (cfg : setupConfig)
    (token policyID v : String) (hp : cfg.FleetServer.Elasticsearch.ServiceTokenPath ≠ "") :
    enrollArgs eenv (setServiceToken cfg v) token policyID =
      enrollArgs eenv cfg token policyID := by
  have hs : serviceTokenArgs (setServiceToken cfg v).FleetServer.Elasticsearch =
      serviceTokenArgs cfg.FleetServer.Elasticsearch := by
    rw [serviceTokenArgs_of_path _ hp, serviceTokenArgs_of_path _ (by exact hp)]
    rfl
  unfold enrollArgs
  have hfs : ∀ connStr, fleetServerEnrollArgs eenv (setServiceToken cfg v) policyID connStr =
      fleetServerEnrollArgs eenv cfg policyID connStr := by
    intro connStr
    unfold fleetServerEnrollArgs
    rw [hs]
    rfl
  have hconn : buildFleetServerConnStr eenv (setServiceToken cfg v).FleetServer =
      buildFleetServerConnStr eenv cfg.FleetServer := rfl
  have hcommon : commonEnrollArgs eenv (setServiceToken cfg v) token =
      commonEnrollArgs eenv cfg token := rfl
  have hagent : agentEnrollArgs (setServiceToken cfg v) = agentEnrollArgs cfg := rfl
  rw [hconn, hcommon, hagent]
  simp only [hfs]
  rfl

theorem literal_not_mem_enrollArgs (eenv : EnrollEnv) (cfg : setupConfig)
    (token policyID : String) (args : List Arg)
    (hE : cfg.FleetServer.Enable = true)
    (hp : cfg.FleetServer.Elasticsearch.ServiceTokenPath ≠ "")
    (h : enrollArgs eenv cfg token policyID = .ok args) :
    Arg.literal "--fleet-server-service-token" ∉ args := by
  unfold enrollArgs at h
  rw [if_pos hE] at h
  cases hc : buildFleetServerConnStr eenv cfg.FleetServer with
  | err e => simp [hc] at h
  | ok connStr =>
    simp only [hc, Result.ok.injEq] at h
    subst h
    intro hmem
    simp only [baseEnrollArgs, fleetServerEnrollArgs, fleetServerOptionArgs, commonEnrollArgs,
      serviceTokenArgs_of_path _ hp, List.mem_append, mem_appendIf, List.mem_cons,
      List.mem_singleton, List.not_mem_nil, Arg.literal.injEq, or_false, and_false,
      false_or, or_self, reduceCtorEq, String.reduceEq] at hmem
    exact absurd (literal_mem_headerArgs _ _ hmem) (by decide)


/-! ## Facts about trimming and the character classes -/

theorem unicodeIsSpace_iff (c : Char) : unicodeIsSpace c = true ↔ IsWhiteSpace c := by
  unfold unicodeIsSpace IsWhiteSpace
  simp only [Bool.or_eq_true, Bool.and_eq_true, decide_eq_true_eq, beq_iff_eq, List.mem_cons,
    List.mem_singleton, List.not_mem_nil, or_false]
  omega

theorem unicodeIsSpace_false_iff (c : Char) : unicodeIsSpace c = false ↔ ¬ IsWhiteSpace c := by
  rw [← unicodeIsSpace_iff]
  cases unicodeIsSpace c <;> simp

theorem isHexDigit_iff (c : Char) : isHexDigit c = true ↔ c.toNat ∈ hexDigitCodes := by
  unfold isHexDigit hexDigitCodes
  simp only [Bool.or_eq_true, Bool.and_eq_true, decide_eq_true_eq, List.mem_cons,
    List.mem_singleton, List.not_mem_nil, or_false]
  omega

theorem isRegexSpace_iff (c : Char) : isRegexSpace c = true ↔ c.toNat ∈ regexSpaceCodes := by
  unfold isRegexSpace regexSpaceCodes
  simp only [Bool.or_eq_true, beq_iff_eq, List.mem_cons, List.mem_singleton,
    List.not_mem_nil, or_false]
  omega

theorem dropWhile_append_of_all {α : Type} (p : α → Bool) (l r : List α)
    (h : ∀ x ∈ l, p x = true) : (l ++ r).dropWhile p = r.dropWhile p := by
  induction l with
  | nil => rfl
  | cons x xs ih =>
    have hx := h x (List.mem_cons_self _ _)
    simp only [List.cons_append, List.dropWhile_cons, hx, if_true]
    exact ih (fun y hy => h y (List.mem_cons_of_mem _ hy))

theorem dropWhile_of_head_false {α : Type} (p : α → Bool) (l : List α)
    (h : ∀ x, l.head? = some x → p x = false) : l.dropWhile p = l := by
  cases l with
  | nil => rfl
  | cons x xs => simp [List.dropWhile_cons, h x rfl]

theorem head?_dropWhile_false {α : Type} (p : α → Bool) (l : List α) (x : α)
    (h : (l.dropWhile p).head? = some x) : p x = false := by
  induction l with
  | nil => simp at h
  | cons y ys ih =>
    by_cases hy : p y = true
    · simp only [List.dropWhile_cons, hy, if_true] at h
      exact ih h
    · simp only [List.dropWhile_cons, hy] at h
      simp only [Bool.false_eq_true, if_false, List.head?_cons, Option.some.injEq] at h
      subst h
      simpa using hy

/-- Trimming with a class of characters: the list is the result between two runs of the
class, and the result neither starts nor ends in the class. -/
theorem trim_decomposition {α : Type} (p : α → Bool) (s : List α) :
    ∃ leading trailing,
      s = leading ++ ((s.dropWhile p).reverse.dropWhile p).reverse ++ trailing ∧
      (∀ c ∈ leading, p c = true) ∧ (∀ c ∈ trailing, p c = true) ∧
      (∀ c, (((s.dropWhile p).reverse.dropWhile p).reverse).head? = some c → p c = false) ∧
      (∀ c, (((s.dropWhile p).reverse.dropWhile p).reverse).getLast? = some c → p c = false) := by
  have h1 : s = s.takeWhile p ++ s.dropWhile p := (List.takeWhile_append_dropWhile p s).symm
  have h2 : (s.dropWhile p).reverse =
      (s.dropWhile p).reverse.takeWhile p ++ (s.dropWhile p).reverse.dropWhile p :=
    (List.takeWhile_append_dropWhile p _).symm
  have h3 : s.dropWhile p = ((s.dropWhile p).reverse.dropWhile p).reverse ++
      ((s.dropWhile p).reverse.takeWhile p).reverse := by
    have h := congrArg List.reverse h2
    rw [List.reverse_reverse, List.reverse_append] at h
    exact h
  refine ⟨s.takeWhile p, ((s.dropWhile p).reverse.takeWhile p).reverse, ?_, ?_, ?_, ?_, ?_⟩
  · rw [List.append_assoc, ← h3]
    exact h1
  · intro c hc
    exact List.mem_takeWhile_imp hc
  · intro c hc
    exact List.mem_takeWhile_imp (List.mem_reverse.mp hc)
  · intro c hc
    have hhead : (s.dropWhile p).head? = some c := by
      rw [h3]
      cases hcore : ((s.dropWhile p).reverse.dropWhile p).reverse with
      | nil => rw [hcore] at hc; simp at hc
      | cons x xs =>
        rw [hcore] at hc
        simpa using hc
    exact head?_dropWhile_false p s c hhead
  · intro c hc
    rw [List.getLast?_reverse] at hc
    exact head?_dropWhile_false p _ c hc

/-- The decomposition determines the result of trimming. -/
theorem trim_unique {α : Type} (p : α → Bool) (s core leading trailing : List α)
    (hs : s = leading ++ core ++ trailing)
    (hl : ∀ c ∈ leading, p c = true) (ht : ∀ c ∈ trailing, p c = true)
    (hh : ∀ c, core.head? = some c → p c = false)
    (hg : ∀ c, core.getLast? = some c → p c = false) :
    ((s.dropWhile p).reverse.dropWhile p).reverse = core := by
  subst hs
  cases core with
  | nil =>
    have hall : ∀ x ∈ leading ++ trailing, p x = true := by
      intro x hx
      rcases List.mem_append.mp hx with hx | hx
      · exact hl x hx
      · exact ht x hx
    have hd : (leading ++ trailing).dropWhile p = [] := by
      have := dropWhile_append_of_all p (leading ++ trailing) [] hall
      simpa using this
    simp [hd]
  | cons x xs =>
    have hd : (leading ++ (x :: xs) ++ trailing).dropWhile p = (x :: xs) ++ trailing := by
      rw [List.append_assoc, dropWhile_append_of_all p leading _ hl]
      exact dropWhile_of_head_false p _ (fun y hy => hh y (by simpa using hy))
    rw [hd, List.reverse_append,
      dropWhile_append_of_all p trailing.reverse _
        (fun y hy => ht y (List.mem_reverse.mp hy)),
      dropWhile_of_head_false p _
        (fun y hy => hg y (by rw [← List.getLast?_reverse, List.reverse_reverse] at hy
                              exact hy)),
      List.reverse_reverse]

theorem isTrimOf_stringsTrimSpace (s : String) : IsTrimOf s.data (stringsTrimSpace s).data := by
  obtain ⟨leading, trailing, h1, h2, h3, h4, h5⟩ := trim_decomposition unicodeIsSpace s.data
  exact ⟨leading, trailing, h1,
    fun c hc => (unicodeIsSpace_iff c).mp (h2 c hc),
    fun c hc => (unicodeIsSpace_iff c).mp (h3 c hc),
    fun c hc => (unicodeIsSpace_false_iff c).mp (h4 c hc),
    fun c hc => (unicodeIsSpace_false_iff c).mp (h5 c hc)⟩

theorem stringsTrimSpace_of_isTrimOf (s : String) (core : List Char)
    (h : IsTrimOf s.data core) : stringsTrimSpace s = ⟨core⟩ := by
  obtain ⟨leading, trailing, h1, h2, h3, h4, h5⟩ := h
  unfold stringsTrimSpace
  rw [trim_unique unicodeIsSpace s.data core leading trailing h1
    (fun c hc => (unicodeIsSpace_iff c).mpr (h2 c hc))
    (fun c hc => (unicodeIsSpace_iff c).mpr (h3 c hc))
    (fun c hc => (unicodeIsSpace_false_iff c).mpr (h4 c hc))
    (fun c hc => (unicodeIsSpace_false_iff c).mpr (h5 c hc))]


/-! ## Facts about `ensureServiceToken` -/

/-- What `ensureServiceToken` leaves when it returns nil: either one of the two
service tokens was configured on entry and the configuration is left as it was, or none
was and both are now set to one value: the content of the Elasticsearch service-token
file, else of the Kibana service-token file, else the value of the token Kibana issued.
In the second case both tokens are non-empty exactly when that value is. -/
theorem ensureServiceToken_returns_nil (cenv : ContainerEnv) (cfg : setupConfig)
    (h : (ensureServiceToken cenv cfg).2.1 = none) :
    (hasServiceToken cfg = true ∧ (ensureServiceToken cenv cfg).1 = cfg) ∨
    (hasServiceToken cfg = false ∧ ∃ v, ObtainsServiceToken cenv cfg v ∧
      (ensureServiceToken cenv cfg).1 = setServiceToken cfg v ∧
      (ensureServiceToken cenv cfg).1.Kibana.Fleet.ServiceToken = v ∧
      (ensureServiceToken cenv cfg).1.FleetServer.Elasticsearch.ServiceToken = v) := by
  unfold ensureServiceToken at h ⊢
  by_cases h0 : hasServiceToken cfg = true
  · left
    refine ⟨h0, ?_⟩
    unfold hasServiceToken at h0
    rw [if_pos h0]
  · right
    have h0f : hasServiceToken cfg = false := by simpa using h0
    refine ⟨h0f, ?_⟩
    unfold hasServiceToken at h0
    rw [if_neg h0] at h ⊢
    unfold ObtainsServiceToken
    by_cases h1 : cfg.FleetServer.Elasticsearch.ServiceTokenPath = ""
    · have h1b : ¬ ((cfg.FleetServer.Elasticsearch.ServiceTokenPath != "") = true) := by
        simp [h1]
      rw [if_neg h1b] at h ⊢
      have h1c : ¬ (cfg.FleetServer.Elasticsearch.ServiceTokenPath ≠ "") := not_not.mpr h1
      simp only [if_neg h1c]
      by_cases h2 : cfg.Kibana.Fleet.ServiceTokenPath = ""
      · have h2b : ¬ ((cfg.Kibana.Fleet.ServiceTokenPath != "") = true) := by simp [h2]
        rw [if_neg h2b] at h ⊢
        have h2c : ¬ (cfg.Kibana.Fleet.ServiceTokenPath ≠ "") := not_not.mpr h2
        simp only [if_neg h2c]
        by_cases h3 : (cfg.Kibana.Fleet.Username == "" || cfg.Kibana.Fleet.Password == "") = true
        · rw [if_pos h3] at h
          simp at h
        · rw [if_neg h3] at h ⊢
          have hu : cfg.Kibana.Fleet.Username ≠ "" ∧ cfg.Kibana.Fleet.Password ≠ "" := by
            simpa using h3
          unfold KibanaIssues
          cases hc : cenv.kibanaClient cfg.Kibana with
          | some err => simp [hc] at h
          | none =>
            simp only [hc] at h ⊢
            rcases hr : cenv.kibanaRequest cfg.Kibana "POST" "/api/fleet/service_tokens" with
              ⟨code, r, rerr⟩
            cases rerr with
            | some err => simp [hr] at h
            | none =>
              simp only [hr] at h ⊢
              by_cases h4 : code ≥ 400
              · simp [h4] at h
              · rw [if_neg h4] at h ⊢
                cases hj : cenv.jsonUnmarshalTokenResp r with
                | err e => simp [hj] at h
                | ok t =>
                  exact ⟨t.Value, ⟨hu.1, hu.2, trivial, code, r, t, rfl, by omega, hj, rfl⟩,
                    rfl, rfl, rfl⟩
      · have h2b : (cfg.Kibana.Fleet.ServiceTokenPath != "") = true := by simp [h2]
        rw [if_pos h2b] at h ⊢
        have h2c : cfg.Kibana.Fleet.ServiceTokenPath ≠ "" := h2
        simp only [if_pos h2c]
        cases hf : cenv.ReadFile cfg.Kibana.Fleet.ServiceTokenPath with
        | err e => simp [hf] at h
        | ok p => exact ⟨p, rfl, rfl, rfl, rfl⟩
    · have h1b : (cfg.FleetServer.Elasticsearch.ServiceTokenPath != "") = true := by
        simp [h1]
      rw [if_pos h1b] at h ⊢
      have h1c : cfg.FleetServer.Elasticsearch.ServiceTokenPath ≠ "" := h1
      simp only [if_pos h1c]
      cases hf : cenv.ReadFile cfg.FleetServer.Elasticsearch.ServiceTokenPath with
      | err e => simp [hf] at h
      | ok p => exact ⟨p, rfl, rfl, rfl, rfl⟩

/-- On a sample: no token is configured, the token file holds `file-token`, and both
service tokens end up being `file-token`. -/
theorem ensureServiceToken_returns_nil_sample :
    (ensureServiceToken sampleContainerEnv tokenFileSetup).2.1 = none ∧
    ((hasServiceToken tokenFileSetup = true ∧
        (ensureServiceToken sampleContainerEnv tokenFileSetup).1 = tokenFileSetup) ∨
      (hasServiceToken tokenFileSetup = false ∧
        ∃ v, ObtainsServiceToken sampleContainerEnv tokenFileSetup v ∧
          (ensureServiceToken sampleContainerEnv tokenFileSetup).1 =
            setServiceToken tokenFileSetup v ∧
          (ensureServiceToken sampleContainerEnv tokenFileSetup).1.Kibana.Fleet.ServiceToken
            = v ∧
          (ensureServiceToken sampleContainerEnv
            tokenFileSetup).1.FleetServer.Elasticsearch.ServiceToken = v)) :=
  ⟨by decide, ensureServiceToken_returns_nil sampleContainerEnv tokenFileSetup
    (by decide)⟩


/-! ## The claims -/

/-- C1. A setup configuration whose enroll flag is false makes `shouldFleetEnroll` return
`(false, nil)` with an empty trace: no stat of the configuration file, no access
to the encrypted store, no Fleet client and no request, whatever the other
fields, the environment and the stored state are. -/
theorem shouldFleetEnroll_enroll_disabled (fuel : Nat) (env : Env) (w : World)
    (setupCfg : setupConfig) (h : setupCfg.Fleet.Enroll = false) :
    shouldFleetEnroll fuel env w setupCfg = some ⟨.ret false none, w, []⟩ := by
  simp [shouldFleetEnroll, h]

/-- C1 on a sample: enrollment disabled, with a force-free request that names tokens and another agent ID. -/
theorem shouldFleetEnroll_enroll_disabled_witness :
    shouldFleetEnroll 0 sampleEnv sampleWorld
      { Fleet := { sampleSetup.Fleet with Enroll := false, ID := "agent-2" } } =
      some ⟨.ret false none, sampleWorld, []⟩ :=
  shouldFleetEnroll_enroll_disabled 0 sampleEnv sampleWorld
    { Fleet := { sampleSetup.Fleet with Enroll := false, ID := "agent-2" } } (by decide)

/-- C2, as stated, fails: with the force flag true and the enroll flag false the
function returns `(false, nil)`. -/
theorem shouldFleetEnroll_force_without_enroll :
    ({ Fleet := { Enroll := false, Force := true } } : setupConfig).Fleet.Force = true ∧
    shouldFleetEnroll 3 sampleEnv sampleWorld { Fleet := { Enroll := false, Force := true } } =
      some ⟨.ret false none, sampleWorld, []⟩ := by
  decide

/-- C2, amended. A setup configuration whose enroll and force flags are both true makes
`shouldFleetEnroll` return `(true, nil)` regardless of the stored state and of every
other field; nothing is read and no call is made. -/
theorem shouldFleetEnroll_enroll_and_force (fuel : Nat) (env : Env) (w : World)
    (setupCfg : setupConfig) (hE : setupCfg.Fleet.Enroll = true)
    (hF : setupCfg.Fleet.Force = true) :
    shouldFleetEnroll fuel env w setupCfg = some ⟨.ret true none, w, []⟩ := by
  simp [shouldFleetEnroll, hE, hF]

/-- C2 (amended) on a sample: enroll and force both set, an enrolled agent on disk. -/
theorem shouldFleetEnroll_enroll_and_force_witness :
    shouldFleetEnroll 0 sampleEnv sampleWorld
      { Fleet := { sampleSetup.Fleet with Force := true } } =
      some ⟨.ret true none, sampleWorld, []⟩ :=
  shouldFleetEnroll_enroll_and_force 0 sampleEnv sampleWorld
    { Fleet := { sampleSetup.Fleet with Force := true } } (by decide) (by decide)

/-- C3. With enroll true and force false, when the stat of the agent configuration file
reports that the file does not exist, `shouldFleetEnroll` returns `(true, nil)`; the
stat is the only call made, so the store is not opened and nothing is sent. -/
theorem shouldFleetEnroll_first_run (fuel : Nat) (env : Env) (w : World)
    (setupCfg : setupConfig) (hE : setupCfg.Fleet.Enroll = true)
    (hF : setupCfg.Fleet.Force = false)
    (hStat : osIsNotExist env (env.statAgentConfigFile env.AgentConfigFile) = true) :
    shouldFleetEnroll fuel env w setupCfg =
        some ⟨.ret true none, w, [Event.statAgentConfigFile env.AgentConfigFile]⟩ ∧
      storeCalls [Event.statAgentConfigFile env.AgentConfigFile] = 0 ∧
      networkCalls [Event.statAgentConfigFile env.AgentConfigFile] = 0 := by
  refine ⟨?_, rfl, rfl⟩
  simp [shouldFleetEnroll, hE, hF, hStat]

/-- C3 on a sample: the stat reports that the configuration file does not exist. -/
theorem shouldFleetEnroll_first_run_witness :
    shouldFleetEnroll 0 firstRunEnv sampleWorld sampleSetup =
      some ⟨.ret true none, sampleWorld, [Event.statAgentConfigFile "state/fleet.enc"]⟩ :=
  (shouldFleetEnroll_first_run 0 firstRunEnv sampleWorld sampleSetup (by decide) (by decide)
    (by decide)).1

/-- C4. When no local check decides, the probe is reached, and the acknowledge command
reports the invalid API key error on attempt `i` (`1 ≤ i ≤ 3`) after attempts
`1 .. i-1` failed with other errors, then `shouldFleetEnroll` returns `(true, nil)`
and its trace holds exactly `i` acknowledge requests: the local calls, the client
construction, then `i` attempts with a wait between two of them and nothing after. -/
theorem shouldFleetEnroll_probe_invalid_api_key (fuel i : Nat) (env : Env) (w : World)
    (setupCfg : setupConfig) (storedConfig : Configuration) (info : AgentInfo) (e : GoError)
    (hfuel : 3 ≤ fuel)
    (hlocal : LocalChecksPass env w setupCfg storedConfig)
    (hclient : ClientBuilt env storedConfig info)
    (hi : 1 ≤ i ∧ i ≤ 3)
    (hearlier : ∀ j, 1 ≤ j → j < i →
      ∃ e1, env.ackExecute info.ID j = some e1 ∧ errorsIs e1 ErrInvalidAPIKey = false)
    (hinvalid : env.ackExecute info.ID i = some e ∧ errorsIs e ErrInvalidAPIKey = true) :
    shouldFleetEnroll fuel env w setupCfg =
        some ⟨.ret true none, w,
          localTrace env setupCfg storedConfig
            ++ [Event.newFleetClient storedConfig.Fleet.AccessAPIKey storedConfig.Fleet.Client]
            ++ ackTrace info.ID i⟩ ∧
      ackCalls (localTrace env setupCfg storedConfig
            ++ [Event.newFleetClient storedConfig.Fleet.AccessAPIKey storedConfig.Fleet.Client]
            ++ ackTrace info.ID i) = i := by
  constructor
  · obtain ⟨k, rfl⟩ : ∃ k, fuel = k + 3 := ⟨fuel - 3, by omega⟩
    rw [shouldFleetEnroll_of_localChecksPass _ env w setupCfg storedConfig hlocal,
      stepValidateAPIToken_of_clientBuilt _ env w setupCfg storedConfig info _ hclient,
      ackFleet_eq]
    obtain ⟨h1, h3⟩ := hi
    obtain ⟨ha, hb⟩ := hinvalid
    have hcases : i = 1 ∨ i = 2 ∨ i = 3 := by omega
    rcases hcases with rfl | rfl | rfl
    · simp [ha, hb]
    · obtain ⟨e1, he1, hn1⟩ := hearlier 1 (by omega) (by omega)
      simp [he1, hn1, ha, hb]
    · obtain ⟨e1, he1, hn1⟩ := hearlier 1 (by omega) (by omega)
      obtain ⟨e2, he2, hn2⟩ := hearlier 2 (by omega) (by omega)
      simp [he1, hn1, he2, hn2, ha, hb]
  · have hc : ackCalls [Event.newFleetClient storedConfig.Fleet.AccessAPIKey
        storedConfig.Fleet.Client] = 0 := rfl
    rw [ackCalls_append, ackCalls_append, ackCalls_localTrace, ackCalls_ackTrace, hc]
    omega

/-- C4 on a sample: the first acknowledge fails with a transport error, the second with the invalid API key error. -/
theorem shouldFleetEnroll_probe_invalid_api_key_witness :
    shouldFleetEnroll 3 revokedEnv sampleWorld sampleSetup =
        some ⟨.ret true none, sampleWorld,
          localTrace revokedEnv sampleSetup sampleStored
            ++ [Event.newFleetClient "access-key" sampleStored.Fleet.Client]
            ++ ackTrace "agent-1" 2⟩ ∧
      ackCalls (localTrace revokedEnv sampleSetup sampleStored
            ++ [Event.newFleetClient "access-key" sampleStored.Fleet.Client]
            ++ ackTrace "agent-1" 2) = 2 :=
  shouldFleetEnroll_probe_invalid_api_key 3 2 revokedEnv sampleWorld sampleSetup sampleStored
    { ID := "agent-1" } (.errorf "fail to ack to fleet" ErrInvalidAPIKey) (by decide)
    revoked_localChecksPass ⟨by decide, by decide, by decide⟩ (by decide)
    (fun j h1 h2 => by
      have hj : j = 1 := by omega
      subst hj
      exact ⟨.new "connection refused", by decide, by decide⟩)
    ⟨by decide, by decide⟩

/-- C5. With enroll true, force false, a loadable record and the ID and URL checks passing,
and with a stored enrollment token hash `H` and a requested enrollment token `T`
both non-empty: if `Verify(H,T)` is a mismatch, `shouldFleetEnroll` returns
`(true, nil)` having made the local calls and one comparison, and no network
call; if it is a match, the result is the result of the remaining checks (the
replace token check, then the probe) continued from that same trace. -/
theorem shouldFleetEnroll_enrollment_token (fuel : Nat) (env : Env) (w : World)
    (setupCfg : setupConfig) (storedConfig : Configuration)
    (h : ReachesTokenChecks env w setupCfg storedConfig)
    (hp : BothPresent storedConfig.Fleet.EnrollmentTokenHash setupCfg.Fleet.EnrollmentToken) :
    (Verify env storedConfig.Fleet.EnrollmentTokenHash setupCfg.Fleet.EnrollmentToken = .mismatch →
      ∃ hashBytes, env.base64Decode storedConfig.Fleet.EnrollmentTokenHash = .ok hashBytes ∧
        shouldFleetEnroll fuel env w setupCfg =
          some ⟨.ret true none, w,
            loadTrace env ++ [Event.comparePBKDF2 hashBytes setupCfg.Fleet.EnrollmentToken]⟩ ∧
        networkCalls
          (loadTrace env ++ [Event.comparePBKDF2 hashBytes setupCfg.Fleet.EnrollmentToken]) = 0) ∧
    (Verify env storedConfig.Fleet.EnrollmentTokenHash setupCfg.Fleet.EnrollmentToken = .matched →
      shouldFleetEnroll fuel env w setupCfg =
        stepReplaceTokenCheck fuel env w setupCfg storedConfig
          (loadTrace env ++ compareTrace env storedConfig.Fleet.EnrollmentTokenHash
            setupCfg.Fleet.EnrollmentToken)) := by
  rw [shouldFleetEnroll_of_reaches fuel env w setupCfg storedConfig h]
  constructor
  · intro hv
    obtain ⟨hashBytes, hd, hr⟩ :=
      stepEnrollmentTokenCheck_mismatch fuel env w setupCfg storedConfig (loadTrace env) hp hv
    exact ⟨hashBytes, hd, hr, rfl⟩
  · intro hv
    exact stepEnrollmentTokenCheck_of_passes fuel env w setupCfg storedConfig _ (Or.inr hv)

/-- C5 on a sample: the requested enrollment token is not the one of the stored hash. -/
theorem shouldFleetEnroll_enrollment_token_witness :
    ∃ hashBytes, sampleEnv.base64Decode "aGFzaC0x" = .ok hashBytes ∧
      shouldFleetEnroll 3 sampleEnv sampleWorld staleEnrollmentSetup =
        some ⟨.ret true none, sampleWorld,
          loadTrace sampleEnv ++ [Event.comparePBKDF2 hashBytes "new-enroll-token"]⟩ ∧
      networkCalls
        (loadTrace sampleEnv ++ [Event.comparePBKDF2 hashBytes "new-enroll-token"]) = 0 :=
  (shouldFleetEnroll_enrollment_token 3 sampleEnv sampleWorld staleEnrollmentSetup sampleStored
    (sample_reaches_of staleEnrollmentSetup (by decide) (by decide) (by decide) (by decide))
    (by unfold BothPresent; decide)).1 (by decide)

/-- C6, as stated, fails: the stored replace token hash and the requested replace token
are both present and mismatch, yet the result is not `true`, because the
enrollment token comparison, made first, fails with a verification error and
`shouldFleetEnroll` returns `(false, error)`. -/
theorem shouldFleetEnroll_replace_mismatch_after_failure :
    ReachesTokenChecks brokenHashEnv sampleWorld staleReplaceSetup brokenHashStored ∧
    BothPresent brokenHashStored.Fleet.ReplaceTokenHash staleReplaceSetup.Fleet.ReplaceToken ∧
    Verify brokenHashEnv brokenHashStored.Fleet.ReplaceTokenHash
      staleReplaceSetup.Fleet.ReplaceToken = .mismatch ∧
    shouldFleetEnroll 3 brokenHashEnv sampleWorld staleReplaceSetup =
      some ⟨.ret false (some (.errorf "failed to decode enrollment token hash"
          (.new "illegal base64 data"))), sampleWorld, loadTrace brokenHashEnv⟩ :=
  ⟨brokenHash_reaches staleReplaceSetup (by decide) (by decide) (by decide) (by decide),
    by unfold BothPresent; decide, by decide, by decide⟩

/-- C6, amended. With enroll true, force false, a loadable record and the ID and URL checks
passing, either mismatch is sufficient as long as the enrollment token comparison,
which is made first, does not fail with a verification error: an enrollment token
mismatch gives `(true, nil)` whatever the replace token comparison would give, and
a replace token mismatch gives `(true, nil)` whenever the enrollment token check
is skipped, matches or mismatches. No network call is made in either case. -/
theorem shouldFleetEnroll_either_mismatch (fuel : Nat) (env : Env) (w : World)
    (setupCfg : setupConfig) (storedConfig : Configuration)
    (h : ReachesTokenChecks env w setupCfg storedConfig) :
    (BothPresent storedConfig.Fleet.EnrollmentTokenHash setupCfg.Fleet.EnrollmentToken →
      Verify env storedConfig.Fleet.EnrollmentTokenHash setupCfg.Fleet.EnrollmentToken
        = .mismatch →
      ∃ tr, shouldFleetEnroll fuel env w setupCfg = some ⟨.ret true none, w, tr⟩ ∧
        networkCalls tr = 0) ∧
    (BothPresent storedConfig.Fleet.ReplaceTokenHash setupCfg.Fleet.ReplaceToken →
      Verify env storedConfig.Fleet.ReplaceTokenHash setupCfg.Fleet.ReplaceToken = .mismatch →
      (¬ BothPresent storedConfig.Fleet.EnrollmentTokenHash setupCfg.Fleet.EnrollmentToken ∨
        ∀ e, Verify env storedConfig.Fleet.EnrollmentTokenHash setupCfg.Fleet.EnrollmentToken
          ≠ .failure e) →
      ∃ tr, shouldFleetEnroll fuel env w setupCfg = some ⟨.ret true none, w, tr⟩ ∧
        networkCalls tr = 0) := by
  rw [shouldFleetEnroll_of_reaches fuel env w setupCfg storedConfig h]
  have enrollmentCase :
      BothPresent storedConfig.Fleet.EnrollmentTokenHash setupCfg.Fleet.EnrollmentToken →
      Verify env storedConfig.Fleet.EnrollmentTokenHash setupCfg.Fleet.EnrollmentToken
        = .mismatch →
      ∃ tr, stepEnrollmentTokenCheck fuel env w setupCfg storedConfig (loadTrace env) =
        some ⟨.ret true none, w, tr⟩ ∧ networkCalls tr = 0 := by
    intro hp hv
    obtain ⟨hashBytes, _, hr⟩ :=
      stepEnrollmentTokenCheck_mismatch fuel env w setupCfg storedConfig (loadTrace env) hp hv
    exact ⟨_, hr, rfl⟩
  have replaceCase :
      TokenCheckPasses env storedConfig.Fleet.EnrollmentTokenHash
        setupCfg.Fleet.EnrollmentToken →
      BothPresent storedConfig.Fleet.ReplaceTokenHash setupCfg.Fleet.ReplaceToken →
      Verify env storedConfig.Fleet.ReplaceTokenHash setupCfg.Fleet.ReplaceToken = .mismatch →
      ∃ tr, stepEnrollmentTokenCheck fuel env w setupCfg storedConfig (loadTrace env) =
        some ⟨.ret true none, w, tr⟩ ∧ networkCalls tr = 0 := by
    intro hpass hp hv
    rw [stepEnrollmentTokenCheck_of_passes fuel env w setupCfg storedConfig _ hpass]
    obtain ⟨hashBytes, _, hr⟩ :=
      stepReplaceTokenCheck_mismatch fuel env w setupCfg storedConfig
        (loadTrace env ++ compareTrace env storedConfig.Fleet.EnrollmentTokenHash
          setupCfg.Fleet.EnrollmentToken) hp hv
    refine ⟨_, hr, ?_⟩
    rw [networkCalls_append, networkCalls_append, networkCalls_compareTrace,
      networkCalls_loadTrace]
    rfl
  refine ⟨enrollmentCase, ?_⟩
  intro hp hv hE
  rcases hE with hskip | hnofail
  · exact replaceCase (Or.inl hskip) hp hv
  · by_cases hpE :
      BothPresent storedConfig.Fleet.EnrollmentTokenHash setupCfg.Fleet.EnrollmentToken
    · cases hvE :
        Verify env storedConfig.Fleet.EnrollmentTokenHash setupCfg.Fleet.EnrollmentToken with
      | matched => exact replaceCase (Or.inr hvE) hp hv
      | mismatch => exact enrollmentCase hpE hvE
      | failure e => exact absurd hvE (hnofail e)
    · exact replaceCase (Or.inl hpE) hp hv

/-- C6 (amended) on a sample: the enrollment token matches and the replace token does not. -/
theorem shouldFleetEnroll_either_mismatch_witness :
    ∃ tr, shouldFleetEnroll 3 sampleEnv sampleWorld staleReplaceSetup =
        some ⟨.ret true none, sampleWorld, tr⟩ ∧ networkCalls tr = 0 :=
  (shouldFleetEnroll_either_mismatch 3 sampleEnv sampleWorld staleReplaceSetup sampleStored
    (sample_reaches_of staleReplaceSetup (by decide) (by decide) (by decide) (by decide))).2
    (by unfold BothPresent; decide) (by decide)
    (Or.inr (fun e he => by
      have hm : Verify sampleEnv sampleStored.Fleet.EnrollmentTokenHash
          staleReplaceSetup.Fleet.EnrollmentToken = .matched := by decide
      rw [hm] at he
      exact Verdict.noConfusion he))

/-- C7. With enroll true, force false and a stored record that loads and decodes: if the
request names an agent ID and the stored record has no identity or one with
another ID, `shouldFleetEnroll` returns `(true, nil)` after the load, before any
hash comparison or network call.  If the request names no agent ID, the ID check
does not decide: the result is that of the checks that follow (URL, tokens,
probe), and it is the same as for a request that names the stored agent ID. -/
theorem shouldFleetEnroll_agent_id (fuel : Nat) (env : Env) (w : World)
    (setupCfg : setupConfig) (storedConfig : Configuration)
    (hE : setupCfg.Fleet.Enroll = true) (hF : setupCfg.Fleet.Force = false)
    (hL : Loads env w storedConfig) :
    (setupCfg.Fleet.ID ≠ "" →
      (∀ info, storedConfig.Fleet.Info = some info → info.ID ≠ setupCfg.Fleet.ID) →
      shouldFleetEnroll fuel env w setupCfg = some ⟨.ret true none, w, loadTrace env⟩ ∧
        compareCalls (loadTrace env) = 0 ∧ networkCalls (loadTrace env) = 0) ∧
    (setupCfg.Fleet.ID = "" →
      shouldFleetEnroll fuel env w setupCfg =
          stepFleetHosts fuel env w setupCfg storedConfig (loadTrace env) ∧
        ∀ info, storedConfig.Fleet.Info = some info →
          shouldFleetEnroll fuel env w setupCfg =
            shouldFleetEnroll fuel env w { setupCfg with Fleet := { setupCfg.Fleet with ID := info.ID } }) := by
  constructor
  · intro hne hdiff
    refine ⟨?_, rfl, rfl⟩
    rw [shouldFleetEnroll_of_loads fuel env w setupCfg storedConfig hE hF hL]
    cases hinfo : storedConfig.Fleet.Info with
    | none => simp [hne]
    | some info => simp [hne, hdiff info hinfo]
  · intro hempty
    have hstep := shouldFleetEnroll_of_idCheckPasses fuel env w setupCfg storedConfig hE hF hL
      (Or.inl hempty)
    refine ⟨hstep, ?_⟩
    intro info hinfo
    rw [hstep, shouldFleetEnroll_of_idCheckPasses fuel env w
      { setupCfg with Fleet := { setupCfg.Fleet with ID := info.ID } } storedConfig hE hF hL
      (Or.inr (by rw [hinfo]))]
    exact (stepFleetHosts_congr_ID fuel env w setupCfg storedConfig (loadTrace env) info.ID).symm

/-- C7 on a sample: the request names `agent-2`, the record belongs to `agent-1`. -/
theorem shouldFleetEnroll_agent_id_witness :
    shouldFleetEnroll 3 sampleEnv sampleWorld otherAgentSetup =
        some ⟨.ret true none, sampleWorld, loadTrace sampleEnv⟩ ∧
      compareCalls (loadTrace sampleEnv) = 0 ∧ networkCalls (loadTrace sampleEnv) = 0 :=
  (shouldFleetEnroll_agent_id 3 sampleEnv sampleWorld otherAgentSetup sampleStored
    (by decide) (by decide) sample_loads).1 (by decide)
    (fun info hinfo => by
      have hi : info = { ID := "agent-1" } := by
        have h2 : sampleStored.Fleet.Info = some { ID := "agent-1" } := rfl
        rw [h2] at hinfo
        exact (Option.some.inj hinfo).symm
      rw [hi]
      decide)

/-- C8. With enroll true, force false, a loadable record and the ID check passing: if the
requested Fleet URL is not an element of the stored host list (in particular if
that list is empty), `shouldFleetEnroll` returns `(true, nil)` after the load,
without any hash comparison or network call. -/
theorem shouldFleetEnroll_url_absent (fuel : Nat) (env : Env) (w : World)
    (setupCfg : setupConfig) (storedConfig : Configuration)
    (hE : setupCfg.Fleet.Enroll = true) (hF : setupCfg.Fleet.Force = false)
    (hL : Loads env w storedConfig) (hID : IDCheckPasses setupCfg storedConfig)
    (hURL : setupCfg.Fleet.URL ∉ env.GetHosts storedConfig.Fleet.Client) :
    shouldFleetEnroll fuel env w setupCfg = some ⟨.ret true none, w, loadTrace env⟩ ∧
      compareCalls (loadTrace env) = 0 ∧ networkCalls (loadTrace env) = 0 := by
  refine ⟨?_, rfl, rfl⟩
  rw [shouldFleetEnroll_of_idCheckPasses fuel env w setupCfg storedConfig hE hF hL hID]
  simp [stepFleetHosts, hURL]

/-- C8 on a sample: the requested URL is not among the stored hosts. -/
theorem shouldFleetEnroll_url_absent_witness :
    shouldFleetEnroll 3 sampleEnv sampleWorld otherURLSetup =
        some ⟨.ret true none, sampleWorld, loadTrace sampleEnv⟩ ∧
      compareCalls (loadTrace sampleEnv) = 0 ∧ networkCalls (loadTrace sampleEnv) = 0 :=
  shouldFleetEnroll_url_absent 3 sampleEnv sampleWorld otherURLSetup sampleStored
    (by decide) (by decide) sample_loads (Or.inl (by decide)) (by decide)

/-- C9. With enroll true, force false and the configuration file present: if opening the
encrypted store, loading from it, or decoding the loaded bytes into a stored
configuration fails, `shouldFleetEnroll` returns `false` together with a non-nil
error (never `true`), leaves the store as it is and makes no network call. -/
theorem shouldFleetEnroll_load_failure (fuel : Nat) (env : Env) (w : World)
    (setupCfg : setupConfig)
    (hE : setupCfg.Fleet.Enroll = true) (hF : setupCfg.Fleet.Force = false)
    (hpresent : osIsNotExist env (env.statAgentConfigFile env.AgentConfigFile) = false)
    (hfail : env.newEncryptedDiskStore env.AgentConfigFile ≠ none ∨ env.storeLoad ≠ none ∨
      ∃ e, decodeStored env w = .err e) :
    ∃ err tr, shouldFleetEnroll fuel env w setupCfg = some ⟨.ret false (some err), w, tr⟩ ∧
      networkCalls tr = 0 := by
  cases hopen : env.newEncryptedDiskStore env.AgentConfigFile with
  | some e1 =>
    refine ⟨.errorf "failed to instantiate encrypted disk store" e1,
      [Event.statAgentConfigFile env.AgentConfigFile,
        Event.newEncryptedDiskStore env.AgentConfigFile], ?_, rfl⟩
    simp [shouldFleetEnroll, hE, hF, hpresent, hopen]
  | none =>
    cases hload : env.storeLoad with
    | some e2 =>
      refine ⟨.errorf "failed to load from disk store" e2, loadTrace env, ?_, rfl⟩
      simp [shouldFleetEnroll, hE, hF, hpresent, hopen, hload, loadTrace]
    | none =>
      have hdec : ∃ e, decodeStored env w = .err e := by
        rcases hfail with h | h | h
        · exact absurd hopen h
        · exact absurd hload h
        · exact h
      obtain ⟨e3, he3⟩ := hdec
      unfold decodeStored at he3
      cases hraw : env.NewConfigFrom w.disk with
      | err e4 =>
        refine ⟨.errorf "failed to read from disk store" e4, loadTrace env, ?_, rfl⟩
        simp [shouldFleetEnroll, hE, hF, hpresent, hopen, hload, hraw, loadTrace]
      | ok cfg =>
        simp only [hraw] at he3
        refine ⟨.errorf "failed to read from disk store" e3, loadTrace env, ?_, rfl⟩
        simp [shouldFleetEnroll, hE, hF, hpresent, hopen, hload, hraw, he3, loadTrace]

/-- C9 on a sample: the content of the store does not decode. -/
theorem shouldFleetEnroll_load_failure_witness :
    ∃ err tr, shouldFleetEnroll 3 sampleEnv corruptWorld sampleSetup =
        some ⟨.ret false (some err), corruptWorld, tr⟩ ∧ networkCalls tr = 0 :=
  shouldFleetEnroll_load_failure 3 sampleEnv corruptWorld sampleSetup (by decide) (by decide)
    (by decide) (Or.inr (Or.inr ⟨.new "missing field accessing fleet", by decide⟩))

/-- C10. For each of the two tokens, when the stored hash and the requested token are both
present and the check is reached, a failure of the verification that is not a
mismatch (the stored hash does not decode as base64, or the comparison returns an
error other than the mismatch error) makes `shouldFleetEnroll` return `false` with
a non-nil error that wraps the failure; no network call is made. -/
theorem shouldFleetEnroll_verification_failure (fuel : Nat) (env : Env) (w : World)
    (setupCfg : setupConfig) (storedConfig : Configuration) (e : GoError)
    (h : ReachesTokenChecks env w setupCfg storedConfig) :
    (BothPresent storedConfig.Fleet.EnrollmentTokenHash setupCfg.Fleet.EnrollmentToken →
      Verify env storedConfig.Fleet.EnrollmentTokenHash setupCfg.Fleet.EnrollmentToken
        = .failure e →
      ∃ err tr, shouldFleetEnroll fuel env w setupCfg = some ⟨.ret false (some err), w, tr⟩ ∧
        errorsIs err e = true ∧ networkCalls tr = 0) ∧
    (TokenCheckPasses env storedConfig.Fleet.EnrollmentTokenHash
        setupCfg.Fleet.EnrollmentToken →
      BothPresent storedConfig.Fleet.ReplaceTokenHash setupCfg.Fleet.ReplaceToken →
      Verify env storedConfig.Fleet.ReplaceTokenHash setupCfg.Fleet.ReplaceToken
        = .failure e →
      ∃ err tr, shouldFleetEnroll fuel env w setupCfg = some ⟨.ret false (some err), w, tr⟩ ∧
        errorsIs err e = true ∧ networkCalls tr = 0) := by
  rw [shouldFleetEnroll_of_reaches fuel env w setupCfg storedConfig h]
  constructor
  · intro hp hv
    obtain ⟨err, tr1, hr, hw, hn⟩ :=
      stepEnrollmentTokenCheck_failure fuel env w setupCfg storedConfig (loadTrace env) e hp hv
    exact ⟨err, tr1, hr, hw, by rw [hn]; rfl⟩
  · intro hpass hp hv
    rw [stepEnrollmentTokenCheck_of_passes fuel env w setupCfg storedConfig _ hpass]
    obtain ⟨err, tr1, hr, hw, hn⟩ :=
      stepReplaceTokenCheck_failure fuel env w setupCfg storedConfig
        (loadTrace env ++ compareTrace env storedConfig.Fleet.EnrollmentTokenHash
          setupCfg.Fleet.EnrollmentToken) e hp hv
    refine ⟨err, tr1, hr, hw, ?_⟩
    rw [hn, networkCalls_append, networkCalls_compareTrace, networkCalls_loadTrace]

/-- C10 on a sample: the stored enrollment token hash is not valid base64. -/
theorem shouldFleetEnroll_verification_failure_witness :
    ∃ err tr, shouldFleetEnroll 3 brokenHashEnv sampleWorld sampleSetup =
        some ⟨.ret false (some err), sampleWorld, tr⟩ ∧
      errorsIs err (.new "illegal base64 data") = true ∧ networkCalls tr = 0 :=
  (shouldFleetEnroll_verification_failure 3 brokenHashEnv sampleWorld sampleSetup
    brokenHashStored (.new "illegal base64 data")
    (brokenHash_reaches sampleSetup (by decide) (by decide) (by decide) (by decide))).1
    (by unfold BothPresent; decide) (by decide)

/-- C11. When no local check decides, the probe is reached, and all three acknowledge
attempts fail with errors that are not the invalid API key error, then
`shouldFleetEnroll` returns `false` with a non-nil error that wraps the error of the
third attempt; three requests are sent and the store is left as it is. -/
theorem shouldFleetEnroll_probe_fails (fuel : Nat) (env : Env) (w : World)
    (setupCfg : setupConfig) (storedConfig : Configuration) (info : AgentInfo)
    (e1 e2 e3 : GoError) (hfuel : 3 ≤ fuel)
    (hlocal : LocalChecksPass env w setupCfg storedConfig)
    (hclient : ClientBuilt env storedConfig info)
    (h1 : env.ackExecute info.ID 1 = some e1 ∧ errorsIs e1 ErrInvalidAPIKey = false)
    (h2 : env.ackExecute info.ID 2 = some e2 ∧ errorsIs e2 ErrInvalidAPIKey = false)
    (h3 : env.ackExecute info.ID 3 = some e3 ∧ errorsIs e3 ErrInvalidAPIKey = false) :
    shouldFleetEnroll fuel env w setupCfg =
        some ⟨.ret false (some (.errorf "failed to validate api token" e3)), w,
          probeTrace env setupCfg storedConfig info.ID 3⟩ ∧
      errorsIs (.errorf "failed to validate api token" e3) e3 = true ∧
      ackCalls (probeTrace env setupCfg storedConfig info.ID 3) = 3 := by
  refine ⟨?_, errorsIs_errorf _ _, ?_⟩
  · obtain ⟨k, rfl⟩ : ∃ k, fuel = k + 3 := ⟨fuel - 3, by omega⟩
    rw [shouldFleetEnroll_of_localChecksPass _ env w setupCfg storedConfig hlocal,
      stepValidateAPIToken_of_clientBuilt _ env w setupCfg storedConfig info _ hclient,
      ackFleet_eq]
    simp [h1.1, h1.2, h2.1, h2.2, h3.1, h3.2, probeTrace]
  · have hc : ackCalls [Event.newFleetClient storedConfig.Fleet.AccessAPIKey
        storedConfig.Fleet.Client] = 0 := rfl
    rw [probeTrace, ackCalls_append, ackCalls_append, ackCalls_localTrace, ackCalls_ackTrace, hc]

/-- C11 on a sample: the Fleet server cannot be reached on any of the three attempts. -/
theorem shouldFleetEnroll_probe_fails_witness :
    shouldFleetEnroll 3 unreachableEnv sampleWorld sampleSetup =
        some ⟨.ret false (some (.errorf "failed to validate api token"
            (.new "connection refused"))), sampleWorld,
          probeTrace unreachableEnv sampleSetup sampleStored "agent-1" 3⟩ ∧
      errorsIs (.errorf "failed to validate api token" (.new "connection refused"))
        (.new "connection refused") = true ∧
      ackCalls (probeTrace unreachableEnv sampleSetup sampleStored "agent-1" 3) = 3 :=
  shouldFleetEnroll_probe_fails 3 unreachableEnv sampleWorld sampleSetup sampleStored
    { ID := "agent-1" } (.new "connection refused") (.new "connection refused")
    (.new "connection refused") (by decide) unreachable_localChecksPass
    ⟨by decide, by decide, by decide⟩ ⟨by decide, by decide⟩ ⟨by decide, by decide⟩
    ⟨by decide, by decide⟩

/-- C12. For every behaviour of the acknowledge command (any mix of success, invalid API
key error and other errors over the attempts), `ackFleet` finishes as soon as the
retry loop may run three iterations: it returns after `n` executions of the command
for some `n` with `1 ≤ n ≤ 3`, so the command is executed at most three times. -/
theorem ackFleet_terminates (fuel : Nat) (env : Env) (agentID : String) (tr : List Event)
    (hfuel : 3 ≤ fuel) :
    ∃ err n, ackFleet fuel env agentID tr = some (err, tr ++ ackTrace agentID n) ∧
      1 ≤ n ∧ n ≤ 3 ∧ ackCalls (ackTrace agentID n) = n := by
  obtain ⟨k, rfl⟩ : ∃ k, fuel = k + 3 := ⟨fuel - 3, by omega⟩
  obtain ⟨err, n, h, h1, h3⟩ := ackFleet_total k env agentID tr
  exact ⟨err, n, h, h1, h3, ackCalls_ackTrace agentID n⟩

/-- C12 on a sample: a server that never answers is given up after the third attempt, however
much the loop would be allowed to run. -/
theorem ackFleet_terminates_witness :
    ∃ err n, ackFleet 1000 unreachableEnv "agent-1" [] = some (err, [] ++ ackTrace "agent-1" n) ∧
      1 ≤ n ∧ n ≤ 3 ∧ ackCalls (ackTrace "agent-1" n) = n :=
  ackFleet_terminates 1000 unreachableEnv "agent-1" [] (by decide)

/-- C13. No Fleet client is built and no acknowledge request is sent unless every local
check has passed.  Whenever one of them decides or fails (enroll false, force
true, file absent, record not loaded or decoded, ID or URL check deciding, a token
comparison mismatching or failing), `shouldFleetEnroll` returns with zero network
calls; and in a run with a network call all local checks passed and all their
calls, none of them a network call, come first in the trace. -/
theorem shouldFleetEnroll_network_after_local_checks (fuel : Nat) (env : Env) (w : World)
    (setupCfg : setupConfig) :
    ((¬ ∃ storedConfig, LocalChecksPass env w setupCfg storedConfig) →
      ∃ run, shouldFleetEnroll fuel env w setupCfg = some run ∧ networkCalls run.trace = 0) ∧
    (∀ run, shouldFleetEnroll fuel env w setupCfg = some run → 0 < networkCalls run.trace →
      ∃ storedConfig, LocalChecksPass env w setupCfg storedConfig ∧
        networkCalls (localTrace env setupCfg storedConfig) = 0 ∧
        ∃ rest, run.trace = localTrace env setupCfg storedConfig ++ rest) := by
  constructor
  · intro h
    obtain ⟨run, hr, _, hn⟩ := shouldFleetEnroll_decided_locally fuel env w setupCfg h
    exact ⟨run, hr, hn⟩
  · intro run hrun hpos
    by_cases h : ∃ storedConfig, LocalChecksPass env w setupCfg storedConfig
    · obtain ⟨storedConfig, hlocal⟩ := h
      refine ⟨storedConfig, hlocal, networkCalls_localTrace env setupCfg storedConfig, ?_⟩
      rw [shouldFleetEnroll_of_localChecksPass fuel env w setupCfg storedConfig hlocal] at hrun
      exact stepValidateAPIToken_trace fuel env w setupCfg storedConfig _ run hrun
    · obtain ⟨run2, hr, _, hn⟩ := shouldFleetEnroll_decided_locally fuel env w setupCfg h
      rw [hrun] at hr
      have heq : run = run2 := Option.some.inj hr
      rw [heq, hn] at hpos
      exact absurd hpos (by omega)

/-- C15. On the success path (no local check decides, the probe is reached and succeeds):
when a hash was backfilled and writing the marshalled record to the store fails,
`shouldFleetEnroll` returns `false` with a non-nil error that wraps the write
error and leaves the store content as it was; when no hash was to be backfilled
it returns `(false, nil)` and its trace holds no write to the store. -/
theorem shouldFleetEnroll_store_failure (fuel : Nat) (env : Env) (w : World)
    (setupCfg : setupConfig) (storedConfig : Configuration) (info : AgentInfo) (n : Nat)
    (hfuel : 3 ≤ fuel)
    (hlocal : LocalChecksPass env w setupCfg storedConfig)
    (hclient : ClientBuilt env storedConfig info)
    (hprobe : ProbeSucceedsAt env info.ID n) :
    (∀ data e, savesConfig setupCfg storedConfig = true →
      GenerationSucceeds env storedConfig.Fleet.EnrollmentTokenHash
        setupCfg.Fleet.EnrollmentToken →
      GenerationSucceeds env storedConfig.Fleet.ReplaceTokenHash setupCfg.Fleet.ReplaceToken →
      env.yamlMarshal (backfilledRecord env setupCfg storedConfig) = .ok data →
      env.SafelyStoreAgentInfo data = some e →
      shouldFleetEnroll fuel env w setupCfg =
        some ⟨.ret false (some (.errorf "failed to store agent config" e)), w,
          backfillTrace env setupCfg storedConfig info.ID n ++ [Event.storeSave data]⟩) ∧
    (savesConfig setupCfg storedConfig = false →
      shouldFleetEnroll fuel env w setupCfg =
          some ⟨.ret false none, w, backfillTrace env setupCfg storedConfig info.ID n⟩ ∧
        saveCalls (backfillTrace env setupCfg storedConfig info.ID n) = 0) := by
  obtain ⟨k, rfl⟩ : ∃ k, fuel = k + 3 := ⟨fuel - 3, by omega⟩
  constructor
  · intro data e hsave hgenE hgenR hmarshal hstore
    rw [shouldFleetEnroll_of_probeSucceedsAt k env w setupCfg storedConfig info n hlocal
      hclient hprobe hgenE hgenR]
    simp [stepSaveConfig, hsave, hmarshal, hstore]
  · intro hsave
    refine ⟨?_, saveCalls_backfillTrace env setupCfg storedConfig info.ID n⟩
    have hsave2 := hsave
    simp only [savesConfig, Bool.or_eq_false_iff] at hsave2
    rw [shouldFleetEnroll_of_probeSucceedsAt k env w setupCfg storedConfig info n hlocal
      hclient hprobe (generationSucceeds_of_not_needed env _ _ hsave2.1)
      (generationSucceeds_of_not_needed env _ _ hsave2.2)]
    simp [stepSaveConfig, hsave]

/-- C15 on a sample: both hashes of an upgraded agent are generated, the store is read-only. -/
theorem shouldFleetEnroll_store_failure_witness :
    shouldFleetEnroll 3 readOnlyEnv legacyWorld sampleSetup =
      some ⟨.ret false (some (.errorf "failed to store agent config"
          (.new "read-only file system"))), legacyWorld,
        backfillTrace readOnlyEnv sampleSetup legacyStored "agent-1" 1
          ++ [Event.storeSave "fleet: agent-1"]⟩ :=
  (shouldFleetEnroll_store_failure 3 readOnlyEnv legacyWorld sampleSetup legacyStored
    { ID := "agent-1" } 1 (by decide) readOnly_localChecksPass
    ⟨by decide, by decide, by decide⟩ (probeSucceedsAt_one _ _ (by decide))).1
    "fleet: agent-1" (.new "read-only file system") (by decide)
    (generationSucceeds_of_ok _ _ _ [1] (by decide))
    (generationSucceeds_of_ok _ _ _ [2] (by decide)) (by decide) (by decide)

/-- C16. Idempotence.  For every setup configuration and every initial store content, with
the same environment for both calls (so the remote service answers the probe the
same way and only `shouldFleetEnroll` changes the store), with a store that returns
the backfilled record it was given, and with a hash library whose freshly
generated hash of a token verifies against that token: if two successive calls
with the same inputs both return without error, they return the same boolean,
also when the first call backfilled a token hash. -/
theorem shouldFleetEnroll_idempotent (fuel : Nat) (env : Env) (w : World)
    (setupCfg : setupConfig) (b1 b2 : Bool) (w1 w2 : World) (tr1 tr2 : List Event)
    (hfaithful : StoreFaithful env w setupCfg)
    (hfreshE : FreshHashVerifies env setupCfg.Fleet.EnrollmentToken)
    (hfreshR : FreshHashVerifies env setupCfg.Fleet.ReplaceToken)
    (h1 : shouldFleetEnroll fuel env w setupCfg = some ⟨.ret b1 none, w1, tr1⟩)
    (h2 : shouldFleetEnroll fuel env w1 setupCfg = some ⟨.ret b2 none, w2, tr2⟩) :
    b1 = b2 := by
  by_cases hw : w1 = w
  · subst hw
    rw [h1] at h2
    simp only [Option.some.injEq, Run.mk.injEq, Outcome.ret.injEq] at h2
    exact h2.1.1
  · by_cases hloc : ∃ storedConfig, LocalChecksPass env w setupCfg storedConfig
    · obtain ⟨storedConfig, hlocal⟩ := hloc
      rw [shouldFleetEnroll_of_localChecksPass fuel env w setupCfg storedConfig hlocal] at h1
      rcases stepValidateAPIToken_world fuel env w setupCfg storedConfig _ _ h1 with
        hw1 | ⟨info, rest, data, hclient, hack, hm, hw1, e, hout⟩
      · exact absurd hw1 hw
      · simp only [Outcome.ret.injEq] at hout
        simp only [] at hw1
        subst hw1
        have hdec := hfaithful storedConfig data hlocal.reaches.loads.decoded hm
        have hlocal2 := localChecksPass_backfilled env w setupCfg storedConfig data hlocal hdec
          hfreshE hfreshR
        rw [shouldFleetEnroll_of_localChecksPass fuel env _ setupCfg _ hlocal2,
          stepValidateAPIToken_of_ack_ok fuel env _ setupCfg _ info _ rest
            (clientBuilt_backfilled env setupCfg storedConfig info hclient) hack] at h2
        obtain ⟨e2, hout2⟩ := stepEnrollmentHashUpdate_outcome env { disk := data } setupCfg
          (backfilledRecord env setupCfg storedConfig)
          (localTrace env setupCfg (backfilledRecord env setupCfg storedConfig) ++
            [Event.newFleetClient (backfilledRecord env setupCfg storedConfig).Fleet.AccessAPIKey
              (backfilledRecord env setupCfg storedConfig).Fleet.Client] ++ rest)
        rw [Option.some.inj h2] at hout2
        simp only [Outcome.ret.injEq] at hout2
        rw [hout.1, hout2.1]
    · obtain ⟨run, hr, hwr, _⟩ := shouldFleetEnroll_decided_locally fuel env w setupCfg hloc
      rw [h1] at hr
      rw [← Option.some.inj hr] at hwr
      exact absurd hwr hw

/-- C16 on a sample: the first call backfills both hashes of an upgraded agent, the second
call verifies the tokens against them; both return `false`. -/
theorem shouldFleetEnroll_idempotent_witness :
    shouldFleetEnroll 3 legacyEnv legacyWorld sampleSetup =
        some ⟨.ret false none, sampleWorld,
          backfillTrace legacyEnv sampleSetup legacyStored "agent-1" 1
            ++ [Event.storeSave "fleet: agent-1"]⟩ ∧
      shouldFleetEnroll 3 legacyEnv sampleWorld sampleSetup =
        some ⟨.ret false none, sampleWorld,
          probeTrace legacyEnv sampleSetup sampleStored "agent-1" 1⟩ ∧
      false = false :=
  ⟨by decide, by decide,
    shouldFleetEnroll_idempotent 3 legacyEnv legacyWorld sampleSetup false false sampleWorld
      sampleWorld
      (backfillTrace legacyEnv sampleSetup legacyStored "agent-1" 1
        ++ [Event.storeSave "fleet: agent-1"])
      (probeTrace legacyEnv sampleSetup sampleStored "agent-1" 1)
      legacy_storeFaithful legacy_freshHashesLawful.verifiesEnrollment
      legacy_freshHashesLawful.verifiesReplace (by decide) (by decide)⟩

/-- C13 on a sample: the requested URL is unknown to the record, so the URL check decides and
nothing is sent. -/
theorem shouldFleetEnroll_network_after_local_checks_witness :
    ∃ run, shouldFleetEnroll 3 sampleEnv sampleWorld otherURLSetup = some run ∧
      networkCalls run.trace = 0 :=
  (shouldFleetEnroll_network_after_local_checks 3 sampleEnv sampleWorld otherURLSetup).1
    (fun ⟨storedConfig, h⟩ => by
      have hd : decodeStored sampleEnv sampleWorld = .ok sampleStored := by decide
      have hs : sampleStored = storedConfig :=
        Result.ok.inj (hd.symm.trans h.reaches.loads.decoded)
      subst hs
      have hu := h.reaches.url
      unfold URLCheckPasses at hu
      revert hu
      decide)

/-- C17. For every request and every wrapped transport: when the wrapped transport returns a
response with status 401 (and no error) for the request handed on,
`FleetAuthRoundTripper.RoundTrip` closes the body of that response and returns no
response together with `ErrInvalidAPIKey`; the caller does not get the 401
response. -/
theorem FleetAuthRoundTripper_unauthorized (r : FleetAuthRoundTripper) (req : Request)
    (resp : Response) (events : List TransportEvent)
    (h : r.rt (withAuthorization r.apiKey req) = .ret (some resp) none events)
    (h401 : resp.StatusCode = StatusUnauthorized) :
    r.RoundTrip req = .ret none (some ErrInvalidAPIKey) (events ++ [.bodyClose resp]) := by
  rw [FleetAuthRoundTripper_eq, h]
  simp [h401]

/-- C17 on a sample: the server rejects the key `revoked-key` with a 401. -/
theorem FleetAuthRoundTripper_unauthorized_witness :
    FleetAuthRoundTripper.RoundTrip { rt := wire sampleServer, apiKey := "revoked-key" }
        sampleRequest =
      .ret none (some ErrInvalidAPIKey)
        ([.roundTrip (withAuthorization "revoked-key" sampleRequest)]
          ++ [.bodyClose { StatusCode := 401, Body := "unauthorized" }]) :=
  FleetAuthRoundTripper_unauthorized { rt := wire sampleServer, apiKey := "revoked-key" }
    sampleRequest { StatusCode := 401, Body := "unauthorized" }
    [.roundTrip (withAuthorization "revoked-key" sampleRequest)]
    (by simp [wire, sampleServer, withAuthorization, Header.Set]) rfl

/-- C18. For every request passed to `FleetAuthRoundTripper.RoundTrip`, the request handed to
the wrapped transport has under `Authorization` exactly the one value `ApiKey `
followed by the configured key, whatever was there before, and every other header
as it was; a transport that puts requests on the wire sends that request.  When
the wrapped transport returns a response whose status is not 401 the decorator
returns that response and no error; when it returns an error the decorator returns
no response and that error. -/
theorem FleetAuthRoundTripper_forwards (r : FleetAuthRoundTripper) (req : Request) :
    (withAuthorization r.apiKey req).Header "Authorization" = some ["ApiKey " ++ r.apiKey] ∧
    (∀ k, k ≠ "Authorization" → (withAuthorization r.apiKey req).Header k = req.Header k) ∧
    (∀ server, ∃ closed,
      (FleetAuthRoundTripper.RoundTrip { rt := wire server, apiKey := r.apiKey } req).events =
        .roundTrip (withAuthorization r.apiKey req) :: closed) ∧
    (∀ resp events, r.rt (withAuthorization r.apiKey req) = .ret (some resp) none events →
      resp.StatusCode ≠ StatusUnauthorized →
      r.RoundTrip req = .ret (some resp) none events) ∧
    (∀ resp err events, r.rt (withAuthorization r.apiKey req) = .ret resp (some err) events →
      r.RoundTrip req = .ret none (some err) events) := by
  refine ⟨by simp [withAuthorization, Header.Set],
    fun k hk => by simp [withAuthorization, Header.Set, hk],
    fun server => FleetAuthRoundTripper_wire_events server r.apiKey req, ?_, ?_⟩
  · intro resp events h hne
    rw [FleetAuthRoundTripper_eq, h]
    simp [hne]
  · intro resp err events h
    rw [FleetAuthRoundTripper_eq, h]
    cases resp <;> rfl

/-- C18 on a sample: the stale `Authorization` value of the request is replaced and the
server's 200 response is returned as it is. -/
theorem FleetAuthRoundTripper_forwards_witness :
    (withAuthorization "access-key" sampleRequest).Header "Authorization" =
        some ["ApiKey access-key"] ∧
      FleetAuthRoundTripper.RoundTrip { rt := wire sampleServer, apiKey := "access-key" }
          sampleRequest =
        .ret (some { StatusCode := 200, Body := "acked" }) none
          [.roundTrip (withAuthorization "access-key" sampleRequest)] :=
  ⟨(FleetAuthRoundTripper_forwards { rt := wire sampleServer, apiKey := "access-key" }
      sampleRequest).1,
    (FleetAuthRoundTripper_forwards { rt := wire sampleServer, apiKey := "access-key" }
      sampleRequest).2.2.2.1 { StatusCode := 200, Body := "acked" }
      [.roundTrip (withAuthorization "access-key" sampleRequest)]
      (by simp [wire, sampleServer, withAuthorization, Header.Set])
      (by decide)⟩

/-- C19. The auth decorator and the API-version decorator compose in any order: for every
inner transport, API key, version and request, both orders hand the inner
transport the same request, with `Authorization` set to `ApiKey <key>` and
`Elastic-Api-Version` set to the version, and return the same result to the
caller.  That result is the inner transport's own result when it is a response
with a status other than 401 or an error, and `ErrInvalidAPIKey` with the body
closed when it is a 401 response. -/
theorem decorators_compose_in_any_order (inner : RoundTripper) (apiKey version : String)
    (req : Request) :
    authOverVersion inner apiKey version req = versionOverAuth inner apiKey version req ∧
    (withBothHeaders apiKey version req).Header "Authorization" = some ["ApiKey " ++ apiKey] ∧
    (withBothHeaders apiKey version req).Header "Elastic-Api-Version" = some [version] ∧
    (∀ server, ∃ closed,
      (authOverVersion (wire server) apiKey version req).events =
          .roundTrip (withBothHeaders apiKey version req) :: closed ∧
        (versionOverAuth (wire server) apiKey version req).events =
          .roundTrip (withBothHeaders apiKey version req) :: closed) ∧
    (∀ resp events, inner (withBothHeaders apiKey version req) = .ret (some resp) none events →
      resp.StatusCode ≠ StatusUnauthorized →
      authOverVersion inner apiKey version req = .ret (some resp) none events) ∧
    (∀ err events, inner (withBothHeaders apiKey version req) = .ret none (some err) events →
      authOverVersion inner apiKey version req = .ret none (some err) events) ∧
    (∀ resp events, inner (withBothHeaders apiKey version req) = .ret (some resp) none events →
      resp.StatusCode = StatusUnauthorized →
      authOverVersion inner apiKey version req =
        .ret none (some ErrInvalidAPIKey) (events ++ [.bodyClose resp])) := by
  have hcomm : authOverVersion inner apiKey version req =
      versionOverAuth inner apiKey version req := by
    rw [authOverVersion_eq]
    rfl
  have hform : ∀ rt : RoundTripper, authOverVersion rt apiKey version req =
      match rt (withBothHeaders apiKey version req) with
      | .nilPointerDereference events => .nilPointerDereference events
      | .ret _ (some err) events => .ret none (some err) events
      | .ret none none events => .nilPointerDereference events
      | .ret (some resp) none events =>
        if resp.StatusCode == StatusUnauthorized then
          .ret none (some ErrInvalidAPIKey) (events ++ [.bodyClose resp])
        else
          .ret (some resp) none events := by
    intro rt
    rw [authOverVersion_eq, FleetAuthRoundTripper_eq]
    simp only []
    rw [withAuthorization_version]
  refine ⟨hcomm, ?_, ?_, ?_, ?_, ?_, ?_⟩
  · simp [withBothHeaders, Header.Set]
  · simp [withBothHeaders, Header.Set]
  · intro server
    have hsame : versionOverAuth (wire server) apiKey version req =
        authOverVersion (wire server) apiKey version req := by
      rw [authOverVersion_eq]
      rfl
    rw [hsame, authOverVersion_eq]
    obtain ⟨closed, hc⟩ := FleetAuthRoundTripper_wire_events server apiKey
      { req with Header := req.Header.Set elasticApiVersionHeaderKey version }
    rw [withAuthorization_version] at hc
    exact ⟨closed, hc, hc⟩
  · intro resp events h hne
    rw [hform, h]
    simp [hne]
  · intro err events h
    rw [hform, h]
  · intro resp events h h401
    rw [hform, h]
    simp [h401]

/-- C19 on a sample: in both orders the server gets the key and the version and its 200
response comes back. -/
theorem decorators_compose_in_any_order_witness :
    authOverVersion (wire sampleServer) "access-key" "2023-06-01" sampleRequest =
        versionOverAuth (wire sampleServer) "access-key" "2023-06-01" sampleRequest ∧
      authOverVersion (wire sampleServer) "access-key" "2023-06-01" sampleRequest =
        .ret (some { StatusCode := 200, Body := "acked" }) none
          [.roundTrip (withBothHeaders "access-key" "2023-06-01" sampleRequest)] :=
  ⟨(decorators_compose_in_any_order (wire sampleServer) "access-key" "2023-06-01"
      sampleRequest).1,
    (decorators_compose_in_any_order (wire sampleServer) "access-key" "2023-06-01"
      sampleRequest).2.2.2.2.1 { StatusCode := 200, Body := "acked" }
      [.roundTrip (withBothHeaders "access-key" "2023-06-01" sampleRequest)]
      (by simp [wire, sampleServer, withBothHeaders, Header.Set])
      (by decide)⟩

/-- C20 does not hold of the code.  With enrollment required (enroll and force set), Fleet
Server bootstrapping enabled and no enrollment token configured, `runContainerCmd`
makes no policy lookup and no enrollment key lookup in Kibana: the arguments of
the enroll command are built from the empty token, and the command is started
without an enrollment token. -/
theorem runContainerCmd_fleet_server_token_not_fetched :
    fleetServerSetup.FleetServer.Enable = true ∧
    fleetServerSetup.Fleet.EnrollmentToken = "" ∧
    shouldFleetEnroll 3 sampleEnv sampleWorld fleetServerSetup =
      some ⟨.ret true none, sampleWorld, []⟩ ∧
    runContainerCmd 3 sampleContainerEnv sampleEnv sampleWorld fleetServerSetup =
      some ⟨.ret none, sampleWorld,
        [ContainerEvent.shouldFleetEnroll [],
          ContainerEvent.logInfo ["Policy selected for enrollment: ", "fleet-server-policy"],
          ContainerEvent.buildEnrollArgs "" "fleet-server-policy",
          ContainerEvent.enrollStart "elastic-agent" ["enroll", "-f"],
          ContainerEvent.enrollWait,
          ContainerEvent.run]⟩ := by
  decide

/-- C21. For every setup configuration and policy list, `findPolicy` returns the first policy in
list order that satisfies the one active criterion (`policyCriterion`: the Fleet
Server policy ID when Fleet Server is enabled and the ID is non-empty, otherwise
the token policy name when it is non-empty, otherwise the default Fleet Server
flag when Fleet Server is enabled, otherwise the default flag), and it returns an
error exactly when no policy of the list satisfies that criterion. -/
theorem findPolicy_first_match (cfg : setupConfig) (policies : List kibanaPolicy) :
    (∀ policy, findPolicy cfg policies = .ok policy ↔
      IsFirstWith (policyCriterion cfg) policies policy) ∧
    ((∃ e, findPolicy cfg policies = .err e) ↔
      ∀ policy ∈ policies, policyCriterion cfg policy = false) := by
  have hloop := findPolicyLoop_eq_find? cfg policies
  constructor
  · intro policy
    rw [← find?_eq_some_iff_isFirstWith, ← hloop]
    simp only [findPolicy]
    cases findPolicyLoop cfg (if cfg.FleetServer.Enable then cfg.FleetServer.PolicyID else "")
        cfg.Fleet.TokenPolicyName policies with
    | none => simp
    | some p => simp
  · rw [← find?_eq_none_iff_all_false, ← hloop]
    simp only [findPolicy]
    cases findPolicyLoop cfg (if cfg.FleetServer.Enable then cfg.FleetServer.PolicyID else "")
        cfg.Fleet.TokenPolicyName policies with
    | none => simp
    | some p => simp

/-- C21 on a sample: two policies carry the requested name, the first of them is returned. -/
theorem findPolicy_first_match_witness :
    findPolicy { Fleet := { TokenPolicyName := "Agent policy" } } samplePolicies =
      .ok { ID := "policy-1", Name := "Agent policy", IsDefault := true } :=
  ((findPolicy_first_match { Fleet := { TokenPolicyName := "Agent policy" } }
      samplePolicies).1 { ID := "policy-1", Name := "Agent policy", IsDefault := true }).mpr
    ⟨[], [{ ID := "policy-2", Name := "Fleet Server policy", IsDefaultFleetServer := true },
        { ID := "policy-3", Name := "Agent policy" }], rfl, by decide,
      fun y hy => absurd hy (List.not_mem_nil y)⟩

/-- C22. `findKey` lets a token be referenced by name without its generated UUID. For every
key list, policy and token name it returns the first key, in list order, whose policy ID
is the given policy's ID and whose name, after one trailing UUID suffix is removed and the
surrounding white space trimmed, is the token name; it returns an error exactly when the
list has no such key; a key it returns is never scoped to another policy. The suffix that
is removed is one white space character (the expression's `\s`: tab, line feed, form
feed, carriage return or space) followed by a UUID of 8-4-4-4-12 hexadecimal digits
(`0-9`, `a-f`, `A-F`) in parentheses: a name of that form loses exactly the suffix, every
other name is left as it is. Trimming leaves the one text that the name is, between two
runs of Unicode white space, and that neither starts nor ends with white space. -/
theorem findKey_first_match (keys : List kibanaAPIKey) (policy : kibanaPolicy)
    (tokenName : String) :
    (∀ key, findKey keys policy tokenName = .ok key ↔
      IsFirstWith (keyMatches policy tokenName) keys key) ∧
    ((∃ e, findKey keys policy tokenName = .err e) ↔
      ∀ key ∈ keys, keyMatches policy tokenName key = false) ∧
    (∀ key, findKey keys policy tokenName = .ok key → key.PolicyID = policy.ID) ∧
    (∀ key, keyMatches policy tokenName key = true ↔
      IsTrimOf (tokenNameStripReplaceAll key.Name).data tokenName.data ∧
        key.PolicyID = policy.ID) ∧
    (∀ (name : String) (base : List Char), HasUUIDSuffix name.data base →
      tokenNameStripReplaceAll name = ⟨base⟩) ∧
    (∀ name : String, (¬ ∃ base, HasUUIDSuffix name.data base) →
      tokenNameStripReplaceAll name = name) ∧
    (∀ c : Char, isRegexSpace c = true ↔ c.toNat ∈ regexSpaceCodes) ∧
    (∀ c : Char, isHexDigit c = true ↔ c.toNat ∈ hexDigitCodes) := by
  have hok : ∀ key, findKey keys policy tokenName = .ok key ↔
      keys.find? (keyMatches policy tokenName) = some key := by
    intro key
    unfold findKey
    rw [findKeyLoop_eq_find?]
    cases keys.find? (keyMatches policy tokenName) <;> simp
  have hm : ∀ key, keyMatches policy tokenName key = true ↔
      IsTrimOf (tokenNameStripReplaceAll key.Name).data tokenName.data ∧
        key.PolicyID = policy.ID := by
    intro key
    have hcode : keyMatches policy tokenName key = true ↔
        stringsTrimSpace (tokenNameStripReplaceAll key.Name) = tokenName ∧
          key.PolicyID = policy.ID := by
      simp [keyMatches, tokenNameOf]
    rw [hcode]
    constructor
    · rintro ⟨h1, h2⟩
      refine ⟨?_, h2⟩
      have ht := isTrimOf_stringsTrimSpace (tokenNameStripReplaceAll key.Name)
      rw [h1] at ht
      exact ht
    · rintro ⟨h1, h2⟩
      exact ⟨stringsTrimSpace_of_isTrimOf _ _ h1, h2⟩
  refine ⟨fun key => (hok key).trans (find?_eq_some_iff_isFirstWith _ _ _), ?_, ?_, hm,
    tokenNameStripReplaceAll_of_suffix, tokenNameStripReplaceAll_of_no_suffix,
    isRegexSpace_iff, isHexDigit_iff⟩
  · rw [← find?_eq_none_iff_all_false]
    unfold findKey
    rw [findKeyLoop_eq_find?]
    cases keys.find? (keyMatches policy tokenName) <;> simp
  · intro key h
    obtain ⟨_, _, _, hc, _⟩ := (find?_eq_some_iff_isFirstWith _ _ _).mp ((hok key).mp h)
    exact ((hm key).mp hc).2

/-- C22, on sample keys: asked for `Default` in `policy-1`, `findKey` passes a key of that policy
whose suffix is not a UUID and an equally named key of another policy, and returns the
key whose name is `Default` between white space, followed by a UUID. -/
theorem findKey_first_match_witness :
    findKey sampleKeys { ID := "policy-1" } "Default" = .ok
      { ID := "key-2", Name := " Default  (0f1e2d3c-4b5a-6978-8796-a5b4c3d2e1f0)",
        PolicyID := "policy-1", APIKey := "secret-2" } ∧
    tokenNameStripReplaceAll " Default  (0f1e2d3c-4b5a-6978-8796-a5b4c3d2e1f0)" =
      " Default " ∧
    stringsTrimSpace " Default " = "Default" ∧
    tokenNameStripReplaceAll "Default (6c4ba6e9-5a9b-4c0e-8f6d-0a1b2c3d4e5g)" =
      "Default (6c4ba6e9-5a9b-4c0e-8f6d-0a1b2c3d4e5g)" :=
  ⟨((findKey_first_match sampleKeys { ID := "policy-1" } "Default").1
      { ID := "key-2", Name := " Default  (0f1e2d3c-4b5a-6978-8796-a5b4c3d2e1f0)",
        PolicyID := "policy-1", APIKey := "secret-2" }).mpr
    ⟨[{ ID := "key-0", Name := "Default (6c4ba6e9-5a9b-4c0e-8f6d-0a1b2c3d4e5g)",
        PolicyID := "policy-1", APIKey := "secret-0" },
      { ID := "key-1", Name := "Default (6c4ba6e9-5a9b-4c0e-8f6d-0a1b2c3d4e5f)",
        PolicyID := "policy-2", APIKey := "secret-1" }],
      [{ ID := "key-3", Name := "Default", PolicyID := "policy-1", APIKey := "secret-3" }],
      rfl, by decide, by decide⟩, by decide, by decide, by decide⟩

/-- C23, at the failing inputs. With only the Kibana service token configured
`ensureServiceToken` returns nil from line 361 and the Elasticsearch service token stays
empty; with an empty token file it returns nil from line 371 and both service tokens are
empty. The doc comment of lines 354-357 says that the function ensures the service token
attributes are filled: the paths that read a file or ask Kibana set both tokens, the
first return sets neither, and no path looks at whether what it sets is empty. -/
theorem ensureServiceToken_token_left_empty :
    (ensureServiceToken sampleContainerEnv kibanaTokenOnlySetup).2.1 = none ∧
    (ensureServiceToken sampleContainerEnv
      kibanaTokenOnlySetup).1.FleetServer.Elasticsearch.ServiceToken = "" ∧
    (ensureServiceToken emptyFileEnv tokenFileSetup).2.1 = none ∧
    (ensureServiceToken emptyFileEnv tokenFileSetup).1.Kibana.Fleet.ServiceToken = "" ∧
    (ensureServiceToken emptyFileEnv
      tokenFileSetup).1.FleetServer.Elasticsearch.ServiceToken = "" := by
  decide

/-- C24. `arrayContains` checks membership. With at least two arguments of which the first
is an array it returns a boolean, which is true exactly when some later argument is
deeply equal to some element of the array (a nil array has no element, so it gives
false); a null first argument gives false; fewer than two arguments, or a first argument
that is neither null nor an array, gives an error and no boolean. Deeply equal means the
same value: the same dynamic type and contents, where a nil array and an empty non-nil
array are not the same. -/
theorem arrayContains_membership :
    (∀ (a : List Value) (check : Value) (more : List Value),
      ∃ b, arrayContains (.array a :: check :: more) = .ok b ∧
        (b = true ↔ ∃ c ∈ check :: more, ∃ i ∈ a, DeepEqual i c = true) ∧
        (b = true ↔ ∃ c ∈ check :: more, c ∈ a)) ∧
    (∀ (check : Value) (more : List Value),
      arrayContains (.nilArray :: check :: more) = .ok false) ∧
    (∀ (check : Value) (more : List Value),
      arrayContains (.null :: check :: more) = .ok false) ∧
    (∀ args : List Value, args.length < 2 → ∃ e, arrayContains args = .err e) ∧
    (∀ (first : Value) (rest : List Value), first ≠ .null → first ≠ .nilArray →
      (∀ a, first ≠ .array a) → ∃ e, arrayContains (first :: rest) = .err e) ∧
    (∀ v w : Value, DeepEqual v w = true ↔ v = w) ∧
    DeepEqual .nilArray (.array []) = false := by
  refine ⟨?_, ?_, ?_, ?_, ?_, DeepEqual_iff, rfl⟩
  · intro a check more
    refine ⟨arrayContainsOuter a (check :: more), by simp [arrayContains],
      arrayContainsOuter_iff a (check :: more), ?_⟩
    rw [arrayContainsOuter_iff]
    constructor
    · rintro ⟨c, hc, i, hi, hd⟩
      exact ⟨c, hc, by rw [← (DeepEqual_iff i c).mp hd]; exact hi⟩
    · rintro ⟨c, hc, hi⟩
      exact ⟨c, hc, c, hi, (DeepEqual_iff c c).mpr rfl⟩
  · intro check more
    have h : arrayContains (.nilArray :: check :: more) =
        .ok (arrayContainsOuter [] (check :: more)) := by simp [arrayContains]
    rw [h]
    cases hb : arrayContainsOuter [] (check :: more) with
    | false => rfl
    | true =>
      obtain ⟨c, _, i, hi, _⟩ := (arrayContainsOuter_iff [] (check :: more)).mp hb
      exact absurd hi (List.not_mem_nil i)
  · intro check more
    simp [arrayContains]
  · intro args h
    unfold arrayContains
    rw [if_pos h]
    exact ⟨_, rfl⟩
  · intro first rest h1 h2 h3
    unfold arrayContains
    split
    · exact ⟨_, rfl⟩
    · cases first with
      | null => exact absurd rfl h1
      | nilArray => exact absurd rfl h2
      | array a => exact absurd rfl (h3 a)
      | nil => exact ⟨_, rfl⟩
      | bool b => exact ⟨_, rfl⟩
      | int i => exact ⟨_, rfl⟩
      | str s => exact ⟨_, rfl⟩

/-- C24 on samples: a string found in an array, a nested array found by deep equality, a
value that is not there, an empty non-nil array that is not found where the element is a
nil array, and a first argument that is not an array. -/
theorem arrayContains_membership_witness :
    arrayContains [.array [.int 1, .str "a"], .str "b", .str "a"] = .ok true ∧
    arrayContains [.array [.array [.int 1, .int 2]], .array [.int 1, .int 2]] = .ok true ∧
    arrayContains [.array [.int 1, .str "a"], .str "1"] = .ok false ∧
    arrayContains [.array [.nilArray], .array []] = .ok false ∧
    arrayContains [.array [.array []], .array []] = .ok true ∧
    arrayContains [.nilArray, .nil] = .ok false ∧
    (∃ e, arrayContains [.str "a", .str "a"] = .err e) :=
  ⟨by decide, by decide, by decide, by decide, by decide, by decide,
    arrayContains_membership.2.2.2.2.1 (.str "a") [.str "a"] (by simp) (by simp) (by simp)⟩

/-- C25. Delivery by the gateway loop, as the specification describes it. When the service
answers N consecutive polls successfully, each with one non-empty action batch, exactly
those N batches are sent on `Actions()`, in arrival order, none dropped, merged or
reordered, and nothing is sent on `Errors()`. A failed poll sends exactly one error on
`Errors()` and nothing on `Actions()`, and does not end the loop: the polls that follow it
are made and deliver as they would have without it. -/
theorem gateway_delivery :
    (∀ batches : List (List Action), (∀ batch ∈ batches, batch ≠ []) →
      (Gateway.Run (batches.map PollResult.actions)).Actions = batches ∧
      (Gateway.Run (batches.map PollResult.actions)).Actions.length = batches.length ∧
      (Gateway.Run (batches.map PollResult.actions)).Errors = []) ∧
    (∀ (before after : List PollResult) (err : GoError),
      (Gateway.Run (before ++ PollResult.failed err :: after)).Errors =
        (Gateway.Run before).Errors ++ err :: (Gateway.Run after).Errors ∧
      (Gateway.Run (before ++ PollResult.failed err :: after)).Actions =
        (Gateway.Run before).Actions ++ (Gateway.Run after).Actions ∧
      (Gateway.Run (before ++ PollResult.failed err :: after)).polls =
        before.length + 1 + after.length) := by
  constructor
  · intro batches hne
    have hA : (Gateway.Run (batches.map PollResult.actions)).Actions = batches := by
      rw [(gateway_run _).1]
      induction batches with
      | nil => rfl
      | cons b rest ih =>
        have hb : b ≠ [] := hne b (List.mem_cons_self _ _)
        have hb2 : b.isEmpty = false := by
          cases b with
          | nil => exact absurd rfl hb
          | cons x xs => rfl
        simp only [List.map_cons, List.flatten_cons, PollResult.sentActions, hb2]
        rw [ih (fun batch h => hne batch (List.mem_cons_of_mem _ h))]
        rfl
    refine ⟨hA, by rw [hA], ?_⟩
    rw [(gateway_run _).2.1]
    clear hA hne
    induction batches with
    | nil => rfl
    | cons b rest ih =>
      simp only [List.map_cons, List.flatten_cons, PollResult.sentErrors, List.nil_append]
      exact ih
  · intro before after err
    refine ⟨?_, ?_, ?_⟩
    · rw [(gateway_run _).2.1, (gateway_run _).2.1, (gateway_run _).2.1]
      simp [PollResult.sentErrors]
    · rw [(gateway_run _).1, (gateway_run _).1, (gateway_run _).1]
      simp [PollResult.sentActions]
    · rw [(gateway_run _).2.2]
      simp
      omega

/-- C25 on a sample: two equal batches around a failed poll are both delivered, in order,
with the one error between them on the other channel. -/
theorem gateway_delivery_witness :
    (Gateway.Run [.actions [⟨"policy-change"⟩], .actions [⟨"policy-change"⟩]]).Actions =
      [[⟨"policy-change"⟩], [⟨"policy-change"⟩]] ∧
    (Gateway.Run [.actions [⟨"policy-change"⟩], .failed (.new "timeout"),
      .actions [⟨"upgrade"⟩]]).Errors = [.new "timeout"] ∧
    (Gateway.Run [.actions [⟨"policy-change"⟩], .failed (.new "timeout"),
      .actions [⟨"upgrade"⟩]]).Actions = [[⟨"policy-change"⟩], [⟨"upgrade"⟩]] :=
  ⟨(gateway_delivery.1 [[⟨"policy-change"⟩], [⟨"policy-change"⟩]] (by simp)).1,
    by decide, by decide⟩

/-- C26, as stated, fails in its last part: an agent enrolled by an older version is started
with a replace token that is the text of its agent ID; the run returns `(false, nil)`,
writes the backfilled record, and the agent ID of that record, unchanged as it must be,
is the plaintext of the replace token. -/
theorem shouldFleetEnroll_backfill_token_in_record :
    shouldFleetEnroll 3 reusedIDEnv legacyWorld reusedIDSetup =
      some ⟨.ret false none, { disk := "fleet: agent-1" },
        backfillTrace reusedIDEnv reusedIDSetup legacyStored "agent-1" 1
          ++ [Event.storeSave "fleet: agent-1"]⟩ ∧
    decodeStored reusedIDEnv legacyWorld = .ok legacyStored ∧
    reusedIDEnv.yamlMarshal (backfilledRecord reusedIDEnv reusedIDSetup legacyStored) =
      .ok "fleet: agent-1" ∧
    reusedIDSetup.Fleet.ReplaceToken ∈
      (backfilledRecord reusedIDEnv reusedIDSetup legacyStored).fieldValues := by
  decide

/-- C26, amended. The backfill changes nothing but missing hashes. On every run of
`shouldFleetEnroll` that returns `(false, nil)` and writes to the store, what is written is the
marshalled form of a record that equals the record loaded except for the token hashes:
the agent identity, the access API key and the client hosts are those loaded, a hash that
was not empty is unchanged, and a hash that differs from the loaded one was empty and is
now the base64 encoding of a hash generated from the requested token; at least one hash
was backfilled, and the store holds what was written. No field is set to a plaintext
token: provided the encoding of a generated hash is not the text of a requested token, a
requested token is a field value of the written record only if it was one of the loaded
record. -/
theorem shouldFleetEnroll_backfill_frame (fuel : Nat) (env : Env) (w : World)
    (setupCfg : setupConfig) (run : Run) (data : String)
    (h : shouldFleetEnroll fuel env w setupCfg = some run)
    (hok : run.outcome = .ret false none) (hwrites : Writes run data) :
    ∃ loaded written, decodeStored env w = .ok loaded ∧
      env.yamlMarshal written = .ok data ∧ run.world = { disk := data } ∧
      BackfillFrame env setupCfg loaded written ∧
      (EncodedHashIsNotPlaintext env setupCfg →
        ∀ token ∈ [setupCfg.Fleet.EnrollmentToken, setupCfg.Fleet.ReplaceToken],
          token ∈ written.fieldValues → token ∈ loaded.fieldValues) := by
  obtain ⟨loaded, hdec, hsaves, hm, hworld⟩ :=
    shouldFleetEnroll_saved fuel env w setupCfg run data h hwrites
  have hframe := backfillFrame_backfilledRecord env setupCfg loaded hsaves
  exact ⟨loaded, backfilledRecord env setupCfg loaded, hdec, hm, hworld hok, hframe,
    fun hlaw token htoken hmem =>
      backfillFrame_plaintext env setupCfg loaded _ hframe hlaw token htoken hmem⟩

/-- C26 (amended) on a sample: the agent enrolled by an older version is started with both tokens;
the run writes a record, and the hypotheses of the frame hold for it. -/
theorem shouldFleetEnroll_backfill_frame_witness :
    EncodedHashIsNotPlaintext legacyEnv sampleSetup ∧
    ∃ loaded written, decodeStored legacyEnv legacyWorld = .ok loaded ∧
      legacyEnv.yamlMarshal written = .ok "fleet: agent-1" ∧
      (⟨.ret false none, { disk := "fleet: agent-1" },
        backfillTrace legacyEnv sampleSetup legacyStored "agent-1" 1
          ++ [Event.storeSave "fleet: agent-1"]⟩ : Run).world = { disk := "fleet: agent-1" } ∧
      BackfillFrame legacyEnv sampleSetup loaded written ∧
      (EncodedHashIsNotPlaintext legacyEnv sampleSetup →
        ∀ token ∈ [sampleSetup.Fleet.EnrollmentToken, sampleSetup.Fleet.ReplaceToken],
          token ∈ written.fieldValues → token ∈ loaded.fieldValues) :=
  ⟨legacy_encodedHashIsNotPlaintext,
    shouldFleetEnroll_backfill_frame 3 legacyEnv legacyWorld sampleSetup
      ⟨.ret false none, { disk := "fleet: agent-1" },
        backfillTrace legacyEnv sampleSetup legacyStored "agent-1" 1
          ++ [Event.storeSave "fleet: agent-1"]⟩
      "fleet: agent-1" (by decide) rfl
      (List.mem_append.mpr (Or.inr (List.mem_singleton.mpr rfl)))⟩

/-- C27. Transient probe failures are retried. When no local check decides and the probe is
reached, and the acknowledge command succeeds at attempt `n` after attempts `1 .. n-1`
failed with errors that are not the invalid API key error (`n = 2`: attempt 1 fails and
attempt 2 succeeds; `n = 3`: attempts 1 and 2 fail and attempt 3 succeeds), then `ackFleet`
returns no error after exactly `n` acknowledge requests, with a wait between two of
them, and `shouldFleetEnroll` continues with the lines after the probe and returns false. -/
theorem ackFleet_retries_transient (k : Nat) (env : Env) (w : World) (setupCfg : setupConfig)
    (storedConfig : Configuration) (info : AgentInfo) (n : Nat)
    (hlocal : LocalChecksPass env w setupCfg storedConfig)
    (hclient : ClientBuilt env storedConfig info)
    (hprobe : ProbeSucceedsAt env info.ID n) :
    (∀ tr, ackFleet (k + 3) env info.ID tr = some (none, tr ++ ackTrace info.ID n)) ∧
    ackCalls (ackTrace info.ID n) = n ∧
    shouldFleetEnroll (k + 3) env w setupCfg =
      some (stepEnrollmentHashUpdate env w setupCfg storedConfig
        (probeTrace env setupCfg storedConfig info.ID n)) ∧
    (∃ run e, shouldFleetEnroll (k + 3) env w setupCfg = some run ∧
      run.outcome = .ret false e ∧ ackCalls run.trace = n) := by
  have hrun : shouldFleetEnroll (k + 3) env w setupCfg =
      some (stepEnrollmentHashUpdate env w setupCfg storedConfig
        (probeTrace env setupCfg storedConfig info.ID n)) := by
    rw [shouldFleetEnroll_of_localChecksPass _ env w setupCfg storedConfig hlocal,
      stepValidateAPIToken_of_clientBuilt _ env w setupCfg storedConfig info _ hclient,
      ackFleet_of_probeSucceedsAt k env info.ID _ n hprobe]
    simp [probeTrace]
  refine ⟨fun tr => ackFleet_of_probeSucceedsAt k env info.ID tr n hprobe,
    ackCalls_ackTrace _ _, hrun, ?_⟩
  obtain ⟨e, he⟩ := stepEnrollmentHashUpdate_outcome env w setupCfg storedConfig
    (probeTrace env setupCfg storedConfig info.ID n)
  refine ⟨_, e, hrun, he, ?_⟩
  rw [stepEnrollmentHashUpdate_ackCalls, ackCalls_probeTrace]

/-- C27 on samples: the first acknowledge fails with a transport error and the second
succeeds, so the probe ends without error after two requests and the call returns
`(false, nil)`; likewise after three requests when the first two fail. -/
theorem ackFleet_retries_transient_witness :
    ackFleet 3 flakyEnv "agent-1" [] =
      some (none, [Event.ackExecute "agent-1", Event.sleep, Event.ackExecute "agent-1"]) ∧
    (∃ tr, shouldFleetEnroll 3 flakyTwiceEnv sampleWorld sampleSetup =
      some ⟨.ret false none, sampleWorld, tr⟩ ∧ ackCalls tr = 3) :=
  ⟨(ackFleet_retries_transient 0 flakyEnv sampleWorld sampleSetup sampleStored
      { ID := "agent-1" } 2 flaky_localChecksPass ⟨by decide, by decide, by decide⟩
      flaky_probeSucceedsAt).1 [],
    ⟨probeTrace flakyTwiceEnv sampleSetup sampleStored "agent-1" 3, by decide, by decide⟩⟩


/-- C28, at the failing input. With a retry count of 2 and a Kibana that answers every
request with status 503, `performGET` makes its two attempts and returns nil, the
response not filled; `kibanaFetchPolicy` therefore goes on to `findPolicy` with no policies and
reports that the policy was not found, and `kibanaFetchToken` goes on to `findKey` with no keys. -/
theorem performGET_exhausted_returns_nil :
    (performGET twoTriesSetup downKibana "/api/fleet/agent_policies"
      (some downKibana.jsonUnmarshalPolicies) "Kibana fetch policy").err = none ∧
    (performGET twoTriesSetup downKibana "/api/fleet/agent_policies"
      (some downKibana.jsonUnmarshalPolicies) "Kibana fetch policy").response = none ∧
    requestCalls (performGET twoTriesSetup downKibana "/api/fleet/agent_policies"
      (some downKibana.jsonUnmarshalPolicies) "Kibana fetch policy").trace = 2 ∧
    (kibanaFetchPolicy twoTriesSetup downKibana).1 =
      .err (.new "unable to find policy named \"Agent policy\"") ∧
    (kibanaFetchToken twoTriesSetup downKibana { ID := "policy-1", Name := "Agent policy" }
      "Default").1 =
      .err (.new
        "unable to find enrollment token named \"Default\" in policy \"Agent policy\"") := by
  have h := performGET_all_fail twoTriesSetup downKibana "/api/fleet/agent_policies"
    (some downKibana.jsonUnmarshalPolicies) "Kibana fetch policy" 2 rfl
    (fun _ _ => Or.inr (by show (503 : Nat) ≠ 200; decide))
  have hk := performGET_all_fail twoTriesSetup downKibana "/api/fleet/enrollment_api_keys"
    (some downKibana.jsonUnmarshalAPIKeys) "Kibana fetch token" 2 rfl
    (fun _ _ => Or.inr (by show (503 : Nat) ≠ 200; decide))
  refine ⟨h.1, h.2.1, h.2.2, ?_, ?_⟩
  · unfold kibanaFetchPolicy
    simp only [h.1, h.2.1]
    decide
  · unfold kibanaFetchToken
    simp only [hk.1, hk.2.1]
    decide

/-- C29, at the failing input. The stored record decodes to a configuration whose `Fleet.Info`
is nil and the request names no agent ID: the check of line 1074, which tests `Info` for
nil only when an ID is requested, lets the call continue, every other local check passes,
the Fleet client is built, and the read of `storedConfig.Fleet.Info.ID` in line 1137
dereferences nil before any acknowledge request is sent. With an agent ID requested the
same record is answered by `(true, nil)` from line 1076. -/
theorem shouldFleetEnroll_nil_identity_at_probe :
    decodeStored noIdentityEnv sampleWorld = .ok noIdentityStored ∧
    noIdentityStored.Fleet.Info = none ∧
    sampleSetup.Fleet.ID = "" ∧
    shouldFleetEnroll 3 noIdentityEnv sampleWorld sampleSetup =
      some ⟨.nilPointerDereference, sampleWorld,
        localTrace noIdentityEnv sampleSetup noIdentityStored ++
          [Event.newFleetClient "access-key" { Hosts := ["https://fleet:8220"] }]⟩ ∧
    shouldFleetEnroll 3 noIdentityEnv sampleWorld otherAgentSetup =
      some ⟨.ret true none, sampleWorld, loadTrace noIdentityEnv⟩ := by
  decide

/-- C30. The service token stays off the command line when a token file is configured. For
every two setup configurations that differ at most in the values of the service token,
with Fleet Server enabled and a non-empty Elasticsearch service-token path, `buildEnrollArgs`
returns the same result (the maps of headers being visited in the same order); and the
arguments it returns have the flag `--fleet-server-service-token-path` followed by the
path, and do not have the flag `--fleet-server-service-token`: no element the code
appends as a flag has that text. -/
theorem buildEnrollArgs_service_token_off_command_line (eenv : EnrollEnv)
    (cfg1 cfg2 : setupConfig) (token policyID : String)
    (henable : cfg1.FleetServer.Enable = true)
    (hpath : cfg1.FleetServer.Elasticsearch.ServiceTokenPath ≠ "")
    (hdiffer : DifferOnlyInServiceToken cfg1 cfg2) :
    cfg2.FleetServer.Enable = true ∧
    cfg2.FleetServer.Elasticsearch.ServiceTokenPath =
      cfg1.FleetServer.Elasticsearch.ServiceTokenPath ∧
    buildEnrollArgs eenv cfg1 token policyID = buildEnrollArgs eenv cfg2 token policyID ∧
    (∀ args, buildEnrollArgs eenv cfg1 token policyID = .ok args →
      (∃ before after, args = before ++ ["--fleet-server-service-token-path",
        cfg1.FleetServer.Elasticsearch.ServiceTokenPath] ++ after) ∧
      ∃ items, enrollArgs eenv cfg1 token policyID = .ok items ∧
        args = items.map Arg.text ∧
        Arg.literal "--fleet-server-service-token" ∉ items ∧
        ∃ before after, items = before ++ [Arg.literal "--fleet-server-service-token-path",
          Arg.value cfg1.FleetServer.Elasticsearch.ServiceTokenPath] ++ after) := by
  have hE2 : cfg1.FleetServer.Enable = cfg2.FleetServer.Enable :=
    congrArg (fun c => c.FleetServer.Enable) hdiffer
  have hP2 : cfg1.FleetServer.Elasticsearch.ServiceTokenPath =
      cfg2.FleetServer.Elasticsearch.ServiceTokenPath :=
    congrArg (fun c => c.FleetServer.Elasticsearch.ServiceTokenPath) hdiffer
  have hitems : enrollArgs eenv cfg1 token policyID = enrollArgs eenv cfg2 token policyID := by
    rw [← enrollArgs_setServiceToken eenv cfg1 token policyID "" hpath,
      ← enrollArgs_setServiceToken eenv cfg2 token policyID "" (hP2 ▸ hpath)]
    unfold DifferOnlyInServiceToken at hdiffer
    rw [hdiffer]
  refine ⟨hE2 ▸ henable, hP2.symm, ?_, ?_⟩
  · unfold buildEnrollArgs
    rw [hitems]
  · intro args hargs
    unfold buildEnrollArgs at hargs
    cases hi : enrollArgs eenv cfg1 token policyID with
    | err e => simp [hi] at hargs
    | ok items =>
      simp only [hi, Result.ok.injEq] at hargs
      have hnot := literal_not_mem_enrollArgs eenv cfg1 token policyID items henable hpath hi
      have hsplit : ∃ before after, items = before ++
          [Arg.literal "--fleet-server-service-token-path",
            Arg.value cfg1.FleetServer.Elasticsearch.ServiceTokenPath] ++ after := by
        unfold enrollArgs at hi
        rw [if_pos henable] at hi
        cases hc : buildFleetServerConnStr eenv cfg1.FleetServer with
        | err e => simp [hc] at hi
        | ok connStr =>
          simp only [hc, Result.ok.injEq] at hi
          refine ⟨baseEnrollArgs eenv ++ [Arg.literal "--fleet-server-es", Arg.value connStr],
            fleetServerOptionArgs eenv cfg1 policyID ++ commonEnrollArgs eenv cfg1 token, ?_⟩
          rw [← hi]
          unfold fleetServerEnrollArgs
          rw [serviceTokenArgs_of_path _ hpath]
          simp only [List.append_assoc]
      obtain ⟨before, after, hba⟩ := hsplit
      refine ⟨⟨before.map Arg.text, after.map Arg.text, ?_⟩, items, rfl, hargs.symm, hnot,
        before, after, hba⟩
      rw [← hargs, hba]
      simp [Arg.text]

/-- C30 on a sample: with the token file configured, two configurations that hold different
token values give the same arguments, which name the file and not the token. -/
theorem buildEnrollArgs_service_token_off_command_line_witness :
    buildEnrollArgs sampleEnrollEnv tokenPathSetup "" "fleet-server-policy" =
      buildEnrollArgs sampleEnrollEnv (setServiceToken tokenPathSetup "secret-token-2") ""
        "fleet-server-policy" ∧
    buildEnrollArgs sampleEnrollEnv tokenPathSetup "" "fleet-server-policy" =
      .ok ["enroll", "-f", "-c", "/usr/share/elastic-agent/state/elastic-agent.yml",
        "--path.home", "/usr/share/elastic-agent/state",
        "--path.config", "/usr/share/elastic-agent/state",
        "--path.logs", "/usr/share/elastic-agent/state/logs",
        "--path.socket", "unix:///usr/share/elastic-agent/state/elastic-agent.sock",
        "--skip-daemon-reload", "--fleet-server-es", "https://es:9200",
        "--fleet-server-service-token-path", "/run/secrets/token",
        "--fleet-server-policy", "fleet-server-policy", "--url", "https://fleet:8220"] :=
  ⟨(buildEnrollArgs_service_token_off_command_line sampleEnrollEnv tokenPathSetup
      (setServiceToken tokenPathSetup "secret-token-2") "" "fleet-server-policy"
      (by decide) (by decide) (by unfold DifferOnlyInServiceToken; decide)).2.2.1, by decide⟩

end ElasticAgent
